import Mathlib

/-!
# Task-management API: session lifecycle and task status machine

A shallow embedding of the service layer of the repository
(`src/services/authService.js`, `src/services/taskService.js`,
`src/services/categoryService.js`, `src/models/RefreshToken.js`,
`src/models/Task.js`, `src/models/Category.js`, `src/utils/tokenUtils.js`,
`src/utils/ApiError.js`, `src/utils/ApiResponse.js`) and of the middleware
(`src/middleware/auth.js`, `src/middleware/errorHandler.js`).

Conventions of the embedding.

* The MongoDB collections are lists of documents in insertion order; `findOne`
  is the first match.  A `Db` value carries the four collections and the
  counter that `_id`s are drawn from.
* Every `async` service function becomes a pure function that takes the
  database and the instant `now` (milliseconds since the epoch, what
  `new Date()` returns while the call runs) and returns the database it leaves
  behind together with either the value it resolves to or what it throws.
  The database is returned on failure too, because some functions write before
  they throw.
* The `createdAt` / `updatedAt` stamps that `timestamps: true` maintains and the
  `timestamp` of an `ApiError` are bookkeeping and are not modelled; nor is the
  background removal of expired refresh-token documents by the TTL index.
* The libraries the services call (`jsonwebtoken`, `crypto`) are not part of
  the repository.  `sha256` is a field of the environment `Env`, about which
  nothing is assumed; `jwt.sign` / `jwt.verify` are described by `jwtSign` and
  `jwtVerify` below, and the reading of a string `expiresIn` by `ms`.
* Two calls in flight are interleaved at their `await`s: `refreshStep` is the
  code of `refreshAccessToken` from one `await` to the next.
* The Number that `getAccessTokenExpiresIn` computes is a `JsNumber`: a natural
  number rounded to a double as `parseInt` and `*` round it, or `Infinity`.
  Instants, lifetimes and counts are exact naturals and integers.
* The `length` of a string is counted in UTF-16 code units (`jsLength`) and
  `trim` strips the white space of ECMAScript.
-/

namespace TaskApi

/-- An `ObjectId`. -/
abbrev Id := Nat

/-- A `Date`: milliseconds since the epoch. -/
abbrev Instant := Nat

/-! ## `utils/ApiError.js` -/

/-- `class ApiError`: `statusCode`, `message`, `code`, `details` (`null` is `[]`). -/
structure ApiError where
  statusCode : Nat
  message : String
  code : String
  details : List (String × String)
  deriving DecidableEq, Repr

namespace ApiError

def badRequest (message : String) : ApiError :=
  ⟨400, message, "BAD_REQUEST", []⟩

def validationError (message : String) (details : List (String × String)) : ApiError :=
  ⟨400, message, "VALIDATION_ERROR", details⟩

def invalidStatusTransition (message : String) : ApiError :=
  ⟨400, message, "INVALID_STATUS_TRANSITION", []⟩

def unauthorized (message : String) : ApiError :=
  ⟨401, message, "UNAUTHORIZED", []⟩

def invalidCredentials (message : String) : ApiError :=
  ⟨401, message, "INVALID_CREDENTIALS", []⟩

def forbidden (message : String) : ApiError :=
  ⟨403, message, "FORBIDDEN", []⟩

def notFound (message : String) : ApiError :=
  ⟨404, message, "NOT_FOUND", []⟩

def conflict (message : String) (details : List (String × String)) : ApiError :=
  ⟨409, message, "CONFLICT", details⟩

end ApiError

/-- What a service call can throw: an `ApiError` of its own, or an error of the
persistence layer that it lets through (the duplicate-key error, code 11000, of
a unique index, named by the indexed field; a Mongoose `ValidationError`, with
the paths that failed). -/
inductive Thrown where
  | api (e : ApiError)
  | duplicateKey (field : String)
  | validation (paths : List String)
  deriving DecidableEq, Repr

/-- The outcome of a call: the value it resolves to, or what it throws. -/
inductive Outcome (α : Type) where
  | ok (value : α)
  | threw (e : Thrown)
  deriving DecidableEq, Repr

/-! ## `utils/ApiResponse.js` -/

/-- The error response sent to the caller: the HTTP status and the body
`{ success, error: { code, message, details } }`. -/
structure ErrorResponse where
  status : Nat
  success : Bool
  code : String
  message : String
  details : List (String × String)
  deriving DecidableEq, Repr

/-- `ApiResponse.error(res, error)`: `error.statusCode || 500`,
`error.code || 'ERROR'`, `error.message || 'An error occurred'`, and the details
when there are any. -/
def ApiResponse.error (error : ApiError) : ErrorResponse :=
  { status := if error.statusCode = 0 then 500 else error.statusCode
    success := false
    code := if error.code = "" then "ERROR" else error.code
    message := if error.message = "" then "An error occurred" else error.message
    details := error.details }

/-! ## Tokens (`utils/tokenUtils.js`) -/

/-- The payload `jwt.sign` puts in a token: the `userId` it was given, `iat` and
`exp` in whole seconds. -/
structure Payload where
  userId : Id
  iat : Nat
  exp : Nat
  deriving DecidableEq, Repr

/-- The strings that are presented as tokens: a JSON Web Token, determined by the
secret that signed it and its payload (HMAC signing is deterministic), or any
other text. -/
inductive Token where
  | jwt (secret : String) (payload : Payload)
  | text (raw : String)
  deriving DecidableEq, Repr

/-- JavaScript truthiness of a token string: only the empty string is falsy. -/
def Token.truthy : Token → Bool
  | .jwt _ _ => true
  | .text raw => raw != ""

/-- The process environment and the libraries it configures. `accessLifetime`
and `refreshLifetime` are the lifetimes in seconds that `jwt.sign` derives from
`JWT_ACCESS_EXPIRES_IN || '1h'` and `JWT_REFRESH_EXPIRES_IN || '7d'`; `sha256`
is `crypto.createHash('sha256').update(token).digest('hex')`, the digest read
as a number; `bcrypt` stands for the one-way hash under which a password is
stored. -/
structure Env where
  JWT_ACCESS_SECRET : String
  JWT_REFRESH_SECRET : String
  JWT_ACCESS_EXPIRES_IN : Option String
  accessLifetime : Nat
  refreshLifetime : Nat
  sha256 : Token → Nat
  bcrypt : String → String

/-- `jwt.sign({ userId }, secret, { expiresIn })` at instant `now`: `iat` is
`Math.floor(Date.now() / 1000)` and `exp` is `iat` plus the lifetime. -/
def jwtSign (secret : String) (userId : Id) (lifetime : Nat) (now : Instant) : Token :=
  .jwt secret ⟨userId, now / 1000, now / 1000 + lifetime⟩

/-- `jwt.verify(token, secret)` at instant `now`, with the exception it throws
turned into `none`: the payload when the token was signed with `secret` and the
clock, in whole seconds, is still before `exp`. -/
def jwtVerify (token : Token) (secret : String) (now : Instant) : Option Payload :=
  match token with
  | .jwt signedWith payload =>
    if signedWith = secret ∧ now / 1000 < payload.exp then some payload else none
  | .text _ => none

def generateAccessToken (env : Env) (userId : Id) (now : Instant) : Token :=
  jwtSign env.JWT_ACCESS_SECRET userId env.accessLifetime now

def generateRefreshToken (env : Env) (userId : Id) (now : Instant) : Token :=
  jwtSign env.JWT_REFRESH_SECRET userId env.refreshLifetime now

def verifyAccessToken (env : Env) (token : Token) (now : Instant) : Option Payload :=
  jwtVerify token env.JWT_ACCESS_SECRET now

def verifyRefreshToken (env : Env) (token : Token) (now : Instant) : Option Payload :=
  jwtVerify token env.JWT_REFRESH_SECRET now

/-- The natural number that a string of decimal digits writes. -/
def parseDigits (digits : List Char) : Nat :=
  digits.foldl (fun n c => 10 * n + (c.toNat - '0'.toNat)) 0

/-- A JavaScript Number that is a natural number or `Infinity`: the values that
`parseInt` of a string of digits and its product with a positive integer take. -/
inductive JsNumber where
  | finite (n : Nat)
  | infinity
  deriving DecidableEq, Repr

instance (n : Nat) : OfNat JsNumber n := ⟨.finite n⟩

/-- The least `e`, counted up from the given one, at which `n / 2 ^ e` is below
`2 ^ 53`: the number of low bits of `n` that a double has no room for. -/
def excessBits : Nat → Nat → Nat → Nat
  | 0, _, e => e
  | fuel + 1, n, e => if n / 2 ^ e < 2 ^ 53 then e else excessBits fuel n (e + 1)

/-- The Number value of a natural number: the number itself below `2 ^ 53`, and
from there on the nearest double, the one with the even significand when two
are as near, or `Infinity` when that would be `2 ^ 1024` or more. -/
def toNumber (n : Nat) : JsNumber :=
  if n < 2 ^ 53 then .finite n
  else
    let e := excessBits n n 0
    let q := n / 2 ^ e
    let r := n % 2 ^ e
    let significand := if 2 ^ e < 2 * r ∨ (2 * r = 2 ^ e ∧ q % 2 = 1) then q + 1 else q
    if significand * 2 ^ e < 2 ^ 1024 then .finite (significand * 2 ^ e) else .infinity

/-- `parseInt` of a string of decimal digits: the Number value of the integer
that the digits write. (ECMAScript lets an engine read the digits after the
twentieth significant one as zeros; the engine of Node reads them all.) -/
def parseInt (digits : List Char) : JsNumber :=
  toNumber (parseDigits digits)

/-- The product `value * k` of a Number and a natural number: the Number value
of the exact product. -/
def JsNumber.mul (value : JsNumber) (k : Nat) : JsNumber :=
  match value with
  | .finite n => toNumber (n * k)
  | .infinity => .infinity

/-- `getAccessTokenExpiresIn`: the setting (or `'1h'` when it is unset or empty)
is matched against `^(\d+)([smhd])$`. -/
def getAccessTokenExpiresIn (env : Env) : JsNumber :=
  let expiresIn : String :=
    match env.JWT_ACCESS_EXPIRES_IN with
    | none => "1h"
    | some s => if s = "" then "1h" else s
  match expiresIn.data.reverse with
  | [] => 3600
  | unit :: rest =>
    let digits := rest.reverse
    if digits ≠ [] ∧ digits.all Char.isDigit then
      let value := parseInt digits
      if unit = 's' then value
      else if unit = 'm' then value.mul 60
      else if unit = 'h' then value.mul 3600
      else if unit = 'd' then value.mul 86400
      else 3600
    else 3600

/-- The credential pair `{ accessToken, refreshToken, expiresIn }`. -/
structure Tokens where
  accessToken : Token
  refreshToken : Token
  expiresIn : JsNumber
  deriving DecidableEq, Repr

def generateTokens (env : Env) (userId : Id) (now : Instant) : Tokens :=
  { accessToken := generateAccessToken env userId now
    refreshToken := generateRefreshToken env userId now
    expiresIn := getAccessTokenExpiresIn env }

/-! ## The lifetime that `jwt.sign` reads from the setting

`jsonwebtoken` is not part of the repository. It turns a string `expiresIn`
into milliseconds with the package `ms` and puts `exp` at
`Math.floor(iat + milliseconds / 1000)`. -/

/-- The units of the package `ms`, in milliseconds; no unit means milliseconds. -/
def msUnit (unit : String) : Option Nat :=
  if unit ∈ ["years", "year", "yrs", "yr", "y"] then some 31557600000
  else if unit ∈ ["weeks", "week", "w"] then some 604800000
  else if unit ∈ ["days", "day", "d"] then some 86400000
  else if unit ∈ ["hours", "hour", "hrs", "hr", "h"] then some 3600000
  else if unit ∈ ["minutes", "minute", "mins", "min", "m"] then some 60000
  else if unit ∈ ["seconds", "second", "secs", "sec", "s"] then some 1000
  else if unit ∈ ["milliseconds", "millisecond", "msecs", "msec", "ms", ""] then some 1
  else none

/-- The package `ms` on a string of at most 100 characters made of decimal
digits, blanks and a unit in either case. Strings with a sign or a decimal
point, which `ms` reads with `parseFloat`, are left out: for them, as for the
strings that `ms` does not read, the value is `none`. -/
def ms (str : String) : Option Nat :=
  let digits := str.data.takeWhile Char.isDigit
  let unit := ((str.data.dropWhile Char.isDigit).dropWhile (fun c => c == ' ')).map Char.toLower
  if digits = [] ∨ 100 < str.length then none
  else (msUnit (String.mk unit)).map (fun k => parseDigits digits * k)

/-- The lifetime in seconds with which `generateAccessToken` has the access
token signed: `expiresIn` is `process.env.JWT_ACCESS_EXPIRES_IN || '1h'`. -/
def signedAccessLifetime (env : Env) : Option Nat :=
  let expiresIn : String :=
    match env.JWT_ACCESS_EXPIRES_IN with
    | none => "1h"
    | some s => if s = "" then "1h" else s
  (ms expiresIn).map (fun milliseconds => milliseconds / 1000)

/-- The environment is of a piece: `accessLifetime` is the lifetime that
`jwt.sign` reads from the setting. -/
def SignsAsConfigured (env : Env) : Prop :=
  signedAccessLifetime env = some env.accessLifetime

instance (env : Env) : Decidable (SignsAsConfigured env) :=
  inferInstanceAs (Decidable (_ = _))

/-! ## The database -/

/-- A user document. `password` holds the hash under which the password is stored. -/
structure User where
  _id : Id
  username : String
  email : String
  password : String
  role : String
  deriving DecidableEq, Repr

/-- A document of `models/RefreshToken.js`: `token` is the digest of the raw
token (declared `unique: true`), `user` the owning user, `isRevoked` defaults
to `false`. -/
structure RefreshToken where
  _id : Id
  token : Nat
  user : Id
  expiresAt : Instant
  isRevoked : Bool
  deriving DecidableEq, Repr

/-- A document of `models/Category.js`. -/
structure Category where
  _id : Id
  name : String
  color : String
  user : Id
  taskCount : Int
  deriving DecidableEq, Repr

/-- A document of `models/Task.js`. An absent or `null` field is `none`. -/
structure Task where
  _id : Id
  title : String
  description : Option String
  status : String
  priority : String
  dueDate : Option Instant
  category : Option Id
  tags : List String
  estimatedHours : Option Int
  completedAt : Option Instant
  user : Id
  sharedWith : List Id
  deriving DecidableEq, Repr

/-- The four collections and the next unused `_id`. -/
structure Db where
  users : List User
  refreshTokens : List RefreshToken
  tasks : List Task
  categories : List Category
  nextId : Id
  deriving DecidableEq, Repr

/-- The empty database. -/
def Db.empty : Db := ⟨[], [], [], [], 0⟩

/-- Apply `f` to the first element that satisfies `p` (what `findOneAndUpdate`
and `findByIdAndUpdate` do to a collection). -/
def updateFirst {α : Type} (p : α → Bool) (f : α → α) : List α → List α
  | [] => []
  | a :: as => if p a then f a :: as else a :: updateFirst p f as

/-! ## `models/User.js` (not among the sources) -/

/-- Modelled from the spec: `models/User.js` is missing; a principal has "a
one-way-hashed secret" and login must "verify the secret against the stored
hash". `comparePassword` hashes the candidate and compares. -/
def User.comparePassword (env : Env) (user : User) (candidate : String) : Bool :=
  env.bcrypt candidate == user.password

/-- `User.findOne({ email })`. -/
def User.findByEmail (db : Db) (email : String) : Option User :=
  db.users.find? (fun u => u.email == email)

/-- `User.findOne({ $or: [{ email }, { username }] })`. -/
def User.findByEmailOrUsername (db : Db) (email username : String) : Option User :=
  db.users.find? (fun u => u.email == email || u.username == username)

/-- `User.findById(id)`. -/
def User.findById (db : Db) (id : Id) : Option User :=
  db.users.find? (fun u => u._id == id)

/-- Modelled from the spec: `models/User.js` is missing; `User.create` stores a
new principal with a fresh `_id`, the password one-way hashed, and the default
role. -/
def User.create (env : Env) (db : Db) (username email password : String) : Db × User :=
  let user : User :=
    { _id := db.nextId, username := username, email := email
      password := env.bcrypt password, role := "user" }
  ({ db with users := db.users ++ [user], nextId := db.nextId + 1 }, user)

/-! ## `models/RefreshToken.js` -/

/-- `RefreshToken.hashToken`. -/
def RefreshToken.hashToken (env : Env) (token : Token) : Nat :=
  env.sha256 token

/-- `RefreshToken.findValidToken`: the first document with the digest of the
token, `isRevoked: false` and `expiresAt > new Date()`. -/
def RefreshToken.findValidToken (env : Env) (db : Db) (token : Token) (now : Instant) :
    Option RefreshToken :=
  let hashedToken := RefreshToken.hashToken env token
  db.refreshTokens.find?
    (fun r => r.token == hashedToken && r.isRevoked == false && decide (now < r.expiresAt))

/-- `RefreshToken.revokeAllUserTokens`: `updateMany` over the user's unrevoked
documents. -/
def RefreshToken.revokeAllUserTokens (db : Db) (userId : Id) : Db :=
  { db with refreshTokens := db.refreshTokens.map (fun r =>
      if r.user == userId && r.isRevoked == false then { r with isRevoked := true } else r) }

/-- The instance method `revoke`: `this.isRevoked = true; this.save()`, which
writes the flag to the stored document with this `_id`. -/
def RefreshToken.revoke (db : Db) (doc : RefreshToken) : Db :=
  { db with refreshTokens := db.refreshTokens.map (fun r =>
      if r._id == doc._id then { r with isRevoked := true } else r) }

/-- `RefreshToken.create({ token, user, expiresAt })`: the unique index on
`token` rejects a digest that is already stored. -/
def RefreshToken.create (db : Db) (token : Nat) (user : Id) (expiresAt : Instant) :
    Db × Outcome RefreshToken :=
  if db.refreshTokens.any (fun r => r.token == token) then
    (db, .threw (.duplicateKey "token"))
  else
    let doc : RefreshToken :=
      { _id := db.nextId, token := token, user := user, expiresAt := expiresAt
        isRevoked := false }
    ({ db with refreshTokens := db.refreshTokens ++ [doc], nextId := db.nextId + 1 }, .ok doc)

/-! ## `services/authService.js` -/

/-- Seven days in milliseconds (`expiresAt.setDate(expiresAt.getDate() + 7)`,
daylight-saving shifts of the local clock aside). -/
def sevenDays : Nat := 7 * 24 * 60 * 60 * 1000

/-- `saveRefreshToken`. -/
def saveRefreshToken (env : Env) (db : Db) (userId : Id) (token : Token) (now : Instant) :
    Db × Outcome Unit :=
  let hashedToken := RefreshToken.hashToken env token
  let expiresAt := now + sevenDays
  match RefreshToken.create db hashedToken userId expiresAt with
  | (db', .ok _) => (db', .ok ())
  | (db', .threw e) => (db', .threw e)

/-- What `register` resolves to: the public fields of the user, and the tokens. -/
structure Registered where
  id : Id
  username : String
  email : String
  tokens : Tokens
  deriving DecidableEq, Repr

/-- `register`. -/
def register (env : Env) (db : Db) (username email password : String) (now : Instant) :
    Db × Outcome Registered :=
  match User.findByEmailOrUsername db email username with
  | some existingUser =>
    if existingUser.email = email then
      (db, .threw (.api (ApiError.conflict "Email already exists"
        [("email", "Email is already registered")])))
    else
      (db, .threw (.api (ApiError.conflict "Username already exists"
        [("username", "Username is already taken")])))
  | none =>
    let (db1, user) := User.create env db username email password
    let tokens := generateTokens env user._id now
    match saveRefreshToken env db1 user._id tokens.refreshToken now with
    | (db2, .threw e) => (db2, .threw e)
    | (db2, .ok _) => (db2, .ok ⟨user._id, user.username, user.email, tokens⟩)

/-- `login`. -/
def login (env : Env) (db : Db) (email password : String) (now : Instant) :
    Db × Outcome Tokens :=
  match User.findByEmail db email with
  | none => (db, .threw (.api (ApiError.invalidCredentials "Invalid email or password")))
  | some user =>
    if User.comparePassword env user password then
      let tokens := generateTokens env user._id now
      match saveRefreshToken env db user._id tokens.refreshToken now with
      | (db', .threw e) => (db', .threw e)
      | (db', .ok _) => (db', .ok tokens)
    else
      (db, .threw (.api (ApiError.invalidCredentials "Invalid email or password")))

/-- `refreshAccessToken`. -/
def refreshAccessToken (env : Env) (db : Db) (refreshToken : Token) (now : Instant) :
    Db × Outcome Tokens :=
  match verifyRefreshToken env refreshToken now with
  | none => (db, .threw (.api (ApiError.unauthorized "Invalid refresh token")))
  | some decoded =>
    match RefreshToken.findValidToken env db refreshToken now with
    | none => (db, .threw (.api (ApiError.unauthorized "Refresh token is invalid or expired")))
    | some storedToken =>
      match User.findById db decoded.userId with
      | none => (db, .threw (.api (ApiError.unauthorized "User no longer exists")))
      | some user =>
        let db1 := RefreshToken.revoke db storedToken
        let tokens := generateTokens env user._id now
        match saveRefreshToken env db1 user._id tokens.refreshToken now with
        | (db2, .threw e) => (db2, .threw e)
        | (db2, .ok _) => (db2, .ok tokens)

/-- `logout`: nothing happens for a falsy argument (`none` is an absent token);
otherwise `findOneAndUpdate({ token: hashedToken }, { isRevoked: true })`. -/
def logout (env : Env) (db : Db) (refreshToken : Option Token) : Db × Outcome Unit :=
  match refreshToken with
  | none => (db, .ok ())
  | some token =>
    if token.truthy then
      let hashedToken := RefreshToken.hashToken env token
      let updated := updateFirst (fun r => r.token == hashedToken)
        (fun r => { r with isRevoked := true }) db.refreshTokens
      ({ db with refreshTokens := updated }, .ok ())
    else (db, .ok ())

/-- `logoutAll`. -/
def logoutAll (db : Db) (userId : Id) : Db × Outcome Unit :=
  (RefreshToken.revokeAllUserTokens db userId, .ok ())

/-- What `getCurrentUser` resolves to: the public fields of the user. -/
structure Profile where
  id : Id
  username : String
  email : String
  role : String
  deriving DecidableEq, Repr

/-- `getCurrentUser`. -/
def getCurrentUser (db : Db) (userId : Id) : Db × Outcome Profile :=
  match User.findById db userId with
  | none => (db, .threw (.api (ApiError.notFound "User not found")))
  | some user => (db, .ok ⟨user._id, user.username, user.email, user.role⟩)

/-! ## `models/Task.js` -/

/-- The `enum` of `status`. -/
def statusEnum : List String := ["todo", "in-progress", "completed", "archived"]

/-- The `enum` of `priority`. -/
def priorityEnum : List String := ["low", "medium", "high"]

/-- The table `validTransitions`, as a lookup by key: a key it does not have
yields `none` (`undefined`). Stored statuses are always keys of the table. -/
def validTransitions (status : String) : Option (List String) :=
  if status = "todo" then some ["in-progress", "completed", "archived"]
  else if status = "in-progress" then some ["todo", "completed", "archived"]
  else if status = "completed" then some ["todo", "in-progress", "archived"]
  else if status = "archived" then some []
  else none

/-- `canTransitionTo`:
`this.status === newStatus || validTransitions[this.status]?.includes(newStatus) || false`. -/
def Task.canTransitionTo (task : Task) (newStatus : String) : Bool :=
  if task.status = newStatus then true
  else
    match validTransitions task.status with
    | some allowed => allowed.contains newStatus
    | none => false

/-- The `pre('save')` hook: when `status` was modified, entering `completed`
without a `completedAt` stamps it, any other status clears it. -/
def Task.preSave (statusModified : Bool) (now : Instant) (task : Task) : Task :=
  if statusModified then
    if task.status = "completed" ∧ task.completedAt = none then
      { task with completedAt := some now }
    else if task.status ≠ "completed" then
      { task with completedAt := none }
    else task
  else task

/-- The white space and line terminators of ECMAScript, which
`String.prototype.trim` strips: tab, line feed, vertical tab, form feed,
carriage return, space, no-break space, the other space separators of Unicode,
the line and paragraph separators and the byte order mark. -/
def isWhiteSpace (c : Char) : Bool :=
  [0x09, 0x0A, 0x0B, 0x0C, 0x0D, 0x20, 0xA0, 0x1680, 0x2028, 0x2029, 0x202F, 0x205F, 0x3000,
    0xFEFF].contains c.toNat || (0x2000 ≤ c.toNat && c.toNat ≤ 0x200A)

/-- The `trim: true` setter: `String.prototype.trim`. -/
def trim (s : String) : String :=
  ⟨((s.data.dropWhile isWhiteSpace).reverse.dropWhile isWhiteSpace).reverse⟩

/-- The `length` of a JavaScript string, which the `maxlength` validators
compare: its number of UTF-16 code units, two for a character beyond U+FFFF. -/
def jsLength (s : String) : Nat :=
  (s.data.map (fun c => if c.toNat < 0x10000 then 1 else 2)).sum

/-- Schema validation of a task: the paths whose validators fail (`title` is
required and at most 200 long, `description` at most 2000, `status` and
`priority` are in their enums, `estimatedHours` is at least 0). -/
def Task.validate (task : Task) : List String :=
  (if task.title = "" ∨ 200 < jsLength task.title then ["title"] else [])
  ++ (match task.description with
      | some d => if 2000 < jsLength d then ["description"] else []
      | none => [])
  ++ (if task.status ∈ statusEnum then [] else ["status"])
  ++ (if task.priority ∈ priorityEnum then [] else ["priority"])
  ++ (match task.estimatedHours with
      | some h => if h < 0 then ["estimatedHours"] else []
      | none => [])

/-- `task.save()` for a document loaded as `original` and changed in memory to
`doc`: validation, then the `pre('save')` hook (`status` counts as modified when
it differs from the loaded value), then the write to the document with this
`_id`. -/
def Task.save (db : Db) (original doc : Task) (now : Instant) : Db × Outcome Task :=
  let paths := Task.validate doc
  if paths ≠ [] then (db, .threw (.validation paths))
  else
    let saved := Task.preSave (decide (doc.status ≠ original.status)) now doc
    ({ db with tasks := db.tasks.map (fun t => if t._id == original._id then saved else t) },
      .ok saved)

/-- The fields `createTask` takes from its `taskData`; `none` is `undefined`. -/
structure TaskData where
  title : Option String := none
  description : Option String := none
  priority : Option String := none
  dueDate : Option Instant := none
  category : Option Id := none
  tags : Option (List String) := none
  estimatedHours : Option Int := none
  deriving DecidableEq, Repr

/-- `Task.create({ title, description, priority, dueDate, category, tags,
estimatedHours, user })`: schema defaults (`status: 'todo'`, `priority: 'medium'`),
setters, validation, insertion under a fresh `_id`. The `pre('save')` hook finds
`status` unmodified and `completedAt` absent. -/
def Task.create (db : Db) (data : TaskData) (userId : Id) : Db × Outcome Task :=
  let doc : Task :=
    { _id := db.nextId
      title := trim (data.title.getD "")
      description := data.description.map trim
      status := "todo"
      priority := data.priority.getD "medium"
      dueDate := data.dueDate
      category := data.category
      tags := (data.tags.getD []).map trim
      estimatedHours := data.estimatedHours
      completedAt := none
      user := userId
      sharedWith := [] }
  let paths := Task.validate doc
  if paths ≠ [] then (db, .threw (.validation paths))
  else ({ db with tasks := db.tasks ++ [doc], nextId := db.nextId + 1 }, .ok doc)

/-- `Task.findOne({ _id: taskId, user: userId })`. -/
def Task.findOwned (db : Db) (taskId userId : Id) : Option Task :=
  db.tasks.find? (fun t => t._id == taskId && t.user == userId)

/-- `Task.findOne({ _id: taskId })`. -/
def Task.findById (db : Db) (taskId : Id) : Option Task :=
  db.tasks.find? (fun t => t._id == taskId)

/-- `Category.findOne({ _id: categoryId, user: userId })`. -/
def Category.findOwned (db : Db) (categoryId userId : Id) : Option Category :=
  db.categories.find? (fun c => c._id == categoryId && c.user == userId)

/-- The category that `Category.findByIdAndUpdate(categoryId, ...)` updates. -/
def Category.findById (db : Db) (categoryId : Id) : Option Category :=
  db.categories.find? (fun c => c._id == categoryId)

/-- The `match` of `color`: `/^#([A-Fa-f0-9]{6}|[A-Fa-f0-9]{3})$/`. -/
def isHexColor (s : String) : Bool :=
  match s.data with
  | '#' :: digits =>
    (digits.length == 6 || digits.length == 3) &&
      digits.all (fun c => c.isDigit || ('a' ≤ c && c ≤ 'f') || ('A' ≤ c && c ≤ 'F'))
  | _ => false

/-- Schema validation of a category: `name` is required and at most 50 long,
a non-empty `color` matches the pattern, `taskCount` is at least 0. -/
def Category.validate (category : Category) : List String :=
  (if category.name = "" ∨ 50 < jsLength category.name then ["name"] else [])
  ++ (if category.color = "" ∨ isHexColor category.color then [] else ["color"])
  ++ (if category.taskCount < 0 then ["taskCount"] else [])

/-- The fields `createCategory` takes from its `categoryData`. -/
structure CategoryData where
  name : Option String := none
  color : Option String := none
  deriving DecidableEq, Repr

/-- `Category.create({ name, color, user })`: defaults (`color: '#3B82F6'`,
`taskCount: 0`), the `trim` setter of `name`, validation, insertion under a fresh
`_id`, which the unique index on `{ user, name }` refuses (code 11000, first key
`user`) when a document has the same pair. -/
def Category.create (db : Db) (data : CategoryData) (userId : Id) : Db × Outcome Category :=
  let doc : Category :=
    { _id := db.nextId
      name := trim (data.name.getD "")
      color := data.color.getD "#3B82F6"
      user := userId
      taskCount := 0 }
  let paths := Category.validate doc
  if paths ≠ [] then (db, .threw (.validation paths))
  else if db.categories.any (fun c => c.user == doc.user && c.name == doc.name) then
    (db, .threw (.duplicateKey "user"))
  else ({ db with categories := db.categories ++ [doc], nextId := db.nextId + 1 }, .ok doc)

/-- The `updateData` object handed to `updateCategory`: the paths of the category
schema that it may carry; `none` stands for a property the object does not have. -/
structure CategoryUpdate where
  name : Option String := none
  color : Option String := none
  user : Option Id := none
  taskCount : Option Int := none
  deriving DecidableEq, Repr

/-- `Object.assign(category, updateData)`: every property of `updateData` is set
on the document, through the setters of the schema. -/
def Category.assign (category : Category) (updateData : CategoryUpdate) : Category :=
  { category with
    name := (updateData.name.map trim).getD category.name
    color := updateData.color.getD category.color
    user := updateData.user.getD category.user
    taskCount := updateData.taskCount.getD category.taskCount }

/-- `category.save()` for a document loaded as `original` and changed in memory
to `doc`: validation, then the write to the document with this `_id`, which the
unique index on `{ user, name }` refuses (code 11000, first key `user`) when
another document has the same pair. -/
def Category.save (db : Db) (original doc : Category) : Db × Outcome Category :=
  let paths := Category.validate doc
  if paths ≠ [] then (db, .threw (.validation paths))
  else if db.categories.any
      (fun c => c._id != original._id && c.user == doc.user && c.name == doc.name) then
    (db, .threw (.duplicateKey "user"))
  else
    let categories := db.categories.map (fun c => if c._id == original._id then doc else c)
    ({ db with categories := categories }, .ok doc)

/-! ## `services/categoryService.js` -/

/-- `getCategoryById`. -/
def getCategoryById (db : Db) (categoryId userId : Id) : Db × Outcome Category :=
  match Category.findOwned db categoryId userId with
  | none => (db, .threw (.api (ApiError.notFound "Category not found")))
  | some category => (db, .ok category)

/-- `createCategory`: `Category.findOne({ user: userId, name })` finds a category
of the user with this name (none when `name` is not given). The filter is cast
by the schema, so the name it looks for has gone through the `trim` setter. -/
def createCategory (db : Db) (userId : Id) (categoryData : CategoryData) :
    Db × Outcome Category :=
  let existingCategory : Option Category :=
    match categoryData.name with
    | some name => db.categories.find? (fun c => c.user == userId && c.name == trim name)
    | none => none
  match existingCategory with
  | some _ =>
    (db, .threw (.api (ApiError.conflict "Category with this name already exists" [])))
  | none => Category.create db categoryData userId


/-- `updateCategory`. The name is looked up among the caller's other categories
when `updateData.name` is truthy and differs from the current name (the filter
is cast by the schema, so the name it looks for has gone through the `trim`
setter); then `Object.assign` and `save`. -/
def updateCategory (db : Db) (categoryId userId : Id) (updateData : CategoryUpdate) :
    Db × Outcome Category :=
  match Category.findOwned db categoryId userId with
  | none => (db, .threw (.api (ApiError.notFound "Category not found")))
  | some category =>
    let existingCategory : Option Category :=
      match updateData.name with
      | some name =>
        if name ≠ "" ∧ name ≠ category.name then
          db.categories.find?
            (fun c => c.user == userId && c.name == trim name && c._id != categoryId)
        else none
      | none => none
    match existingCategory with
    | some _ =>
      (db, .threw (.api (ApiError.conflict "Category with this name already exists" [])))
    | none => Category.save db category (Category.assign category updateData)

/-- `incrementTaskCount`: nothing for a falsy id, else
`findByIdAndUpdate(categoryId, { $inc: { taskCount: 1 } })`. -/
def incrementTaskCount (db : Db) (categoryId : Option Id) : Db :=
  match categoryId with
  | none => db
  | some id =>
    { db with categories := updateFirst (fun c => c._id == id)
                (fun c => { c with taskCount := c.taskCount + 1 }) db.categories }

/-- `decrementTaskCount`. -/
def decrementTaskCount (db : Db) (categoryId : Option Id) : Db :=
  match categoryId with
  | none => db
  | some id =>
    { db with categories := updateFirst (fun c => c._id == id)
                (fun c => { c with taskCount := c.taskCount - 1 }) db.categories }

/-- `updateTaskCounts(oldCategoryId, newCategoryId)`. The old id is the task's
`ObjectId` or absent, the new one is the caller's string or `null`; `===` between
them holds only when both are absent. -/
def updateTaskCounts (db : Db) (oldCategoryId newCategoryId : Option Id) : Db :=
  if oldCategoryId = none ∧ newCategoryId = none then db
  else incrementTaskCount (decrementTaskCount db oldCategoryId) newCategoryId

/-- `deleteCategory`: `Task.updateMany({ category }, { $set: { category: null } })`,
then the category is removed. -/
def deleteCategory (db : Db) (categoryId userId : Id) : Db × Outcome Bool :=
  match Category.findOwned db categoryId userId with
  | none => (db, .threw (.api (ApiError.notFound "Category not found")))
  | some category =>
    let tasks := db.tasks.map (fun t =>
      if t.category = some categoryId then { t with category := none } else t)
    let categories := db.categories.filter (fun c => c._id != category._id)
    ({ db with tasks := tasks, categories := categories }, .ok true)

/-! ## `services/taskService.js` -/

/-- A field of a request body that may be absent, `null`, or hold a value. -/
inductive Field (α : Type) where
  | absent
  | null
  | value (a : α)
  deriving DecidableEq, Repr

/-- The `updateData` object handed to `updateTask`: the paths of the task schema
that it may carry. `none` and `Field.absent` stand for a property the object
does not have. -/
structure UpdateData where
  title : Option String := none
  description : Option String := none
  status : Option String := none
  priority : Option String := none
  dueDate : Field Instant := .absent
  category : Field Id := .absent
  tags : Option (List String) := none
  estimatedHours : Field Int := .absent
  completedAt : Field Instant := .absent
  user : Option Id := none
  sharedWith : Option (List Id) := none
  deriving DecidableEq, Repr

/-- Assignment of a nullable field. -/
def Field.assign {α : Type} (current : Option α) : Field α → Option α
  | .absent => current
  | .null => none
  | .value a => some a

/-- `Object.assign(task, updateData)`: every property of `updateData` is set on
the document, through the setters of the schema. -/
def Task.assign (task : Task) (updateData : UpdateData) : Task :=
  { task with
    title := (updateData.title.map trim).getD task.title
    description := match updateData.description with
      | some d => some (trim d)
      | none => task.description
    status := updateData.status.getD task.status
    priority := updateData.priority.getD task.priority
    dueDate := Field.assign task.dueDate updateData.dueDate
    category := Field.assign task.category updateData.category
    tags := (updateData.tags.map (List.map trim)).getD task.tags
    estimatedHours := Field.assign task.estimatedHours updateData.estimatedHours
    completedAt := Field.assign task.completedAt updateData.completedAt
    user := updateData.user.getD task.user
    sharedWith := updateData.sharedWith.getD task.sharedWith }

/-- `.populate('category', 'name color').populate('sharedWith', 'username email')`:
a reference is replaced by the document it refers to, so a category that refers
to no document becomes `null` and the ids of `sharedWith` that refer to no user
are dropped. The documents joined in are written by their ids. -/
def Task.populate (db : Db) (task : Task) : Task :=
  { task with
    category := task.category.filter (fun c => (Category.findById db c).isSome)
    sharedWith := task.sharedWith.filter (fun u => (User.findById db u).isSome) }

/-- `getTaskById`. The task is read populated, so the sharing test runs over the
members whose user document exists, and the value is the populated document. -/
def getTaskById (db : Db) (taskId userId : Id) : Db × Outcome Task :=
  match Task.findById db taskId with
  | none => (db, .threw (.api (ApiError.notFound "Task not found")))
  | some stored =>
    let task := Task.populate db stored
    let isOwner := task.user == userId
    let isShared := task.sharedWith.any (fun u => u == userId)
    if !isOwner && !isShared then
      (db, .threw (.api (ApiError.forbidden "You do not have access to this task")))
    else (db, .ok task)

/-- `createTask`. -/
def createTask (db : Db) (userId : Id) (taskData : TaskData) : Db × Outcome Task :=
  let categoryMissing : Bool :=
    match taskData.category with
    | some category => (Category.findOwned db category userId).isNone
    | none => false
  if categoryMissing then (db, .threw (.api (ApiError.badRequest "Invalid category")))
  else
    match Task.create db taskData userId with
    | (db1, .threw e) => (db1, .threw e)
    | (db1, .ok task) => (incrementTaskCount db1 taskData.category, .ok task)

/-- The message of the transition error. -/
def transitionMessage (fromStatus toStatus : String) : String :=
  "Cannot transition from " ++ fromStatus ++ " to " ++ toStatus

/-- `updateTask`. The transition is checked when `updateData.status` is truthy
and differs from the current status; the category is checked and the counts are
adjusted when `updateData.category` is present and differs from the current
category; then `Object.assign` and `save`. -/
def updateTask (db : Db) (taskId userId : Id) (updateData : UpdateData) (now : Instant) :
    Db × Outcome Task :=
  match Task.findOwned db taskId userId with
  | none => (db, .threw (.api (ApiError.notFound "Task not found")))
  | some task =>
    let rejected : Option String :=
      match updateData.status with
      | some newStatus =>
        if newStatus ≠ "" ∧ newStatus ≠ task.status ∧ !task.canTransitionTo newStatus
        then some newStatus else none
      | none => none
    match rejected with
    | some newStatus =>
      (db, .threw (.api (ApiError.invalidStatusTransition
        (transitionMessage task.status newStatus))))
    | none =>
      let counted : Option Db :=
        match updateData.category with
        | .absent => some db
        | .null => some (updateTaskCounts db task.category none)
        | .value c =>
          if task.category = some c then some db
          else if (Category.findOwned db c userId).isNone then none
          else some (updateTaskCounts db task.category (some c))
      match counted with
      | none => (db, .threw (.api (ApiError.badRequest "Invalid category")))
      | some db1 => Task.save db1 task (Task.assign task updateData) now

/-- `deleteTask`. -/
def deleteTask (db : Db) (taskId userId : Id) : Db × Outcome Bool :=
  match Task.findOwned db taskId userId with
  | none => (db, .threw (.api (ApiError.notFound "Task not found")))
  | some task =>
    let db1 := decrementTaskCount db task.category
    ({ db1 with tasks := db1.tasks.filter (fun t => t._id != task._id) }, .ok true)

/-- `updateTaskStatus`. -/
def updateTaskStatus (db : Db) (taskId userId : Id) (newStatus : String) (now : Instant) :
    Db × Outcome Task :=
  match Task.findOwned db taskId userId with
  | none => (db, .threw (.api (ApiError.notFound "Task not found")))
  | some task =>
    if task.canTransitionTo newStatus then
      Task.save db task { task with status := newStatus } now
    else
      (db, .threw (.api (ApiError.invalidStatusTransition
        (transitionMessage task.status newStatus))))

/-- `updateTaskPriority`. -/
def updateTaskPriority (db : Db) (taskId userId : Id) (newPriority : String) (now : Instant) :
    Db × Outcome Task :=
  match Task.findOwned db taskId userId with
  | none => (db, .threw (.api (ApiError.notFound "Task not found")))
  | some task => Task.save db task { task with priority := newPriority } now

/-- `shareTask`. -/
def shareTask (db : Db) (taskId ownerId targetUserId : Id) (now : Instant) :
    Db × Outcome Task :=
  match Task.findOwned db taskId ownerId with
  | none => (db, .threw (.api (ApiError.notFound "Task not found")))
  | some task =>
    match User.findById db targetUserId with
    | none => (db, .threw (.api (ApiError.notFound "User not found")))
    | some _ =>
      if ownerId = targetUserId then
        (db, .threw (.api (ApiError.badRequest "Cannot share task with yourself")))
      else if task.sharedWith.any (fun u => u == targetUserId) then
        (db, .threw (.api (ApiError.conflict "Task is already shared with this user" [])))
      else
        Task.save db task { task with sharedWith := task.sharedWith ++ [targetUserId] } now

/-- `unshareTask`. -/
def unshareTask (db : Db) (taskId ownerId targetUserId : Id) (now : Instant) :
    Db × Outcome Task :=
  match Task.findOwned db taskId ownerId with
  | none => (db, .threw (.api (ApiError.notFound "Task not found")))
  | some task =>
    Task.save db task
      { task with sharedWith := task.sharedWith.filter (fun u => u != targetUserId) } now

/-! ## `middleware/auth.js` -/

/-- What `authenticate` attaches to the request before it calls `next()`:
`req.user` and `req.userId`. -/
structure Authenticated where
  user : User
  userId : Id
  deriving DecidableEq, Repr

/-- `authenticate`, with its `next(error)` as the thrown outcome. The header
`req.headers.authorization` is `none` when the request has none, and otherwise
the list of the pieces that `split(' ')` cuts it into; a piece is a string, which
is a JSON Web Token or other text. The header starts with `'Bearer '` when its
first piece is `Bearer` and a second piece follows, and that second piece is
`authHeader.split(' ')[1]`. -/
def authenticate (env : Env) (db : Db) (authorization : Option (List Token)) (now : Instant) :
    Outcome Authenticated :=
  match authorization with
  | some (scheme :: token :: _) =>
    if scheme = .text "Bearer" then
      match verifyAccessToken env token now with
      | none => .threw (.api (ApiError.unauthorized "Invalid or expired access token"))
      | some decoded =>
        match User.findById db decoded.userId with
        | none => .threw (.api (ApiError.unauthorized "User not found"))
        | some user => .ok ⟨user, user._id⟩
    else .threw (.api (ApiError.unauthorized "Access token is required"))
  | _ => .threw (.api (ApiError.unauthorized "Access token is required"))

/-! ## `middleware/errorHandler.js` -/

/-- The `code` property of an error object: absent, a number (the error codes
of the database driver) or a string. -/
inductive ErrorCode where
  | absent
  | number (n : Nat)
  | text (s : String)
  deriving DecidableEq, Repr

/-- An error object, by the properties that `errorHandler` reads: `name`,
`message` (`''` when it has none), `statusCode`, `code`, the `path` and `value`
of a `CastError` as a template literal renders them, the keys of `keyValue` of a
duplicate-key error, the `path` and `message` of each entry of `errors` of a
`ValidationError`. -/
structure ErrorObject where
  name : String := "Error"
  message : String := ""
  statusCode : Option Nat := none
  code : ErrorCode := .absent
  path : String := "undefined"
  value : String := "undefined"
  keyValue : List String := []
  errors : List (String × String) := []
  deriving DecidableEq, Repr

/-- What is handed to `errorHandler`: an instance of `ApiError`, or another
error object. -/
inductive Failure where
  | apiError (e : ApiError)
  | other (o : ErrorObject)
  deriving DecidableEq, Repr

/-- The properties of a failure. `ApiError` extends `Error` and sets no name, so
its `name` is `'Error'`; its `code` is a string. -/
def Failure.object : Failure → ErrorObject
  | .apiError e =>
    { name := "Error", message := e.message, statusCode := some e.statusCode
      code := .text e.code }
  | .other o => o

/-- The wrapping of an error that is not an `ApiError`:
`new ApiError(error.statusCode || 500, error.message || 'Internal Server Error',
error.code || 'INTERNAL_ERROR')`. A numeric code is written in decimal. -/
def wrap (o : ErrorObject) : ApiError :=
  { statusCode := match o.statusCode with
      | some n => if n = 0 then 500 else n
      | none => 500
    message := if o.message = "" then "Internal Server Error" else o.message
    code := match o.code with
      | .absent => "INTERNAL_ERROR"
      | .number n => if n = 0 then "INTERNAL_ERROR" else toString n
      | .text s => if s = "" then "INTERNAL_ERROR" else s
    details := [] }

/-- `errorHandler`: the five tests on `err` run one after the other, each
replacing `error` when it holds; an `error` that is then not an instance of
`ApiError` is wrapped; the response is `ApiResponse.error(res, error)`. A detail
`{ field, message }` is the pair of the two. -/
def errorHandler (failure : Failure) : ErrorResponse :=
  let err := failure.object
  let error : Failure := failure
  let error : Failure :=
    if err.name = "CastError" then
      .apiError (ApiError.badRequest ("Invalid " ++ err.path ++ ": " ++ err.value))
    else error
  let error : Failure :=
    if err.code = .number 11000 then
      let field := err.keyValue.head?.getD "undefined"
      .apiError (ApiError.conflict (field ++ " already exists")
        [(field, field ++ " is already taken")])
    else error
  let error : Failure :=
    if err.name = "ValidationError" then
      .apiError (ApiError.validationError "Validation failed" err.errors)
    else error
  let error : Failure :=
    if err.name = "JsonWebTokenError" then .apiError (ApiError.unauthorized "Invalid token")
    else error
  let error : Failure :=
    if err.name = "TokenExpiredError" then .apiError (ApiError.unauthorized "Token has expired")
    else error
  match error with
  | .apiError e => ApiResponse.error e
  | .other o => ApiResponse.error (wrap o)

/-! ## `refreshAccessToken`, one `await` at a time -/

/-- Where a call of `refreshAccessToken` stands, between two of its `await`s:
not yet run; `findValidToken` has resolved to `storedToken`; `User.findById` has
resolved to `user`; `storedToken.revoke()` has resolved; the call has returned
or thrown. -/
inductive RefreshCall where
  | started
  | found (decoded : Payload) (storedToken : RefreshToken)
  | loaded (storedToken : RefreshToken) (user : User)
  | revoked (user : User)
  | returned (outcome : Outcome Tokens)
  deriving DecidableEq, Repr

/-- The code of `refreshAccessToken` up to its next `await`, together with the
database operation awaited there, run at instant `now`. -/
def refreshStep (env : Env) (refreshToken : Token) (db : Db) (call : RefreshCall)
    (now : Instant) : Db × RefreshCall :=
  match call with
  | .started =>
    match verifyRefreshToken env refreshToken now with
    | none => (db, .returned (.threw (.api (ApiError.unauthorized "Invalid refresh token"))))
    | some decoded =>
      match RefreshToken.findValidToken env db refreshToken now with
      | none =>
        (db, .returned
          (.threw (.api (ApiError.unauthorized "Refresh token is invalid or expired"))))
      | some storedToken => (db, .found decoded storedToken)
  | .found decoded storedToken =>
    match User.findById db decoded.userId with
    | none => (db, .returned (.threw (.api (ApiError.unauthorized "User no longer exists"))))
    | some user => (db, .loaded storedToken user)
  | .loaded storedToken user => (RefreshToken.revoke db storedToken, .revoked user)
  | .revoked user =>
    let tokens := generateTokens env user._id now
    match saveRefreshToken env db user._id tokens.refreshToken now with
    | (db2, .threw e) => (db2, .returned (.threw e))
    | (db2, .ok _) => (db2, .returned (.ok tokens))
  | .returned outcome => (db, .returned outcome)

/-- Two calls of `refreshAccessToken` in flight over one database. -/
structure Race where
  db : Db
  first : RefreshCall
  second : RefreshCall
  deriving DecidableEq, Repr

/-- The two calls take their steps in the order of the schedule: each entry says
whether the first call (`true`) or the second takes its next step, and the
instant at which it does. -/
def Race.run (env : Env) (refreshToken : Token) : Race → List (Bool × Instant) → Race
  | race, [] => race
  | race, (true, now) :: rest =>
    let (db, call) := refreshStep env refreshToken race.db race.first now
    Race.run env refreshToken { race with db := db, first := call } rest
  | race, (false, now) :: rest =>
    let (db, call) := refreshStep env refreshToken race.db race.second now
    Race.run env refreshToken { race with db := db, second := call } rest

/-! ## Vocabulary of the statements -/

/-- The failures that the specification names `InvalidToken`: what
`refreshAccessToken` throws for a token that fails the signature and expiry
check, and for one that passes it and has no valid document. -/
def InvalidToken (e : ApiError) : Prop :=
  e = ApiError.unauthorized "Invalid refresh token" ∨
  e = ApiError.unauthorized "Refresh token is invalid or expired"

/-- The unique index on `token`: no two refresh-token documents hold the same
digest. -/
def UniqueTokens (db : Db) : Prop :=
  (db.refreshTokens.map (fun r => r.token)).Nodup

instance (db : Db) : Decidable (UniqueTokens db) :=
  inferInstanceAs (Decidable (List.Nodup _))

/-- The session of digest `h` is spent in a collection of refresh-token
documents: a document with this digest is stored, and every document with this
digest is revoked. -/
def Spent (h : Nat) (docs : List RefreshToken) : Prop :=
  (∃ r ∈ docs, r.token = h) ∧ ∀ r ∈ docs, r.token = h → r.isRevoked = true

/-- A call of the session service. -/
inductive AuthCall where
  | register (username email password : String)
  | login (email password : String)
  | refresh (refreshToken : Token)
  | logout (refreshToken : Option Token)
  | logoutAll (userId : Id)
  deriving DecidableEq, Repr

/-- The database a call of the session service leaves behind. -/
def AuthCall.run (env : Env) (db : Db) (now : Instant) : AuthCall → Db
  | .register username email password => (TaskApi.register env db username email password now).1
  | .login email password => (TaskApi.login env db email password now).1
  | .refresh refreshToken => (refreshAccessToken env db refreshToken now).1
  | .logout refreshToken => (TaskApi.logout env db refreshToken).1
  | .logoutAll userId => (TaskApi.logoutAll db userId).1

/-- The database after a sequence of calls, each made at its own instant. -/
def runAuth (env : Env) (db : Db) : List (AuthCall × Instant) → Db
  | [] => db
  | (call, now) :: rest => runAuth env (call.run env db now) rest

/-- A stand-in for SHA-256 in worked examples. -/
def sampleDigest : Token → Nat
  | .jwt secret payload =>
    2 * Nat.pair (Nat.pair payload.userId payload.iat) (Nat.pair payload.exp secret.length) + 1
  | .text raw => 2 * raw.length

/-- The configuration of worked examples: the defaults `'1h'` and `'7d'`. -/
def sampleEnv : Env :=
  { JWT_ACCESS_SECRET := "access-secret"
    JWT_REFRESH_SECRET := "refresh-secret"
    JWT_ACCESS_EXPIRES_IN := none
    accessLifetime := 3600
    refreshLifetime := 604800
    sha256 := sampleDigest
    bcrypt := fun password => "hashed:" ++ password }

/-- A database with one user and one unrevoked session of hers, for the token
signed at instant 0. -/
def sampleDb : Db :=
  { users := [⟨0, "ann", "ann@example.com", "hashed:Password123", "user"⟩]
    refreshTokens :=
      [⟨1, sampleDigest (generateRefreshToken sampleEnv 0 0), 0, sevenDays, false⟩]
    tasks := []
    categories := []
    nextId := 2 }

/-- A database with one task, created by user 7 in the empty database. -/
def sampleTaskDb : Db :=
  (createTask Db.empty 7 { title := some "Write report" }).1

/-- The `_id`s of the refresh-token documents are pairwise distinct and below
the next `_id` to be drawn. -/
def FreshIds (db : Db) : Prop :=
  (db.refreshTokens.map (fun r => r._id)).Nodup ∧ ∀ r ∈ db.refreshTokens, r._id < db.nextId

/-- The document `r'` is the document `r` at a later time: same `_id`, `token`,
`user` and `expiresAt`, and revoked if `r` was. -/
def Keeps (r r' : RefreshToken) : Prop :=
  r'._id = r._id ∧ r'.token = r.token ∧ r'.user = r.user ∧ r'.expiresAt = r.expiresAt ∧
    (r.isRevoked = true → r'.isRevoked = true)

/-- From one database to a later one the refresh-token documents advance: with
fresh `_id`s before, the `_id`s are fresh after, every document is still there
and every later document of the same `_id` keeps it. -/
def Advances (db db' : Db) : Prop :=
  FreshIds db →
    FreshIds db' ∧
    (∀ r ∈ db.refreshTokens, ∃ r' ∈ db'.refreshTokens, Keeps r r') ∧
    (∀ r ∈ db.refreshTokens, ∀ r' ∈ db'.refreshTokens, r'._id = r._id → Keeps r r')

/-- The `_id`s of the tasks are pairwise distinct. -/
def UniqueTaskIds (db : Db) : Prop :=
  (db.tasks.map (fun t => t._id)).Nodup

instance (db : Db) : Decidable (UniqueTaskIds db) :=
  inferInstanceAs (Decidable (List.Nodup _))

/-- The database after a run of `createTask` calls by one user, when every one
of them succeeds. -/
def createTasks (db : Db) (userId : Id) : List TaskData → Option Db
  | [] => some db
  | taskData :: rest =>
    match createTask db userId taskData with
    | (db1, .ok _) => createTasks db1 userId rest
    | (_, .threw _) => none

/-- The sample database after a second registration and with a task of the
first user: users 0 and 2, task 4 owned by user 0. -/
def sampleTeamDb : Db :=
  (createTask (register sampleEnv sampleDb "bob" "bob@example.com" "Password456" 5000).1 0
    { title := some "Write report" }).1

/-- A database with one category, `Work`, created by user 7 in the empty
database. -/
def sampleCategoryDb : Db :=
  (createCategory Db.empty 7 { name := some "Work" }).1

/-- The invariant of `taskCount`: no category has a negative count, and the
count of each is the number of tasks of its owner that refer to it. -/
def CountsMatch (db : Db) : Prop :=
  ∀ c ∈ db.categories, 0 ≤ c.taskCount ∧
    c.taskCount =
      ((db.tasks.filter (fun t => t.user == c.user && t.category == some c._id)).length : Int)

instance (db : Db) : Decidable (CountsMatch db) :=
  inferInstanceAs (Decidable (∀ c ∈ db.categories, _))

/-- The eight kinds of typed failure: the status and code that each static
constructor of `ApiError` gives. -/
def typedKinds : List (Nat × String) :=
  [(400, "BAD_REQUEST"), (400, "VALIDATION_ERROR"), (400, "INVALID_STATUS_TRANSITION"),
   (401, "UNAUTHORIZED"), (401, "INVALID_CREDENTIALS"), (403, "FORBIDDEN"),
   (404, "NOT_FOUND"), (409, "CONFLICT")]

/-- A typed failure with a message: an `ApiError` of one of the eight kinds whose
message is not empty. -/
def Typed (e : ApiError) : Prop :=
  (e.statusCode, e.code) ∈ typedKinds ∧ e.message ≠ ""

instance (e : ApiError) : Decidable (Typed e) :=
  inferInstanceAs (Decidable (_ ∧ _))

/-- The `ApiError`s that the operations raise: `e` is thrown by a call of one of
the service operations, or handed on by `authenticate`. -/
inductive Raised : ApiError → Prop
  | byRegister (env : Env) (db db' : Db) (username email password : String) (now : Instant)
      (e : ApiError) :
      TaskApi.register env db username email password now = (db', .threw (.api e)) → Raised e
  | byLogin (env : Env) (db db' : Db) (email password : String) (now : Instant)
      (e : ApiError) :
      TaskApi.login env db email password now = (db', .threw (.api e)) → Raised e
  | byRefresh (env : Env) (db db' : Db) (refreshToken : Token) (now : Instant)
      (e : ApiError) :
      TaskApi.refreshAccessToken env db refreshToken now = (db', .threw (.api e)) → Raised e
  | byLogout (env : Env) (db db' : Db) (refreshToken : Option Token) (e : ApiError) :
      TaskApi.logout env db refreshToken = (db', .threw (.api e)) → Raised e
  | byLogoutAll (db db' : Db) (userId : Id) (e : ApiError) :
      TaskApi.logoutAll db userId = (db', .threw (.api e)) → Raised e
  | byGetCurrentUser (db db' : Db) (userId : Id) (e : ApiError) :
      TaskApi.getCurrentUser db userId = (db', .threw (.api e)) → Raised e
  | byGetCategoryById (db db' : Db) (categoryId userId : Id) (e : ApiError) :
      TaskApi.getCategoryById db categoryId userId = (db', .threw (.api e)) → Raised e
  | byAuthenticate (env : Env) (db : Db) (authorization : Option (List Token)) (now : Instant)
      (e : ApiError) :
      TaskApi.authenticate env db authorization now = .threw (.api e) → Raised e
  | byCreateCategory (db db' : Db) (userId : Id) (categoryData : CategoryData) (e : ApiError) :
      TaskApi.createCategory db userId categoryData = (db', .threw (.api e)) → Raised e
  | byUpdateCategory (db db' : Db) (categoryId userId : Id) (updateData : CategoryUpdate)
      (e : ApiError) :
      TaskApi.updateCategory db categoryId userId updateData = (db', .threw (.api e)) → Raised e
  | byDeleteCategory (db db' : Db) (categoryId userId : Id) (e : ApiError) :
      TaskApi.deleteCategory db categoryId userId = (db', .threw (.api e)) → Raised e
  | byGetTaskById (db db' : Db) (taskId userId : Id) (e : ApiError) :
      TaskApi.getTaskById db taskId userId = (db', .threw (.api e)) → Raised e
  | byCreateTask (db db' : Db) (userId : Id) (taskData : TaskData) (e : ApiError) :
      TaskApi.createTask db userId taskData = (db', .threw (.api e)) → Raised e
  | byUpdateTask (db db' : Db) (taskId userId : Id) (updateData : UpdateData) (now : Instant)
      (e : ApiError) :
      TaskApi.updateTask db taskId userId updateData now = (db', .threw (.api e)) → Raised e
  | byDeleteTask (db db' : Db) (taskId userId : Id) (e : ApiError) :
      TaskApi.deleteTask db taskId userId = (db', .threw (.api e)) → Raised e
  | byUpdateTaskStatus (db db' : Db) (taskId userId : Id) (newStatus : String) (now : Instant)
      (e : ApiError) :
      TaskApi.updateTaskStatus db taskId userId newStatus now = (db', .threw (.api e)) →
      Raised e
  | byUpdateTaskPriority (db db' : Db) (taskId userId : Id) (newPriority : String)
      (now : Instant) (e : ApiError) :
      TaskApi.updateTaskPriority db taskId userId newPriority now = (db', .threw (.api e)) →
      Raised e
  | byShareTask (db db' : Db) (taskId ownerId targetUserId : Id) (now : Instant)
      (e : ApiError) :
      TaskApi.shareTask db taskId ownerId targetUserId now = (db', .threw (.api e)) → Raised e
  | byUnshareTask (db db' : Db) (taskId ownerId targetUserId : Id) (now : Instant)
      (e : ApiError) :
      TaskApi.unshareTask db taskId ownerId targetUserId now = (db', .threw (.api e)) →
      Raised e

/-! ## Lemmas on lists -/

theorem find?_map_replace {α : Type} (p q : α → Bool) (b : α) (hb : p b = true)
    (hpq : ∀ x, p x = true → q x = true) :
    ∀ (l : List α) (a : α), l.find? p = some a →
      (l.map (fun x => if q x then b else x)).find? p = some b := by
  intro l
  induction l with
  | nil => intro a h; simp at h
  | cons x xs ih =>
    intro a h
    rw [List.map_cons, List.find?_cons]
    by_cases hq : q x = true
    · rw [if_pos hq, hb]
    · have hp : p x = false := by
        cases hpx : p x with
        | false => rfl
        | true => exact absurd (hpq x hpx) hq
      rw [List.find?_cons, hp] at h
      rw [if_neg hq, hp]
      exact ih a h

theorem mem_updateFirst {α : Type} (p : α → Bool) (f : α → α) :
    ∀ (l : List α) (y : α), y ∈ updateFirst p f l → y ∈ l ∨ ∃ x ∈ l, y = f x := by
  intro l
  induction l with
  | nil => intro y h; simp [updateFirst] at h
  | cons x xs ih =>
    intro y h
    unfold updateFirst at h
    by_cases hp : p x = true
    · rw [if_pos hp] at h
      rcases List.mem_cons.1 h with h1 | h1
      · exact Or.inr ⟨x, List.mem_cons_self x xs, h1⟩
      · exact Or.inl (List.mem_cons_of_mem x h1)
    · rw [if_neg hp] at h
      rcases List.mem_cons.1 h with h1 | h1
      · exact Or.inl (h1 ▸ List.mem_cons_self x xs)
      · rcases ih y h1 with h2 | ⟨z, hz, hy⟩
        · exact Or.inl (List.mem_cons_of_mem x h2)
        · exact Or.inr ⟨z, List.mem_cons_of_mem x hz, hy⟩

/-! ## The session store -/

/-- The documents `findValidToken` can return. -/
theorem findValidToken_some (env : Env) (db : Db) (token : Token) (now : Instant)
    (r : RefreshToken) (h : RefreshToken.findValidToken env db token now = some r) :
    r ∈ db.refreshTokens ∧ r.token = RefreshToken.hashToken env token ∧
      r.isRevoked = false ∧ now < r.expiresAt := by
  unfold RefreshToken.findValidToken at h
  have hm := List.mem_of_find?_eq_some h
  have hp := List.find?_some h
  simp only [Bool.and_eq_true, beq_iff_eq, decide_eq_true_eq] at hp
  exact ⟨hm, hp.1.1, hp.1.2, hp.2⟩

/-- When `findValidToken` returns nothing. -/
theorem findValidToken_none (env : Env) (db : Db) (token : Token) (now : Instant) :
    RefreshToken.findValidToken env db token now = none ↔
      ∀ r ∈ db.refreshTokens, ¬ (r.token = RefreshToken.hashToken env token ∧
        r.isRevoked = false ∧ now < r.expiresAt) := by
  unfold RefreshToken.findValidToken
  simp only [List.find?_eq_none, Bool.and_eq_true, beq_iff_eq, decide_eq_true_eq, and_assoc]

/-- C8. `findValidToken(t)` at instant `now` returns a document only if it is
stored, its `token` is `hashToken(t)`, it is not revoked and `now < expiresAt`;
it returns a document if and only if such a document is stored, and nothing if
and only if none is. With the unique index on `token` in force the document it
returns is any given `r` if and only if `r` is stored and meets the three
conditions. -/
theorem findValidToken_iff (env : Env) (db : Db) (token : Token) (now : Instant) :
    (∀ r, RefreshToken.findValidToken env db token now = some r →
      r ∈ db.refreshTokens ∧ r.token = RefreshToken.hashToken env token ∧
        r.isRevoked = false ∧ now < r.expiresAt) ∧
    ((∃ r, RefreshToken.findValidToken env db token now = some r) ↔
      ∃ r ∈ db.refreshTokens, r.token = RefreshToken.hashToken env token ∧
        r.isRevoked = false ∧ now < r.expiresAt) ∧
    (RefreshToken.findValidToken env db token now = none ↔
      ∀ r ∈ db.refreshTokens, ¬ (r.token = RefreshToken.hashToken env token ∧
        r.isRevoked = false ∧ now < r.expiresAt)) ∧
    (UniqueTokens db →
      ∀ r, RefreshToken.findValidToken env db token now = some r ↔
        (r ∈ db.refreshTokens ∧ r.token = RefreshToken.hashToken env token ∧
          r.isRevoked = false ∧ now < r.expiresAt)) := by
  have hex : ∀ r ∈ db.refreshTokens, (r.token = RefreshToken.hashToken env token ∧
      r.isRevoked = false ∧ now < r.expiresAt) →
      ∃ r', RefreshToken.findValidToken env db token now = some r' := by
    intro r hmem hr
    cases hfind : RefreshToken.findValidToken env db token now with
    | none => exact absurd hr ((findValidToken_none env db token now).1 hfind r hmem)
    | some r' => exact ⟨r', rfl⟩
  refine ⟨findValidToken_some env db token now, ⟨?_, ?_⟩,
    findValidToken_none env db token now, ?_⟩
  · rintro ⟨r, hr⟩
    exact ⟨r, (findValidToken_some env db token now r hr).1,
      (findValidToken_some env db token now r hr).2⟩
  · rintro ⟨r, hmem, hr⟩
    exact hex r hmem hr
  · intro hunique r
    refine ⟨findValidToken_some env db token now r, ?_⟩
    rintro ⟨hmem, hkey, hrev, hexp⟩
    obtain ⟨r', hfind⟩ := hex r hmem ⟨hkey, hrev, hexp⟩
    obtain ⟨hmem', hkey', -, -⟩ := findValidToken_some env db token now r' hfind
    have : r' = r :=
      List.inj_on_of_nodup_map hunique hmem' hmem (by simp [hkey, hkey'])
    rw [hfind, this]

/-- A worked instance of C8: in the sample database the session of the token
signed at instant 0 is found one second later. -/
theorem findValidToken_iff_witness :
    RefreshToken.findValidToken sampleEnv sampleDb (generateRefreshToken sampleEnv 0 0) 1000
      = some ⟨1, sampleDigest (generateRefreshToken sampleEnv 0 0), 0, sevenDays, false⟩ :=
  ((findValidToken_iff sampleEnv sampleDb (generateRefreshToken sampleEnv 0 0) 1000).2.2.2
    (by decide) _).2 (by decide)

/-! ## Saving a refresh token -/

theorem saveRefreshToken_fresh (env : Env) (db : Db) (userId : Id) (token : Token)
    (now : Instant)
    (h : ∀ r ∈ db.refreshTokens, r.token ≠ RefreshToken.hashToken env token) :
    saveRefreshToken env db userId token now =
      ({ db with
          refreshTokens := db.refreshTokens ++
            [⟨db.nextId, RefreshToken.hashToken env token, userId, now + sevenDays, false⟩]
          nextId := db.nextId + 1 }, .ok ()) := by
  have hany : db.refreshTokens.any (fun r => r.token == RefreshToken.hashToken env token)
      = false := by
    rw [List.any_eq_false]
    intro r hr
    simpa using h r hr
  simp [saveRefreshToken, RefreshToken.create, hany]

theorem saveRefreshToken_stored (env : Env) (db : Db) (userId : Id) (token : Token)
    (now : Instant)
    (h : ∃ r ∈ db.refreshTokens, r.token = RefreshToken.hashToken env token) :
    saveRefreshToken env db userId token now = (db, .threw (.duplicateKey "token")) := by
  have hany : db.refreshTokens.any (fun r => r.token == RefreshToken.hashToken env token)
      = true := by
    rw [List.any_eq_true]
    obtain ⟨r, hr, hk⟩ := h
    exact ⟨r, hr, by simpa using hk⟩
  simp [saveRefreshToken, RefreshToken.create, hany]

/-- A save that succeeds found the digest unused and appended one document. -/
theorem saveRefreshToken_ok (env : Env) (db db' : Db) (userId : Id) (token : Token)
    (now : Instant) (u : Unit)
    (h : saveRefreshToken env db userId token now = (db', .ok u)) :
    (∀ r ∈ db.refreshTokens, r.token ≠ RefreshToken.hashToken env token) ∧
    db' = { db with
          refreshTokens := db.refreshTokens ++
            [⟨db.nextId, RefreshToken.hashToken env token, userId, now + sevenDays, false⟩]
          nextId := db.nextId + 1 } := by
  by_cases hs : ∃ r ∈ db.refreshTokens, r.token = RefreshToken.hashToken env token
  · rw [saveRefreshToken_stored env db userId token now hs] at h
    simp at h
  · have hf : ∀ r ∈ db.refreshTokens, r.token ≠ RefreshToken.hashToken env token :=
      fun r hr hk => hs ⟨r, hr, hk⟩
    rw [saveRefreshToken_fresh env db userId token now hf] at h
    exact ⟨hf, (Prod.mk.inj h).1.symm⟩

/-! ## Spent sessions -/

theorem spent_map {h : Nat} {docs : List RefreshToken} (hs : Spent h docs)
    (g : RefreshToken → RefreshToken) (htoken : ∀ r, (g r).token = r.token)
    (hrev : ∀ r, r.isRevoked = true → (g r).isRevoked = true) :
    Spent h (docs.map g) := by
  obtain ⟨⟨r, hr, hk⟩, hall⟩ := hs
  refine ⟨⟨g r, List.mem_map_of_mem g hr, by rw [htoken, hk]⟩, ?_⟩
  intro y hy hyk
  obtain ⟨x, hx, rfl⟩ := List.mem_map.1 hy
  rw [htoken] at hyk
  exact hrev x (hall x hx hyk)

theorem updateFirst_mem_or {α : Type} (p : α → Bool) (f : α → α) :
    ∀ (l : List α) (x : α), x ∈ l → x ∈ updateFirst p f l ∨ f x ∈ updateFirst p f l := by
  intro l
  induction l with
  | nil => intro x h; simp at h
  | cons a as ih =>
    intro x hx
    unfold updateFirst
    by_cases hp : p a = true
    · rw [if_pos hp]
      rcases List.mem_cons.1 hx with h1 | h1
      · exact Or.inr (h1 ▸ List.mem_cons_self _ _)
      · exact Or.inl (List.mem_cons_of_mem _ h1)
    · rw [if_neg hp]
      rcases List.mem_cons.1 hx with h1 | h1
      · exact Or.inl (h1 ▸ List.mem_cons_self _ _)
      · rcases ih x h1 with h2 | h2
        · exact Or.inl (List.mem_cons_of_mem _ h2)
        · exact Or.inr (List.mem_cons_of_mem _ h2)

theorem spent_updateFirst {h : Nat} {docs : List RefreshToken} (hs : Spent h docs)
    (p : RefreshToken → Bool) (g : RefreshToken → RefreshToken)
    (htoken : ∀ r, (g r).token = r.token)
    (hrev : ∀ r, r.isRevoked = true → (g r).isRevoked = true) :
    Spent h (updateFirst p g docs) := by
  obtain ⟨⟨r, hr, hk⟩, hall⟩ := hs
  refine ⟨?_, ?_⟩
  · rcases updateFirst_mem_or p g docs r hr with h1 | h1
    · exact ⟨r, h1, hk⟩
    · exact ⟨g r, h1, by rw [htoken, hk]⟩
  · intro y hy hyk
    rcases mem_updateFirst p g docs y hy with h1 | ⟨x, hx, rfl⟩
    · exact hall y h1 hyk
    · rw [htoken] at hyk
      exact hrev x (hall x hx hyk)

theorem spent_append {h : Nat} {docs : List RefreshToken} (hs : Spent h docs)
    (doc : RefreshToken) (hne : doc.token ≠ h) : Spent h (docs ++ [doc]) := by
  obtain ⟨⟨r, hr, hk⟩, hall⟩ := hs
  refine ⟨⟨r, List.mem_append_left _ hr, hk⟩, ?_⟩
  intro y hy hyk
  rcases List.mem_append.1 hy with h1 | h1
  · exact hall y h1 hyk
  · rw [List.mem_singleton] at h1
    exact absurd (h1 ▸ hyk) hne

theorem spent_saveRefreshToken {h : Nat} (env : Env) (db : Db) (userId : Id)
    (token : Token) (now : Instant) (hs : Spent h db.refreshTokens) :
    Spent h (saveRefreshToken env db userId token now).1.refreshTokens := by
  by_cases hk : ∃ r ∈ db.refreshTokens, r.token = RefreshToken.hashToken env token
  · rw [saveRefreshToken_stored env db userId token now hk]
    exact hs
  · have hf : ∀ r ∈ db.refreshTokens, r.token ≠ RefreshToken.hashToken env token :=
      fun r hr hk' => hk ⟨r, hr, hk'⟩
    rw [saveRefreshToken_fresh env db userId token now hf]
    refine spent_append hs _ ?_
    intro heq
    obtain ⟨r, hr, hrk⟩ := hs.1
    exact hf r hr (hrk.trans heq.symm)

/-- A spent token cannot be refreshed: the call fails with `InvalidToken` and
leaves the database as it is. -/
theorem refresh_of_spent (env : Env) (db : Db) (token : Token) (now : Instant)
    (hs : Spent (RefreshToken.hashToken env token) db.refreshTokens) :
    ∃ e, refreshAccessToken env db token now = (db, .threw (.api e)) ∧ InvalidToken e := by
  unfold refreshAccessToken
  cases hv : verifyRefreshToken env token now with
  | none => exact ⟨_, rfl, Or.inl rfl⟩
  | some decoded =>
    have hnone : RefreshToken.findValidToken env db token now = none := by
      rw [findValidToken_none]
      rintro r hr ⟨hk, hrev, -⟩
      rw [hs.2 r hr hk] at hrev
      exact Bool.noConfusion hrev
    simp only [hnone]
    exact ⟨_, rfl, Or.inr rfl⟩

theorem spent_revoke {h : Nat} (db : Db) (doc : RefreshToken)
    (hs : Spent h db.refreshTokens) : Spent h (RefreshToken.revoke db doc).refreshTokens := by
  unfold RefreshToken.revoke
  refine spent_map hs _ ?_ ?_
  · intro r; split <;> rfl
  · intro r hr; split
    · rfl
    · exact hr

theorem spent_register {h : Nat} (env : Env) (db : Db) (username email password : String)
    (now : Instant) (hs : Spent h db.refreshTokens) :
    Spent h (register env db username email password now).1.refreshTokens := by
  unfold register
  cases hfind : User.findByEmailOrUsername db email username with
  | some existingUser =>
    simp only
    split <;> exact hs
  | none =>
    simp only [User.create]
    split
    · next db2 e heq =>
      have := spent_saveRefreshToken env
        { db with users := db.users ++ [⟨db.nextId, username, email, env.bcrypt password,
            "user"⟩], nextId := db.nextId + 1 } db.nextId
        (generateTokens env db.nextId now).refreshToken now hs
      rw [heq] at this
      exact this
    · next db2 u heq =>
      have := spent_saveRefreshToken env
        { db with users := db.users ++ [⟨db.nextId, username, email, env.bcrypt password,
            "user"⟩], nextId := db.nextId + 1 } db.nextId
        (generateTokens env db.nextId now).refreshToken now hs
      rw [heq] at this
      exact this

theorem spent_login {h : Nat} (env : Env) (db : Db) (email password : String)
    (now : Instant) (hs : Spent h db.refreshTokens) :
    Spent h (login env db email password now).1.refreshTokens := by
  unfold login
  cases hfind : User.findByEmail db email with
  | none => exact hs
  | some user =>
    simp only
    split
    · split
      · next db2 e heq =>
        have := spent_saveRefreshToken env db user._id
          (generateTokens env user._id now).refreshToken now hs
        rw [heq] at this
        exact this
      · next db2 u heq =>
        have := spent_saveRefreshToken env db user._id
          (generateTokens env user._id now).refreshToken now hs
        rw [heq] at this
        exact this
    · exact hs

theorem spent_refreshAccessToken {h : Nat} (env : Env) (db : Db) (token : Token)
    (now : Instant) (hs : Spent h db.refreshTokens) :
    Spent h (refreshAccessToken env db token now).1.refreshTokens := by
  cases hv : verifyRefreshToken env token now with
  | none => simp only [refreshAccessToken, hv]; exact hs
  | some decoded =>
    cases hf : RefreshToken.findValidToken env db token now with
    | none => simp only [refreshAccessToken, hv, hf]; exact hs
    | some storedToken =>
      cases hu : User.findById db decoded.userId with
      | none => simp only [refreshAccessToken, hv, hf, hu]; exact hs
      | some user =>
        simp only [refreshAccessToken, hv, hf, hu]
        have := spent_saveRefreshToken env (RefreshToken.revoke db storedToken) user._id
          (generateTokens env user._id now).refreshToken now (spent_revoke db storedToken hs)
        split
        · next db2 e heq => rw [heq] at this; exact this
        · next db2 u heq => rw [heq] at this; exact this

theorem spent_logout {h : Nat} (env : Env) (db : Db) (token : Option Token)
    (hs : Spent h db.refreshTokens) : Spent h (logout env db token).1.refreshTokens := by
  unfold logout
  cases token with
  | none => exact hs
  | some t =>
    simp only
    split
    · refine spent_updateFirst hs _ _ (fun r => rfl) (fun r _ => rfl)
    · exact hs

theorem spent_logoutAll {h : Nat} (db : Db) (userId : Id)
    (hs : Spent h db.refreshTokens) : Spent h (logoutAll db userId).1.refreshTokens := by
  unfold logoutAll RefreshToken.revokeAllUserTokens
  refine spent_map hs _ ?_ ?_
  · intro r; split <;> rfl
  · intro r hr; split
    · rfl
    · exact hr

/-- No call of the session service revives a spent session. -/
theorem spent_run {h : Nat} (env : Env) (db : Db) (now : Instant) (call : AuthCall)
    (hs : Spent h db.refreshTokens) : Spent h (call.run env db now).refreshTokens := by
  cases call with
  | register username email password => exact spent_register env db username email password now hs
  | login email password => exact spent_login env db email password now hs
  | refresh refreshToken => exact spent_refreshAccessToken env db refreshToken now hs
  | logout refreshToken => exact spent_logout env db refreshToken hs
  | logoutAll userId => exact spent_logoutAll db userId hs

theorem spent_runAuth {h : Nat} (env : Env) (calls : List (AuthCall × Instant)) :
    ∀ db : Db, Spent h db.refreshTokens → Spent h (runAuth env db calls).refreshTokens := by
  induction calls with
  | nil => intro db hs; exact hs
  | cons c rest ih =>
    intro db hs
    obtain ⟨call, now⟩ := c
    exact ih _ (spent_run env db now call hs)

/-! ## Refresh -/

/-- C2. `refreshAccessToken(t)` resolves to a credential pair only when `t`
verifies under the refresh secret, `findValidToken(t)` returns a document and the
user of the payload exists. It throws the 401 `'Invalid refresh token'` when the
verification fails, the 401 `'Refresh token is invalid or expired'` when the
token verifies and every stored document with its digest is revoked or expired
(in particular when there is none), and the 401 `'User no longer exists'` when a
valid document is found and the user is missing; in each of the three failures
the database is left as it was. -/
theorem refreshAccessToken_failures (env : Env) (db : Db) (token : Token) (now : Instant) :
    (∀ db' tokens, refreshAccessToken env db token now = (db', .ok tokens) →
      ∃ decoded storedToken user,
        verifyRefreshToken env token now = some decoded ∧
        RefreshToken.findValidToken env db token now = some storedToken ∧
        User.findById db decoded.userId = some user) ∧
    (verifyRefreshToken env token now = none →
      refreshAccessToken env db token now =
        (db, .threw (.api (ApiError.unauthorized "Invalid refresh token")))) ∧
    (∀ decoded, verifyRefreshToken env token now = some decoded →
      (∀ r ∈ db.refreshTokens, r.token = RefreshToken.hashToken env token →
        r.isRevoked = true ∨ r.expiresAt ≤ now) →
      refreshAccessToken env db token now =
        (db, .threw (.api (ApiError.unauthorized "Refresh token is invalid or expired")))) ∧
    (∀ decoded storedToken, verifyRefreshToken env token now = some decoded →
      RefreshToken.findValidToken env db token now = some storedToken →
      User.findById db decoded.userId = none →
      refreshAccessToken env db token now =
        (db, .threw (.api (ApiError.unauthorized "User no longer exists")))) := by
  refine ⟨?_, ?_, ?_, ?_⟩
  · intro db' tokens h
    cases hv : verifyRefreshToken env token now with
    | none => simp [refreshAccessToken, hv] at h
    | some decoded =>
      cases hf : RefreshToken.findValidToken env db token now with
      | none => simp [refreshAccessToken, hv, hf] at h
      | some storedToken =>
        cases hu : User.findById db decoded.userId with
        | none => simp [refreshAccessToken, hv, hf, hu] at h
        | some user => exact ⟨decoded, storedToken, user, rfl, rfl, hu⟩
  · intro hv
    simp only [refreshAccessToken, hv]
  · intro decoded hv hall
    have hnone : RefreshToken.findValidToken env db token now = none := by
      rw [findValidToken_none]
      rintro r hr ⟨hk, hrev, hexp⟩
      rcases hall r hr hk with h1 | h1
      · rw [h1] at hrev; exact Bool.noConfusion hrev
      · exact absurd hexp (Nat.not_lt.2 h1)
    simp only [refreshAccessToken, hv, hnone]
  · intro decoded storedToken hv hf hu
    simp only [refreshAccessToken, hv, hf, hu]

/-- Worked instances of C2 in the sample database: a string that is no token, the
token of a session that was logged out, and the token of a user who is gone. -/
theorem refreshAccessToken_failures_witness :
    refreshAccessToken sampleEnv sampleDb (.text "invalid_token") 1000 =
        (sampleDb, .threw (.api (ApiError.unauthorized "Invalid refresh token"))) ∧
    refreshAccessToken sampleEnv
        (logout sampleEnv sampleDb (some (generateRefreshToken sampleEnv 0 0))).1
        (generateRefreshToken sampleEnv 0 0) 1000 =
      ((logout sampleEnv sampleDb (some (generateRefreshToken sampleEnv 0 0))).1,
        .threw (.api (ApiError.unauthorized "Refresh token is invalid or expired"))) ∧
    refreshAccessToken sampleEnv { sampleDb with users := [] }
        (generateRefreshToken sampleEnv 0 0) 1000 =
      ({ sampleDb with users := [] },
        .threw (.api (ApiError.unauthorized "User no longer exists"))) :=
  ⟨(refreshAccessToken_failures sampleEnv sampleDb (.text "invalid_token") 1000).2.1
      (by decide),
    (refreshAccessToken_failures sampleEnv _ (generateRefreshToken sampleEnv 0 0) 1000).2.2.1
      ⟨0, 0, 604800⟩ (by decide) (by decide),
    (refreshAccessToken_failures sampleEnv _ (generateRefreshToken sampleEnv 0 0) 1000).2.2.2
      ⟨0, 0, 604800⟩ ⟨1, sampleDigest (generateRefreshToken sampleEnv 0 0), 0, sevenDays, false⟩
      (by decide) (by decide) (by decide)⟩

/-! ## Issue, then rotate once -/

/-- What a successful `login` did. -/
theorem login_ok (env : Env) (db db1 : Db) (email password : String) (now : Instant)
    (tokens : Tokens) (h : login env db email password now = (db1, .ok tokens)) :
    ∃ user, User.findByEmail db email = some user ∧
      User.comparePassword env user password = true ∧
      tokens = generateTokens env user._id now ∧
      saveRefreshToken env db user._id (generateRefreshToken env user._id now) now
        = (db1, .ok ()) := by
  cases hfind : User.findByEmail db email with
  | none => simp [login, hfind] at h
  | some user =>
    cases hpw : User.comparePassword env user password with
    | false => simp [login, hfind, hpw] at h
    | true =>
      simp only [login, hfind, hpw, if_true] at h
      refine ⟨user, rfl, hpw, ?_⟩
      have hrt : (generateTokens env user._id now).refreshToken
          = generateRefreshToken env user._id now := rfl
      rw [hrt] at h
      cases hsave : saveRefreshToken env db user._id (generateRefreshToken env user._id now) now
        with
      | mk db2 out =>
        rw [hsave] at h
        cases out with
        | threw e => simp at h
        | ok u =>
          simp only [Prod.mk.injEq, Outcome.ok.injEq] at h
          exact ⟨h.2.symm, by rw [h.1]⟩

/-- The token of a session that was just stored rotates once: the refresh
succeeds when the token and its document are unexpired, the user exists and the
digest of the token issued in exchange is not stored yet; after it the session
is spent. -/
theorem rotate_once (env : Env) (db db1 : Db) (userId : Id) (now now1 : Instant)
    (hsave : saveRefreshToken env db userId (generateRefreshToken env userId now) now
      = (db1, .ok ()))
    (huser : ∃ u ∈ db.users, u._id = userId)
    (hjwt : now1 / 1000 < now / 1000 + env.refreshLifetime)
    (hdoc : now1 < now + sevenDays)
    (hfresh : ∀ r ∈ db1.refreshTokens,
      r.token ≠ RefreshToken.hashToken env (generateRefreshToken env userId now1)) :
    ∃ db2, refreshAccessToken env db1 (generateRefreshToken env userId now) now1
        = (db2, .ok (generateTokens env userId now1)) ∧
      Spent (RefreshToken.hashToken env (generateRefreshToken env userId now))
        db2.refreshTokens := by
  obtain ⟨hunused, hdb1⟩ := saveRefreshToken_ok env db db1 userId _ now () hsave
  set t := generateRefreshToken env userId now with ht
  set doc : RefreshToken := ⟨db.nextId, RefreshToken.hashToken env t, userId,
    now + sevenDays, false⟩ with hdocdef
  have hrt : db1.refreshTokens = db.refreshTokens ++ [doc] := by rw [hdb1]
  have husers : db1.users = db.users := by rw [hdb1]
  -- the token verifies
  have hv : verifyRefreshToken env t now1 = some ⟨userId, now / 1000,
      now / 1000 + env.refreshLifetime⟩ := by
    simp [ht, verifyRefreshToken, generateRefreshToken, jwtSign, jwtVerify, hjwt]
  -- its document is the valid one
  have hf : RefreshToken.findValidToken env db1 t now1 = some doc := by
    unfold RefreshToken.findValidToken
    rw [hrt, List.find?_append]
    have hnone : db.refreshTokens.find? (fun r => r.token == RefreshToken.hashToken env t &&
        r.isRevoked == false && decide (now1 < r.expiresAt)) = none := by
      rw [List.find?_eq_none]
      intro r hr
      have := hunused r hr
      simp [this]
    rw [hnone]
    simp [hdocdef, hdoc]
  -- the user is found
  obtain ⟨u0, hu0, hu0id⟩ := huser
  have hsome : (User.findById db1 userId).isSome = true := by
    unfold User.findById
    rw [husers, List.find?_isSome]
    exact ⟨u0, hu0, by simp [hu0id]⟩
  obtain ⟨user, hu⟩ := Option.isSome_iff_exists.1 hsome
  have huid : user._id = userId := by
    have := List.find?_some hu
    simpa using this
  -- the exchange token is fresh after the revocation too
  have hfresh1 : ∀ r ∈ (RefreshToken.revoke db1 doc).refreshTokens,
      r.token ≠ RefreshToken.hashToken env (generateRefreshToken env userId now1) := by
    intro r hr
    unfold RefreshToken.revoke at hr
    obtain ⟨x, hx, rfl⟩ := List.mem_map.1 hr
    have := hfresh x hx
    split <;> exact this
  have hsave2 := saveRefreshToken_fresh env (RefreshToken.revoke db1 doc) userId
    (generateRefreshToken env userId now1) now1 hfresh1
  have hrt2 : (generateTokens env userId now1).refreshToken
      = generateRefreshToken env userId now1 := rfl
  have hres : refreshAccessToken env db1 t now1 =
      ((saveRefreshToken env (RefreshToken.revoke db1 doc) userId
        (generateRefreshToken env userId now1) now1).1,
        .ok (generateTokens env userId now1)) := by
    simp only [refreshAccessToken, hv, hf, hu, huid, hrt2, hsave2]
  refine ⟨_, hres, ?_⟩
  rw [hsave2]
  · -- the session is spent
    have hdocmem : doc ∈ db1.refreshTokens := by rw [hrt]; simp
    have hne : RefreshToken.hashToken env (generateRefreshToken env userId now1)
        ≠ RefreshToken.hashToken env t := fun heq => hfresh doc hdocmem heq.symm
    refine spent_append ⟨?_, ?_⟩ _ hne
    · refine ⟨{ doc with isRevoked := true }, ?_, rfl⟩
      unfold RefreshToken.revoke
      refine List.mem_map.2 ⟨doc, hdocmem, ?_⟩
      simp
    · intro y hy hyk
      unfold RefreshToken.revoke at hy
      obtain ⟨x, hx, rfl⟩ := List.mem_map.1 hy
      rw [hrt] at hx
      rcases List.mem_append.1 hx with h1 | h1
      · exfalso
        apply hunused x h1
        revert hyk
        split <;> exact id
      · rw [List.mem_singleton] at h1
        subst h1
        simp

/-- What a successful `register` did. -/
theorem register_ok (env : Env) (db db1 : Db) (username email password : String)
    (now : Instant) (reg : Registered)
    (h : register env db username email password now = (db1, .ok reg)) :
    reg.tokens = generateTokens env db.nextId now ∧
    saveRefreshToken env (User.create env db username email password).1 db.nextId
      (generateRefreshToken env db.nextId now) now = (db1, .ok ()) := by
  cases hfind : User.findByEmailOrUsername db email username with
  | some existingUser =>
    simp only [register, hfind] at h
    split at h <;> simp at h
  | none =>
    simp only [register, hfind, User.create] at h
    have hrt : (generateTokens env db.nextId now).refreshToken
        = generateRefreshToken env db.nextId now := rfl
    rw [hrt] at h
    simp only [User.create]
    cases hsave : saveRefreshToken env
        { db with users := db.users ++ [⟨db.nextId, username, email, env.bcrypt password,
            "user"⟩], nextId := db.nextId + 1 } db.nextId
        (generateRefreshToken env db.nextId now) now with
    | mk db2 out =>
      rw [hsave] at h
      cases out with
      | threw e => simp at h
      | ok u =>
        simp only [Prod.mk.injEq, Outcome.ok.injEq] at h
        exact ⟨by rw [← h.2], by rw [h.1]⟩

/-- Rotation, where the exchange token is new. Let `t` be the refresh token
returned by a successful `login` or `register` at instant `now`. A first `refreshAccessToken(t)` at an instant
`now1` at which `t` is unexpired (both the lifetime it was signed with and the
seven days of its document), and at which the digest of the token issued in
exchange is not stored yet, succeeds and returns a pair whose refresh token is
not `t`; and after it, whatever calls of the session service are made in
between, every `refreshAccessToken(t)` fails with `InvalidToken` and leaves the
database as it is. -/
theorem refresh_succeeds_once (env : Env) (db db1 : Db) (email password : String)
    (now : Instant) (tokens : Tokens)
    (hissued : login env db email password now = (db1, .ok tokens) ∨
      ∃ username reg, register env db username email password now = (db1, .ok reg) ∧
        reg.tokens = tokens)
    (now1 : Instant)
    (hjwt : now1 / 1000 < now / 1000 + env.refreshLifetime)
    (hdoc : now1 < now + sevenDays)
    (hfresh : ∀ decoded, verifyRefreshToken env tokens.refreshToken now1 = some decoded →
      ∀ r ∈ db1.refreshTokens,
        r.token ≠ RefreshToken.hashToken env (generateRefreshToken env decoded.userId now1)) :
    ∃ db2 tokens2,
      refreshAccessToken env db1 tokens.refreshToken now1 = (db2, .ok tokens2) ∧
      tokens2.refreshToken ≠ tokens.refreshToken ∧
      ∀ (calls : List (AuthCall × Instant)) (now2 : Instant), ∃ e,
        refreshAccessToken env (runAuth env db2 calls) tokens.refreshToken now2
          = (runAuth env db2 calls, .threw (.api e)) ∧ InvalidToken e := by
  -- both ways of issuing end in the same save
  have hcore : ∃ db0 userId, tokens = generateTokens env userId now ∧
      saveRefreshToken env db0 userId (generateRefreshToken env userId now) now
        = (db1, .ok ()) ∧ ∃ u ∈ db0.users, u._id = userId := by
    rcases hissued with h | ⟨username, reg, h, hreg⟩
    · obtain ⟨user, hfind, -, htok, hsave⟩ := login_ok env db db1 email password now tokens h
      refine ⟨db, user._id, htok, hsave, user, ?_, rfl⟩
      exact List.mem_of_find?_eq_some hfind
    · obtain ⟨htok, hsave⟩ := register_ok env db db1 username email password now reg h
      refine ⟨_, db.nextId, hreg ▸ htok, hsave, ⟨db.nextId, username, email,
        env.bcrypt password, "user"⟩, ?_, rfl⟩
      simp [User.create]
  obtain ⟨db0, userId, htok, hsave, huser⟩ := hcore
  have ht : tokens.refreshToken = generateRefreshToken env userId now := by rw [htok]; rfl
  rw [ht] at hfresh ⊢
  have hv : verifyRefreshToken env (generateRefreshToken env userId now) now1
      = some ⟨userId, now / 1000, now / 1000 + env.refreshLifetime⟩ := by
    simp [verifyRefreshToken, generateRefreshToken, jwtSign, jwtVerify, hjwt]
  have hfresh1 := hfresh _ hv
  obtain ⟨db2, hres, hspent⟩ :=
    rotate_once env db0 db1 userId now now1 hsave huser hjwt hdoc hfresh1
  refine ⟨db2, _, hres, ?_, ?_⟩
  · intro heq
    obtain ⟨hunused, hdb1⟩ := saveRefreshToken_ok env db0 db1 userId _ now () hsave
    have hmem : (⟨db0.nextId, RefreshToken.hashToken env (generateRefreshToken env userId now),
        userId, now + sevenDays, false⟩ : RefreshToken) ∈ db1.refreshTokens := by
      rw [hdb1]; simp
    apply hfresh1 _ hmem
    have h2 : (generateTokens env userId now1).refreshToken
        = generateRefreshToken env userId now1 := rfl
    rw [← h2, heq]
  · intro calls now2
    exact refresh_of_spent env _ _ now2 (spent_runAuth env calls db2 hspent)

/-- The sample database is what `register` makes of the empty one at instant 0. -/
theorem sampleDb_registered :
    (register sampleEnv Db.empty "ann" "ann@example.com" "Password123" 0).1 = sampleDb := by
  decide

/-- An expired token is not refreshed: the token returned by a login five
seconds after the registration is presented for the first time seven days
later, and the refresh is rejected. -/
theorem first_refresh_after_expiry_fails :
    (login sampleEnv sampleDb "ann@example.com" "Password123" 5000).2
      = .ok (generateTokens sampleEnv 0 5000) ∧
    refreshAccessToken sampleEnv
        (login sampleEnv sampleDb "ann@example.com" "Password123" 5000).1
        (generateTokens sampleEnv 0 5000).refreshToken (5000 + sevenDays)
      = ((login sampleEnv sampleDb "ann@example.com" "Password123" 5000).1,
          .threw (.api (ApiError.unauthorized "Invalid refresh token"))) := by
  decide

/-- A worked instance of the rotation: login five seconds after the
registration, first refresh five seconds after the login. -/
theorem refresh_succeeds_once_witness :
    ∃ db2 tokens2,
      refreshAccessToken sampleEnv
          (login sampleEnv sampleDb "ann@example.com" "Password123" 5000).1
          (generateTokens sampleEnv 0 5000).refreshToken 10000 = (db2, .ok tokens2) ∧
      tokens2.refreshToken ≠ (generateTokens sampleEnv 0 5000).refreshToken ∧
      ∀ (calls : List (AuthCall × Instant)) (now2 : Instant), ∃ e,
        refreshAccessToken sampleEnv (runAuth sampleEnv db2 calls)
            (generateTokens sampleEnv 0 5000).refreshToken now2
          = (runAuth sampleEnv db2 calls, .threw (.api e)) ∧ InvalidToken e :=
  refresh_succeeds_once sampleEnv sampleDb
    (login sampleEnv sampleDb "ann@example.com" "Password123" 5000).1
    "ann@example.com" "Password123" 5000 (generateTokens sampleEnv 0 5000)
    (Or.inl (by decide)) 10000 (by decide) (by decide)
    (by
      intro decoded hdec
      have h0 : verifyRefreshToken sampleEnv (generateTokens sampleEnv 0 5000).refreshToken
          10000 = some ⟨0, 5, 604805⟩ := by decide
      rw [h0] at hdec
      cases hdec
      decide)

/-- C1, at its failing input: the token that a registration returns is refreshed
in the clock second in which it was signed, as the test `should refresh tokens
with valid refresh token` does. `refreshAccessToken` revokes the session, signs
the very same refresh token again, and the unique index on `token` rejects its
digest: the first refresh throws the duplicate-key error instead of returning a
pair, the session stays revoked, and the refresh after it is turned away. -/
theorem refresh_same_second_duplicate :
    register sampleEnv Db.empty "ann" "ann@example.com" "Password123" 0 =
      (sampleDb, .ok ⟨0, "ann", "ann@example.com", generateTokens sampleEnv 0 0⟩) ∧
    (generateTokens sampleEnv 0 500).refreshToken =
      (generateTokens sampleEnv 0 0).refreshToken ∧
    refreshAccessToken sampleEnv sampleDb (generateTokens sampleEnv 0 0).refreshToken 500 =
      ({ sampleDb with
          refreshTokens :=
            [⟨1, sampleDigest (generateRefreshToken sampleEnv 0 0), 0, sevenDays, true⟩] },
        .threw (.duplicateKey "token")) ∧
    refreshAccessToken sampleEnv
        (refreshAccessToken sampleEnv sampleDb
          (generateTokens sampleEnv 0 0).refreshToken 500).1
        (generateTokens sampleEnv 0 0).refreshToken 5000 =
      ((refreshAccessToken sampleEnv sampleDb
          (generateTokens sampleEnv 0 0).refreshToken 500).1,
        .threw (.api (ApiError.unauthorized "Refresh token is invalid or expired"))) := by
  decide

/-! ## Login -/

/-- C9, at its failing input: a login in the clock second of the registration
signs the refresh token that the registration signed; the unique index on
`token` rejects its digest, `login` throws the duplicate-key error and no
session document is added. -/
theorem login_same_second_duplicate :
    (register sampleEnv Db.empty "ann" "ann@example.com" "Password123" 0).1 = sampleDb ∧
    generateTokens sampleEnv 0 500 = generateTokens sampleEnv 0 0 ∧
    login sampleEnv sampleDb "ann@example.com" "Password123" 500
      = (sampleDb, .threw (.duplicateKey "token")) := by
  decide

/-! ## Logout -/

theorem updateFirst_eq_self {α : Type} (p : α → Bool) (f : α → α) :
    ∀ l : List α, (∀ x ∈ l, p x = true → f x = x) → updateFirst p f l = l := by
  intro l
  induction l with
  | nil => intro _; rfl
  | cons a as ih =>
    intro h
    unfold updateFirst
    by_cases hp : p a = true
    · rw [if_pos hp, h a (List.mem_cons_self a as) hp]
    · rw [if_neg hp, ih (fun x hx => h x (List.mem_cons_of_mem a hx))]

theorem updateFirst_idem {α : Type} (p : α → Bool) (f : α → α)
    (hp : ∀ x, p x = true → p (f x) = true) (hf : ∀ x, f (f x) = f x) :
    ∀ l : List α, updateFirst p f (updateFirst p f l) = updateFirst p f l := by
  intro l
  induction l with
  | nil => rfl
  | cons a as ih =>
    by_cases hpa : p a = true
    · have h1 : updateFirst p f (a :: as) = f a :: as := by
        unfold updateFirst; rw [if_pos hpa]
      rw [h1]
      unfold updateFirst
      rw [if_pos (hp a hpa), hf]
    · have h1 : updateFirst p f (a :: as) = a :: updateFirst p f as := by
        rw [updateFirst, if_neg hpa]
      rw [h1]
      rw [updateFirst, if_neg hpa, ih]

/-- Under the unique index, revoking the first document of a digest leaves no
unrevoked document of that digest. -/
theorem updateFirst_revokes (h : Nat) :
    ∀ docs : List RefreshToken, (docs.map (fun r => r.token)).Nodup →
      ∀ y ∈ updateFirst (fun r => r.token == h) (fun r => { r with isRevoked := true }) docs,
        y.token = h → y.isRevoked = true := by
  intro docs
  induction docs with
  | nil => intro _ y hy; simp [updateFirst] at hy
  | cons a as ih =>
    intro hnd y hy hyk
    rw [List.map_cons, List.nodup_cons] at hnd
    unfold updateFirst at hy
    by_cases ha : a.token = h
    · have hpa : (a.token == h) = true := by simpa using ha
      rw [if_pos hpa] at hy
      rcases List.mem_cons.1 hy with h1 | h1
      · rw [h1]
      · exfalso
        apply hnd.1
        rw [ha, ← hyk]
        exact List.mem_map_of_mem (fun r => r.token) h1
    · have hpa : ¬ (a.token == h) = true := by simpa using ha
      rw [if_neg hpa] at hy
      rcases List.mem_cons.1 hy with h1 | h1
      · rw [h1] at hyk; exact absurd hyk ha
      · exact ih hnd.2 y h1 hyk

/-- C10. `logout(t)` resolves without an error for every argument, an absent
one included. When a document with the digest of `t` is stored (the unique index
on `token` in force) every document of that digest is revoked afterwards and a
following `refreshAccessToken(t)` fails, with `InvalidToken`. When `t` is absent
or empty, or every document with its digest is revoked already (in particular
when there is none), the database is unchanged. A second `logout(t)` changes
nothing more. -/
theorem logout_silent_idempotent (env : Env) (db : Db) (refreshToken : Option Token) :
    (logout env db refreshToken).2 = .ok () ∧
    (∀ token, refreshToken = some token → token.truthy = true → UniqueTokens db →
      (∃ r ∈ db.refreshTokens, r.token = RefreshToken.hashToken env token) →
      (∀ r ∈ (logout env db refreshToken).1.refreshTokens,
        r.token = RefreshToken.hashToken env token → r.isRevoked = true) ∧
      ∀ now, ∃ e, refreshAccessToken env (logout env db refreshToken).1 token now
        = ((logout env db refreshToken).1, .threw (.api e)) ∧ InvalidToken e) ∧
    ((refreshToken = none ∨ (∃ token, refreshToken = some token ∧
        (token.truthy = false ∨
          ∀ r ∈ db.refreshTokens, r.token = RefreshToken.hashToken env token →
            r.isRevoked = true))) →
      (logout env db refreshToken).1 = db) ∧
    logout env (logout env db refreshToken).1 refreshToken = logout env db refreshToken := by
  refine ⟨?_, ?_, ?_, ?_⟩
  · cases refreshToken with
    | none => rfl
    | some token => simp only [logout]; split <;> rfl
  · intro token htok htruthy hunique hstored
    subst htok
    have hdb : (logout env db (some token)).1.refreshTokens =
        updateFirst (fun r => r.token == RefreshToken.hashToken env token)
          (fun r => { r with isRevoked := true }) db.refreshTokens := by
      simp [logout, htruthy]
    have hall : ∀ r ∈ (logout env db (some token)).1.refreshTokens,
        r.token = RefreshToken.hashToken env token → r.isRevoked = true := by
      rw [hdb]
      exact updateFirst_revokes _ db.refreshTokens hunique
    refine ⟨hall, fun now => refresh_of_spent env _ token now ⟨?_, hall⟩⟩
    obtain ⟨r, hr, hk⟩ := hstored
    rw [hdb]
    rcases updateFirst_mem_or (fun r => r.token == RefreshToken.hashToken env token)
      (fun r => { r with isRevoked := true }) db.refreshTokens r hr with h1 | h1
    · exact ⟨r, h1, hk⟩
    · exact ⟨_, h1, hk⟩
  · rintro (h | ⟨token, h, hcase⟩)
    · subst h; rfl
    · subst h
      rcases hcase with hfalsy | hrevoked
      · simp [logout, hfalsy]
      · cases htruthy : token.truthy with
        | false => simp [logout, htruthy]
        | true =>
          simp only [logout, htruthy, if_true]
          rw [updateFirst_eq_self _ _ db.refreshTokens]
          intro x hx hp
          have hk : x.token = RefreshToken.hashToken env token := by simpa using hp
          have hrev := hrevoked x hx hk
          cases x
          simp only at hrev
          subst hrev
          rfl
  · cases refreshToken with
    | none => rfl
    | some token =>
      cases htruthy : token.truthy with
      | false => simp [logout, htruthy]
      | true =>
        simp only [logout, htruthy, if_true]
        rw [updateFirst_idem (fun r : RefreshToken => r.token == RefreshToken.hashToken env token)
          (fun r => { r with isRevoked := true }) (fun x hx => hx) (fun x => rfl)]

/-- A worked instance of C10: logging out the session of the sample database. -/
theorem logout_silent_idempotent_witness :
    (∀ r ∈ (logout sampleEnv sampleDb (some (generateRefreshToken sampleEnv 0 0))).1.refreshTokens,
      r.token = RefreshToken.hashToken sampleEnv (generateRefreshToken sampleEnv 0 0) →
        r.isRevoked = true) ∧
    ∀ now, ∃ e, refreshAccessToken sampleEnv
        (logout sampleEnv sampleDb (some (generateRefreshToken sampleEnv 0 0))).1
        (generateRefreshToken sampleEnv 0 0) now
      = ((logout sampleEnv sampleDb (some (generateRefreshToken sampleEnv 0 0))).1,
          .threw (.api e)) ∧ InvalidToken e :=
  (logout_silent_idempotent sampleEnv sampleDb (some (generateRefreshToken sampleEnv 0 0))).2.1
    (generateRefreshToken sampleEnv 0 0) rfl (by decide) (by decide) (by decide)

/-! ## The status machine -/

theorem canTransitionTo_iff (task : Task) (newStatus : String)
    (hfrom : task.status ∈ statusEnum) :
    task.canTransitionTo newStatus = true ↔
      (task.status = newStatus ∨
        (task.status, newStatus) ∈
          [("todo", "in-progress"), ("todo", "completed"), ("todo", "archived"),
           ("in-progress", "todo"), ("in-progress", "completed"), ("in-progress", "archived"),
           ("completed", "todo"), ("completed", "in-progress"), ("completed", "archived")]) := by
  simp only [statusEnum, List.mem_cons, List.mem_singleton, List.not_mem_nil, or_false] at hfrom
  rcases hfrom with h | h | h | h <;>
    simp [Task.canTransitionTo, validTransitions, h]

/-- `save` never throws an `ApiError`. -/
theorem save_not_api (db : Db) (original doc : Task) (now : Instant) (e : ApiError) :
    (Task.save db original doc now).2 ≠ .threw (.api e) := by
  unfold Task.save
  simp only
  split <;> simp

/-- C3. For a task whose status is one of the four, `canTransitionTo(to)` is true
exactly when `to` is the current status or the pair is in the table
todo -> in-progress, completed, archived; in-progress -> todo, completed,
archived; completed -> todo, in-progress, archived; archived -> nothing. For a
target outside the four statuses it is false. `updateTaskStatus` on an owned
task throws `INVALID_STATUS_TRANSITION` exactly when `canTransitionTo` is false,
and then leaves the database as it is. -/
theorem transition_table (task : Task) (newStatus : String)
    (hfrom : task.status ∈ statusEnum) :
    (task.canTransitionTo newStatus = true ↔
      (task.status = newStatus ∨
        (task.status, newStatus) ∈
          [("todo", "in-progress"), ("todo", "completed"), ("todo", "archived"),
           ("in-progress", "todo"), ("in-progress", "completed"), ("in-progress", "archived"),
           ("completed", "todo"), ("completed", "in-progress"), ("completed", "archived")])) ∧
    (newStatus ∉ statusEnum → task.canTransitionTo newStatus = false) ∧
    (∀ (db : Db) (taskId userId : Id) (now : Instant),
      Task.findOwned db taskId userId = some task →
      ((∃ message, (updateTaskStatus db taskId userId newStatus now).2
          = .threw (.api (ApiError.invalidStatusTransition message))) ↔
        task.canTransitionTo newStatus = false) ∧
      (task.canTransitionTo newStatus = false →
        updateTaskStatus db taskId userId newStatus now =
          (db, .threw (.api (ApiError.invalidStatusTransition
            (transitionMessage task.status newStatus)))))) := by
  refine ⟨canTransitionTo_iff task newStatus hfrom, ?_, ?_⟩
  · intro hto
    cases hc : task.canTransitionTo newStatus with
    | false => rfl
    | true =>
      exfalso
      apply hto
      rcases (canTransitionTo_iff task newStatus hfrom).1 hc with h | h
      · rw [← h]; exact hfrom
      · simp only [List.mem_cons, Prod.mk.injEq, List.mem_singleton, List.not_mem_nil,
          or_false] at h
        rcases h with h | h | h | h | h | h | h | h | h <;> simp [statusEnum, h.2]
  · intro db taskId userId now hfind
    have hthrow : task.canTransitionTo newStatus = false →
        updateTaskStatus db taskId userId newStatus now =
          (db, .threw (.api (ApiError.invalidStatusTransition
            (transitionMessage task.status newStatus)))) := by
      intro hc
      simp [updateTaskStatus, hfind, hc]
    refine ⟨⟨?_, fun hc => ⟨_, by rw [hthrow hc]⟩⟩, hthrow⟩
    rintro ⟨message, hmsg⟩
    cases hc : task.canTransitionTo newStatus with
    | false => rfl
    | true =>
      exfalso
      simp only [updateTaskStatus, hfind, hc, if_true] at hmsg
      exact save_not_api _ _ _ _ _ hmsg

/-- A worked instance of C3: the task of the sample database is in `todo`; a
move to `completed` is allowed, one to `done` is not. -/
theorem transition_table_witness :
    ((⟨0, "Write report", none, "todo", "medium", none, none, [], none, none, 7, []⟩ : Task)
        |>.canTransitionTo "completed") = true ∧
    updateTaskStatus sampleTaskDb 0 7 "done" 1000 =
      (sampleTaskDb, .threw (.api (ApiError.invalidStatusTransition
        (transitionMessage "todo" "done")))) :=
  ⟨((transition_table ⟨0, "Write report", none, "todo", "medium", none, none, [], none, none,
        7, []⟩ "completed" (by decide)).1).2 (Or.inr (by decide)),
    ((transition_table ⟨0, "Write report", none, "todo", "medium", none, none, [], none, none,
        7, []⟩ "done" (by decide)).2.2 sampleTaskDb 0 7 1000 (by decide)).2
      ((transition_table ⟨0, "Write report", none, "todo", "medium", none, none, [], none, none,
        7, []⟩ "done" (by decide)).2.1 (by decide))⟩

/-! ## Saving a task -/

@[simp] theorem preSave_id (m : Bool) (now : Instant) (t : Task) :
    (Task.preSave m now t)._id = t._id := by
  unfold Task.preSave; split <;> [(split <;> [rfl; (split <;> rfl)]); rfl]

@[simp] theorem preSave_user (m : Bool) (now : Instant) (t : Task) :
    (Task.preSave m now t).user = t.user := by
  unfold Task.preSave; split <;> [(split <;> [rfl; (split <;> rfl)]); rfl]

@[simp] theorem preSave_status (m : Bool) (now : Instant) (t : Task) :
    (Task.preSave m now t).status = t.status := by
  unfold Task.preSave; split <;> [(split <;> [rfl; (split <;> rfl)]); rfl]

@[simp] theorem preSave_validate (m : Bool) (now : Instant) (t : Task) :
    Task.validate (Task.preSave m now t) = Task.validate t := by
  unfold Task.preSave; split <;> [(split <;> [rfl; (split <;> rfl)]); rfl]

theorem preSave_unmodified (now : Instant) (t : Task) : Task.preSave false now t = t := by
  simp [Task.preSave]

/-- The hook on a modified status: `completed` keeps a stamp that is there and
sets `now` otherwise; any other status clears the stamp. -/
theorem preSave_modified (now : Instant) (t : Task) :
    (Task.preSave true now t).completedAt =
      if t.status = "completed" then some (t.completedAt.getD now) else none := by
  unfold Task.preSave
  by_cases hs : t.status = "completed"
  · cases hc : t.completedAt with
    | none => simp [hs, hc]
    | some c => simp [hs, hc]
  · simp [hs]

/-- What a successful `save` did. -/
theorem save_ok (db db1 : Db) (original doc saved : Task) (now : Instant)
    (h : Task.save db original doc now = (db1, .ok saved)) :
    Task.validate doc = [] ∧
    saved = Task.preSave (decide (doc.status ≠ original.status)) now doc ∧
    db1 = { db with tasks := db.tasks.map (fun t => if t._id == original._id then saved else t) } := by
  unfold Task.save at h
  simp only at h
  split at h
  · simp at h
  · next hv =>
    simp only [Prod.mk.injEq, Outcome.ok.injEq] at h
    refine ⟨by simpa using hv, h.2.symm, ?_⟩
    rw [← h.1, h.2]

/-- A `save` of a valid document succeeds. -/
theorem save_valid (db : Db) (original doc : Task) (now : Instant)
    (hv : Task.validate doc = []) :
    Task.save db original doc now =
      ({ db with tasks := db.tasks.map (fun t =>
          if t._id == original._id
          then Task.preSave (decide (doc.status ≠ original.status)) now doc else t) },
        .ok (Task.preSave (decide (doc.status ≠ original.status)) now doc)) := by
  simp [Task.save, hv]

/-- The owner finds the saved document in place of the one that was loaded. -/
theorem findOwned_after_save (db : Db) (taskId userId : Id) (task saved : Task)
    (hfind : Task.findOwned db taskId userId = some task)
    (hid : saved._id = task._id) (huser : saved.user = userId) :
    Task.findOwned
      { db with tasks := db.tasks.map (fun t => if t._id == task._id then saved else t) }
      taskId userId = some saved := by
  unfold Task.findOwned at hfind ⊢
  have htask := List.find?_some hfind
  simp only [Bool.and_eq_true, beq_iff_eq] at htask
  refine find?_map_replace _ (fun t => t._id == task._id) saved ?_ ?_ db.tasks task hfind
  · simp [hid, huser, htask.1]
  · intro x hx
    simp only [Bool.and_eq_true, beq_iff_eq] at hx
    simp [hx.1, htask.1]

/-- What a successful `updateTaskStatus` did. -/
theorem updateTaskStatus_ok (db db1 : Db) (taskId userId : Id) (newStatus : String)
    (now : Instant) (saved : Task)
    (h : updateTaskStatus db taskId userId newStatus now = (db1, .ok saved)) :
    ∃ task, Task.findOwned db taskId userId = some task ∧
      task.canTransitionTo newStatus = true ∧
      Task.validate { task with status := newStatus } = [] ∧
      saved = Task.preSave (decide (newStatus ≠ task.status)) now
        { task with status := newStatus } ∧
      db1 = { db with tasks := db.tasks.map (fun t =>
        if t._id == task._id then saved else t) } ∧
      Task.findOwned db1 taskId userId = some saved := by
  cases hfind : Task.findOwned db taskId userId with
  | none => simp [updateTaskStatus, hfind] at h
  | some task =>
    cases hc : task.canTransitionTo newStatus with
    | false => simp [updateTaskStatus, hfind, hc] at h
    | true =>
      simp only [updateTaskStatus, hfind, hc, if_true] at h
      obtain ⟨hv, hsaved, hdb1⟩ := save_ok db db1 task _ saved now h
      refine ⟨task, rfl, hc, hv, hsaved, hdb1, ?_⟩
      rw [hdb1]
      have htask := List.find?_some hfind
      simp only [Bool.and_eq_true, beq_iff_eq] at htask
      exact findOwned_after_save db taskId userId task saved hfind
        (by rw [hsaved]; simp) (by rw [hsaved]; simp [htask.2])

/-- C4. Once `updateTaskStatus(task, owner, 'archived')` has succeeded, every
further `updateTaskStatus` of the task to another status throws
`INVALID_STATUS_TRANSITION` and leaves the database as it is, and
`updateTaskStatus` to `archived` again succeeds, with the task and the database
unchanged. -/
theorem archived_is_final (db db1 : Db) (taskId userId : Id) (now : Instant) (saved : Task)
    (h : updateTaskStatus db taskId userId "archived" now = (db1, .ok saved)) :
    saved.status = "archived" ∧
    (∀ (newStatus : String) (later : Instant), newStatus ≠ "archived" →
      updateTaskStatus db1 taskId userId newStatus later =
        (db1, .threw (.api (ApiError.invalidStatusTransition
          (transitionMessage "archived" newStatus))))) ∧
    (∀ later : Instant,
      updateTaskStatus db1 taskId userId "archived" later = (db1, .ok saved)) := by
  obtain ⟨task, hfind, -, hv, hsaved, hdb1, hfind1⟩ :=
    updateTaskStatus_ok db db1 taskId userId "archived" now saved h
  have hstatus : saved.status = "archived" := by rw [hsaved]; simp
  have hid : saved._id = task._id := by rw [hsaved]; simp
  refine ⟨hstatus, ?_, ?_⟩
  · intro newStatus later hne
    have hc : saved.canTransitionTo newStatus = false := by
      simp [Task.canTransitionTo, validTransitions, hstatus, Ne.symm hne]
    simp [updateTaskStatus, hfind1, hc, hstatus]
  · intro later
    have hc : saved.canTransitionTo "archived" = true := by
      simp [Task.canTransitionTo, hstatus]
    have hdoc : { saved with status := "archived" } = saved := by
      cases saved
      simp only at hstatus
      subst hstatus
      rfl
    have hvalid : Task.validate saved = [] := by rw [hsaved]; simpa using hv
    simp only [updateTaskStatus, hfind1, hc, if_true, hdoc]
    rw [save_valid db1 saved saved later hvalid]
    simp only [ne_eq, not_true_eq_false, decide_False, preSave_unmodified]
    congr 1
    rw [hdb1]
    simp only [List.map_map]
    congr 1
    apply List.map_congr_left
    intro t _
    simp only [Function.comp]
    by_cases ht : t._id = task._id
    · simp [ht, hid]
    · simp [ht, hid]

/-- A worked instance of C4: the task of the sample database is archived and
then asked back to `todo`. -/
theorem archived_is_final_witness :
    updateTaskStatus (updateTaskStatus sampleTaskDb 0 7 "archived" 1000).1 0 7 "todo" 2000 =
      ((updateTaskStatus sampleTaskDb 0 7 "archived" 1000).1,
        .threw (.api (ApiError.invalidStatusTransition
          (transitionMessage "archived" "todo")))) :=
  (archived_is_final sampleTaskDb (updateTaskStatus sampleTaskDb 0 7 "archived" 1000).1 0 7 1000
    ⟨0, "Write report", none, "archived", "medium", none, none, [], none, none, 7, []⟩
    (by decide)).2.1 "todo" 2000 (by decide)

/-! ## The completion stamp -/

/-- What a successful `updateTask` did last: it saved the assigned document. -/
theorem updateTask_ok (db db1 : Db) (taskId userId : Id) (updateData : UpdateData)
    (now : Instant) (saved : Task)
    (h : updateTask db taskId userId updateData now = (db1, .ok saved)) :
    ∃ task counted, Task.findOwned db taskId userId = some task ∧
      Task.save counted task (Task.assign task updateData) now = (db1, .ok saved) := by
  cases hfind : Task.findOwned db taskId userId with
  | none => simp [updateTask, hfind] at h
  | some task =>
    simp only [updateTask, hfind] at h
    split at h
    · simp at h
    · split at h
      · simp at h
      · next counted _ => exact ⟨task, counted, rfl, h⟩

/-- One status change through `updateTaskStatus`. -/
theorem status_change_stamp (db db1 : Db) (taskId userId : Id) (task saved : Task)
    (newStatus : String) (now : Instant)
    (hfind : Task.findOwned db taskId userId = some task)
    (hchange : newStatus ≠ task.status)
    (h : updateTaskStatus db taskId userId newStatus now = (db1, .ok saved)) :
    Task.findOwned db1 taskId userId = some saved ∧ saved.status = newStatus ∧
    (newStatus = "completed" → saved.completedAt = some (task.completedAt.getD now)) ∧
    (newStatus ≠ "completed" → saved.completedAt = none) := by
  obtain ⟨task', hfind', -, -, hsaved, -, hfind1⟩ :=
    updateTaskStatus_ok db db1 taskId userId newStatus now saved h
  rw [hfind] at hfind'
  cases hfind'
  have hmod : decide (newStatus ≠ task.status) = true := by simpa using hchange
  rw [hmod] at hsaved
  have hstamp := preSave_modified now { task with status := newStatus }
  rw [← hsaved] at hstamp
  refine ⟨hfind1, by rw [hsaved]; simp, ?_, ?_⟩
  · intro hs
    rw [hstamp]; simp [hs]
  · intro hs
    rw [hstamp]; simp [hs]

/-- C5. A successful change of status into `completed` leaves `completedAt` set:
to the instant of the write when it was absent, to the value it had otherwise.
A successful change of status to anything else leaves `completedAt` absent. So
a task that left `completed` and enters it again carries the instant of the
re-entry. The same holds when the status is changed through `updateTask`, where
`completedAt` counts as already set when the update itself supplies it. -/
theorem completedAt_follows_status :
    (∀ (db db1 : Db) (taskId userId : Id) (task saved : Task) (newStatus : String)
        (now : Instant),
      Task.findOwned db taskId userId = some task → newStatus ≠ task.status →
      updateTaskStatus db taskId userId newStatus now = (db1, .ok saved) →
      Task.findOwned db1 taskId userId = some saved ∧ saved.status = newStatus ∧
      (newStatus = "completed" → saved.completedAt = some (task.completedAt.getD now)) ∧
      (newStatus ≠ "completed" → saved.completedAt = none)) ∧
    (∀ (db db1 db2 : Db) (taskId userId : Id) (task left back : Task) (other : String)
        (now1 now2 : Instant),
      Task.findOwned db taskId userId = some task → task.status = "completed" →
      other ≠ "completed" →
      updateTaskStatus db taskId userId other now1 = (db1, .ok left) →
      updateTaskStatus db1 taskId userId "completed" now2 = (db2, .ok back) →
      left.completedAt = none ∧ back.completedAt = some now2) ∧
    (∀ (db db1 : Db) (taskId userId : Id) (task saved : Task) (updateData : UpdateData)
        (newStatus : String) (now : Instant),
      Task.findOwned db taskId userId = some task → updateData.status = some newStatus →
      newStatus ≠ task.status →
      updateTask db taskId userId updateData now = (db1, .ok saved) →
      saved.status = newStatus ∧
      (newStatus = "completed" → saved.completedAt =
        some ((Field.assign task.completedAt updateData.completedAt).getD now)) ∧
      (newStatus ≠ "completed" → saved.completedAt = none)) := by
  refine ⟨?_, ?_, ?_⟩
  · intro db db1 taskId userId task saved newStatus now hfind hchange h
    exact status_change_stamp db db1 taskId userId task saved newStatus now hfind hchange h
  · intro db db1 db2 taskId userId task left back other now1 now2 hfind hstatus hother h1 h2
    obtain ⟨hfind1, hleft, -, hclear⟩ :=
      status_change_stamp db db1 taskId userId task left other now1 hfind
        (by rw [hstatus]; exact hother) h1
    obtain ⟨-, -, hset, -⟩ :=
      status_change_stamp db1 db2 taskId userId left back "completed" now2 hfind1
        (by rw [hleft]; exact Ne.symm hother) h2
    refine ⟨hclear hother, ?_⟩
    rw [hset rfl, hclear hother]
    rfl
  · intro db db1 taskId userId task saved updateData newStatus now hfind hdata hchange h
    obtain ⟨task', counted, hfind', hsave⟩ :=
      updateTask_ok db db1 taskId userId updateData now saved h
    rw [hfind] at hfind'
    cases hfind'
    obtain ⟨-, hsaved, -⟩ := save_ok counted db1 task _ saved now hsave
    have hst : (Task.assign task updateData).status = newStatus := by
      simp [Task.assign, hdata]
    have hmod : decide ((Task.assign task updateData).status ≠ task.status) = true := by
      rw [hst]; simpa using hchange
    rw [hmod] at hsaved
    have hstamp := preSave_modified now (Task.assign task updateData)
    rw [← hsaved, hst] at hstamp
    have hc : (Task.assign task updateData).completedAt
        = Field.assign task.completedAt updateData.completedAt := rfl
    refine ⟨by rw [hsaved]; simp [hst], ?_, ?_⟩
    · intro hs
      rw [hstamp, hc]; simp [hs]
    · intro hs
      rw [hstamp]; simp [hs]

/-- A worked instance of C5: the task of the sample database is completed at
instant 1000, reopened at 2000 and completed again at 3000. -/
theorem completedAt_follows_status_witness :
    (⟨0, "Write report", none, "todo", "medium", none, none, [], none, none, 7, []⟩ : Task).completedAt
      = none ∧
    (⟨0, "Write report", none, "completed", "medium", none, none, [], none, some 3000, 7, []⟩
      : Task).completedAt = some 3000 :=
  completedAt_follows_status.2.1
    (updateTaskStatus sampleTaskDb 0 7 "completed" 1000).1
    (updateTaskStatus (updateTaskStatus sampleTaskDb 0 7 "completed" 1000).1 0 7 "todo" 2000).1
    (updateTaskStatus
      (updateTaskStatus (updateTaskStatus sampleTaskDb 0 7 "completed" 1000).1 0 7 "todo"
        2000).1 0 7 "completed" 3000).1
    0 7
    ⟨0, "Write report", none, "completed", "medium", none, none, [], none, some 1000, 7, []⟩
    ⟨0, "Write report", none, "todo", "medium", none, none, [], none, none, 7, []⟩
    ⟨0, "Write report", none, "completed", "medium", none, none, [], none, some 3000, 7, []⟩
    "todo" 2000 3000 (by decide) (by decide) (by decide) (by decide) (by decide)

/-- C6, at its failing input: in the database reached from the empty one by
`createTask(7, { title })`, the call `updateTask(0, 7, { completedAt: 5 })`
succeeds; `status` is not modified, the hook does nothing, and the stored task
is in `todo` with `completedAt` set. -/
theorem completedAt_mass_assigned :
    sampleTaskDb.tasks =
      [⟨0, "Write report", none, "todo", "medium", none, none, [], none, none, 7, []⟩] ∧
    updateTask sampleTaskDb 0 7 { completedAt := .value 5 } 1000 =
      ({ sampleTaskDb with tasks :=
          [⟨0, "Write report", none, "todo", "medium", none, none, [], none, some 5, 7, []⟩] },
        .ok ⟨0, "Write report", none, "todo", "medium", none, none, [], none, some 5, 7, []⟩) := by
  decide

/-! ## The two ways to change a status -/

theorem validate_status (task : Task) (newStatus : String)
    (hv : Task.validate task = []) (hs : newStatus ∈ statusEnum) :
    Task.validate { task with status := newStatus } = [] := by
  simp only [Task.validate, List.append_eq_nil] at hv ⊢
  obtain ⟨⟨⟨⟨h1, h2⟩, -⟩, h4⟩, h5⟩ := hv
  exact ⟨⟨⟨⟨h1, h2⟩, by simp [hs]⟩, h4⟩, h5⟩

/-- C7. For each of the four statuses `s`, `updateTask(taskId, userId,
{ status: s })` and `updateTaskStatus(taskId, userId, s)` leave the same database
and resolve to the same value or throw the same error. On an owned task that
passes the schema validation this common result is either the
`INVALID_STATUS_TRANSITION` error with the database unchanged, or success with
the task stored with status `s`. -/
theorem update_paths_agree (db : Db) (taskId userId : Id) (newStatus : String)
    (now : Instant) (hs : newStatus ∈ statusEnum) :
    updateTask db taskId userId { status := some newStatus } now
      = updateTaskStatus db taskId userId newStatus now ∧
    (∀ task, Task.findOwned db taskId userId = some task → Task.validate task = [] →
      updateTaskStatus db taskId userId newStatus now =
          (db, .threw (.api (ApiError.invalidStatusTransition
            (transitionMessage task.status newStatus)))) ∨
      ∃ db1 saved, updateTaskStatus db taskId userId newStatus now = (db1, .ok saved) ∧
        saved.status = newStatus ∧ Task.findOwned db1 taskId userId = some saved) := by
  have hne : newStatus ≠ "" := by
    simp only [statusEnum, List.mem_cons, List.mem_singleton, List.not_mem_nil, or_false] at hs
    rcases hs with h | h | h | h <;> simp [h]
  refine ⟨?_, ?_⟩
  · cases hfind : Task.findOwned db taskId userId with
    | none => simp [updateTask, updateTaskStatus, hfind]
    | some task =>
      have hassign : Task.assign task { status := some newStatus }
          = { task with status := newStatus } := by
        simp [Task.assign, Field.assign]
      by_cases heq : newStatus = task.status
      · subst heq
        have hc : task.canTransitionTo task.status = true := by
          simp [Task.canTransitionTo]
        simp [updateTask, updateTaskStatus, hfind, hassign, hc]
      · cases hc : task.canTransitionTo newStatus with
        | false => simp [updateTask, updateTaskStatus, hfind, hc, heq, hne]
        | true => simp [updateTask, updateTaskStatus, hfind, hassign, hc, heq, hne]
  · intro task hfind hv
    cases hc : task.canTransitionTo newStatus with
    | false =>
      left
      simp [updateTaskStatus, hfind, hc]
    | true =>
      right
      have hsave := save_valid db task { task with status := newStatus } now
        (validate_status task newStatus hv hs)
      have htask := List.find?_some hfind
      simp only [Bool.and_eq_true, beq_iff_eq] at htask
      have hres : updateTaskStatus db taskId userId newStatus now
          = Task.save db task { task with status := newStatus } now := by
        simp only [updateTaskStatus, hfind, hc, if_true]
      rw [hres, hsave]
      refine ⟨_, _, rfl, ?_, ?_⟩
      · simp
      · exact findOwned_after_save db taskId userId task _ hfind (by simp)
          (by simp [htask.2])

/-- A worked instance of C7: completing the task of the sample database through
either entry point. -/
theorem update_paths_agree_witness :
    updateTask sampleTaskDb 0 7 { status := some "completed" } 1000
      = updateTaskStatus sampleTaskDb 0 7 "completed" 1000 :=
  (update_paths_agree sampleTaskDb 0 7 "completed" 1000 (by decide)).1

/-! ## Failures that tell nothing apart -/

/-- C11. A `login` that finds no user for the email and a `login` that finds one
and is given a wrong password throw the same error: the 401
`INVALID_CREDENTIALS` with the message `'Invalid email or password'`, which
`ApiResponse.error` sends as it is. Every `login` that throws leaves the
database as it was, so no session document is created. -/
theorem login_failure_uniform (env : Env) (db : Db) (email password : String)
    (now : Instant) :
    (User.findByEmail db email = none →
      login env db email password now =
        (db, .threw (.api (ApiError.invalidCredentials "Invalid email or password")))) ∧
    (∀ user, User.findByEmail db email = some user →
      User.comparePassword env user password = false →
      login env db email password now =
        (db, .threw (.api (ApiError.invalidCredentials "Invalid email or password")))) ∧
    ApiResponse.error (ApiError.invalidCredentials "Invalid email or password") =
      ⟨401, false, "INVALID_CREDENTIALS", "Invalid email or password", []⟩ ∧
    (∀ db' e, login env db email password now = (db', .threw e) → db' = db) := by
  refine ⟨?_, ?_, by decide, ?_⟩
  · intro h
    simp [login, h]
  · intro user h hpw
    simp [login, h, hpw]
  · intro db' e h
    cases hfind : User.findByEmail db email with
    | none =>
      simp only [login, hfind, Prod.mk.injEq] at h
      exact h.1.symm
    | some user =>
      cases hpw : User.comparePassword env user password with
      | false =>
        simp only [login, hfind, hpw, Bool.false_eq_true, if_false, Prod.mk.injEq] at h
        exact h.1.symm
      | true =>
        simp only [login, hfind, hpw, if_true] at h
        by_cases hk : ∃ r ∈ db.refreshTokens,
            r.token = RefreshToken.hashToken env (generateTokens env user._id now).refreshToken
        · rw [saveRefreshToken_stored env db user._id _ now hk] at h
          simp only [Prod.mk.injEq] at h
          exact h.1.symm
        · have hf : ∀ r ∈ db.refreshTokens,
              r.token ≠ RefreshToken.hashToken env (generateTokens env user._id now).refreshToken :=
            fun r hr hk' => hk ⟨r, hr, hk'⟩
          rw [saveRefreshToken_fresh env db user._id _ now hf] at h
          simp at h

/-- A worked instance of C11 in the sample database: an unknown email, and the
known email with a wrong password. -/
theorem login_failure_uniform_witness :
    login sampleEnv sampleDb "nonexistent@example.com" "Password123" 1000 =
      (sampleDb, .threw (.api (ApiError.invalidCredentials "Invalid email or password"))) ∧
    login sampleEnv sampleDb "ann@example.com" "WrongPassword123" 1000 =
      (sampleDb, .threw (.api (ApiError.invalidCredentials "Invalid email or password"))) :=
  ⟨(login_failure_uniform sampleEnv sampleDb "nonexistent@example.com" "Password123" 1000).1
      (by decide),
    (login_failure_uniform sampleEnv sampleDb "ann@example.com" "WrongPassword123" 1000).2.1
      ⟨0, "ann", "ann@example.com", "hashed:Password123", "user"⟩ (by decide) (by decide)⟩

/-- C12 as stated fails: in the sample database a string that is no token and
the token of a session that was logged out are both refused, with error
responses that differ in their message. -/
theorem refresh_failures_differ :
    (refreshAccessToken sampleEnv sampleDb (.text "invalid_token") 1000).2 =
      .threw (.api (ApiError.unauthorized "Invalid refresh token")) ∧
    (refreshAccessToken sampleEnv
        (logout sampleEnv sampleDb (some (generateRefreshToken sampleEnv 0 0))).1
        (generateRefreshToken sampleEnv 0 0) 1000).2 =
      .threw (.api (ApiError.unauthorized "Refresh token is invalid or expired")) ∧
    ApiResponse.error (ApiError.unauthorized "Invalid refresh token") ≠
      ApiResponse.error (ApiError.unauthorized "Refresh token is invalid or expired") := by
  decide

/-- C12 (amended). A refresh attempt that fails the signature and expiry check
and one that passes it and fails the store check are answered with the same
status and code, 401 and `UNAUTHORIZED`, and no details; the messages are
`'Invalid refresh token'` for the first and `'Refresh token is invalid or
expired'` for the second. -/
theorem refresh_failure_status_code (env : Env) (db : Db) (token : Token) (now : Instant) :
    (verifyRefreshToken env token now = none →
      ∃ e, refreshAccessToken env db token now = (db, .threw (.api e)) ∧
        ApiResponse.error e = ⟨401, false, "UNAUTHORIZED", "Invalid refresh token", []⟩) ∧
    (∀ decoded, verifyRefreshToken env token now = some decoded →
      RefreshToken.findValidToken env db token now = none →
      ∃ e, refreshAccessToken env db token now = (db, .threw (.api e)) ∧
        ApiResponse.error e =
          ⟨401, false, "UNAUTHORIZED", "Refresh token is invalid or expired", []⟩) := by
  refine ⟨?_, ?_⟩
  · intro hv
    exact ⟨ApiError.unauthorized "Invalid refresh token",
      by simp only [refreshAccessToken, hv], by decide⟩
  · intro decoded hv hf
    exact ⟨ApiError.unauthorized "Refresh token is invalid or expired",
      by simp only [refreshAccessToken, hv, hf], by decide⟩

/-- A worked instance of C12: the two refusals in the sample database. -/
theorem refresh_failure_status_code_witness :
    (∃ e, refreshAccessToken sampleEnv sampleDb (.text "invalid_token") 1000
        = (sampleDb, .threw (.api e)) ∧
      ApiResponse.error e = ⟨401, false, "UNAUTHORIZED", "Invalid refresh token", []⟩) ∧
    (∃ e, refreshAccessToken sampleEnv
          (logout sampleEnv sampleDb (some (generateRefreshToken sampleEnv 0 0))).1
          (generateRefreshToken sampleEnv 0 0) 1000
        = ((logout sampleEnv sampleDb (some (generateRefreshToken sampleEnv 0 0))).1,
            .threw (.api e)) ∧
      ApiResponse.error e =
        ⟨401, false, "UNAUTHORIZED", "Refresh token is invalid or expired", []⟩) :=
  ⟨(refresh_failure_status_code sampleEnv sampleDb (.text "invalid_token") 1000).1 (by decide),
    (refresh_failure_status_code sampleEnv _ (generateRefreshToken sampleEnv 0 0) 1000).2
      ⟨0, 0, 604800⟩ (by decide) (by decide)⟩

/-! ## The revoked flag only goes up -/

theorem keeps_refl (r : RefreshToken) : Keeps r r :=
  ⟨rfl, rfl, rfl, rfl, id⟩

theorem keeps_trans {a b c : RefreshToken} (hab : Keeps a b) (hbc : Keeps b c) : Keeps a c :=
  ⟨hbc.1.trans hab.1, hbc.2.1.trans hab.2.1, hbc.2.2.1.trans hab.2.2.1,
    hbc.2.2.2.1.trans hab.2.2.2.1, fun h => hbc.2.2.2.2 (hab.2.2.2.2 h)⟩

theorem keeps_revoke (r : RefreshToken) : Keeps r { r with isRevoked := true } :=
  ⟨rfl, rfl, rfl, rfl, fun _ => rfl⟩

theorem advances_refl (db : Db) : Advances db db :=
  fun h => ⟨h, fun r hr => ⟨r, hr, keeps_refl r⟩, fun _ hr r' hr' hid =>
    (List.inj_on_of_nodup_map h.1 hr' hr hid) ▸ keeps_refl r'⟩

theorem advances_trans {a b c : Db} (hab : Advances a b) (hbc : Advances b c) :
    Advances a c := by
  intro ha
  obtain ⟨hb, hex1, hid1⟩ := hab ha
  obtain ⟨hc, hex2, hid2⟩ := hbc hb
  refine ⟨hc, ?_, ?_⟩
  · intro r hr
    obtain ⟨r1, hr1, hk1⟩ := hex1 r hr
    obtain ⟨r2, hr2, hk2⟩ := hex2 r1 hr1
    exact ⟨r2, hr2, keeps_trans hk1 hk2⟩
  · intro r hr r' hr' hid
    obtain ⟨r1, hr1, hk1⟩ := hex1 r hr
    exact keeps_trans hk1 (hid2 r1 hr1 r' hr' (hid.trans hk1.1.symm))

theorem map_updateFirst {α β : Type} (p : α → Bool) (g : α → α) (f : α → β)
    (hf : ∀ x, f (g x) = f x) :
    ∀ l : List α, (updateFirst p g l).map f = l.map f := by
  intro l
  induction l with
  | nil => rfl
  | cons a as ih =>
    unfold updateFirst
    by_cases hp : p a = true
    · rw [if_pos hp, List.map_cons, List.map_cons, hf]
    · rw [if_neg hp, List.map_cons, List.map_cons, ih]

/-- The documents are the same. -/
theorem advances_of_same (db db' : Db) (hrt : db'.refreshTokens = db.refreshTokens)
    (hn : db.nextId ≤ db'.nextId) : Advances db db' := by
  intro h
  refine ⟨⟨by rw [hrt]; exact h.1, fun r hr => ?_⟩, ?_, ?_⟩
  · rw [hrt] at hr
    exact Nat.lt_of_lt_of_le (h.2 r hr) hn
  · intro r hr
    exact ⟨r, by rw [hrt]; exact hr, keeps_refl r⟩
  · intro r hr r' hr' hid
    rw [hrt] at hr'
    exact (List.inj_on_of_nodup_map h.1 hr' hr hid) ▸ keeps_refl r'

/-- Every document is kept or revoked. -/
theorem advances_of_map (db db' : Db) (g : RefreshToken → RefreshToken)
    (hrt : db'.refreshTokens = db.refreshTokens.map g) (hn : db.nextId ≤ db'.nextId)
    (hg : ∀ r, Keeps r (g r)) : Advances db db' := by
  intro h
  have hids : db'.refreshTokens.map (fun r => r._id) = db.refreshTokens.map (fun r => r._id) := by
    rw [hrt, List.map_map]
    exact List.map_congr_left (fun r _ => (hg r).1)
  refine ⟨⟨by rw [hids]; exact h.1, fun r hr => ?_⟩, ?_, ?_⟩
  · rw [hrt] at hr
    obtain ⟨x, hx, rfl⟩ := List.mem_map.1 hr
    rw [(hg x).1]
    exact Nat.lt_of_lt_of_le (h.2 x hx) hn
  · intro r hr
    exact ⟨g r, by rw [hrt]; exact List.mem_map_of_mem g hr, hg r⟩
  · intro r hr r' hr' hid
    rw [hrt] at hr'
    obtain ⟨x, hx, rfl⟩ := List.mem_map.1 hr'
    have hx' : x = r := List.inj_on_of_nodup_map h.1 hx hr ((hg x).1.symm.trans hid)
    rw [hx']
    exact hg r

/-- The first document that matches is kept or revoked, the others are the same. -/
theorem advances_of_updateFirst (db db' : Db) (p : RefreshToken → Bool)
    (g : RefreshToken → RefreshToken)
    (hrt : db'.refreshTokens = updateFirst p g db.refreshTokens)
    (hn : db.nextId ≤ db'.nextId) (hg : ∀ r, Keeps r (g r)) : Advances db db' := by
  intro h
  have hids : db'.refreshTokens.map (fun r => r._id) = db.refreshTokens.map (fun r => r._id) := by
    rw [hrt]
    exact map_updateFirst p g _ (fun r => (hg r).1) _
  have hmem : ∀ r' ∈ db'.refreshTokens, ∃ x ∈ db.refreshTokens, Keeps x r' := by
    intro r' hr'
    rw [hrt] at hr'
    rcases mem_updateFirst p g _ r' hr' with h1 | ⟨x, hx, rfl⟩
    · exact ⟨r', h1, keeps_refl r'⟩
    · exact ⟨x, hx, hg x⟩
  refine ⟨⟨by rw [hids]; exact h.1, fun r hr => ?_⟩, ?_, ?_⟩
  · obtain ⟨x, hx, hk⟩ := hmem r hr
    rw [hk.1]
    exact Nat.lt_of_lt_of_le (h.2 x hx) hn
  · intro r hr
    rcases updateFirst_mem_or p g _ r hr with h1 | h1
    · exact ⟨r, by rw [hrt]; exact h1, keeps_refl r⟩
    · exact ⟨g r, by rw [hrt]; exact h1, hg r⟩
  · intro r hr r' hr' hid
    obtain ⟨x, hx, hk⟩ := hmem r' hr'
    have hx' : x = r := List.inj_on_of_nodup_map h.1 hx hr (hk.1.symm.trans hid)
    rw [← hx']
    exact hk

/-- One document is added under the next `_id`. -/
theorem advances_of_append (db db' : Db) (doc : RefreshToken)
    (hrt : db'.refreshTokens = db.refreshTokens ++ [doc])
    (hid : db.nextId ≤ doc._id) (hn : doc._id < db'.nextId) : Advances db db' := by
  intro h
  have hnew : ∀ r ∈ db.refreshTokens, r._id ≠ doc._id :=
    fun r hr heq => absurd (h.2 r hr) (Nat.not_lt.2 (heq ▸ hid))
  refine ⟨⟨?_, fun r hr => ?_⟩, ?_, ?_⟩
  · rw [hrt, List.map_append, List.nodup_append]
    refine ⟨h.1, by simp, ?_⟩
    intro a ha hb
    obtain ⟨x, hx, rfl⟩ := List.mem_map.1 ha
    simp only [List.map_cons, List.map_nil, List.mem_singleton] at hb
    exact hnew x hx hb
  · rw [hrt] at hr
    rcases List.mem_append.1 hr with h1 | h1
    · exact Nat.lt_trans (Nat.lt_of_lt_of_le (h.2 r h1) hid) hn
    · rw [List.mem_singleton] at h1
      rw [h1]; exact hn
  · intro r hr
    exact ⟨r, by rw [hrt]; exact List.mem_append_left _ hr, keeps_refl r⟩
  · intro r hr r' hr' hid'
    rw [hrt] at hr'
    rcases List.mem_append.1 hr' with h1 | h1
    · exact (List.inj_on_of_nodup_map h.1 h1 hr hid') ▸ keeps_refl r'
    · rw [List.mem_singleton] at h1
      rw [h1] at hid'
      exact absurd hid'.symm (hnew r hr)

theorem advances_saveRefreshToken (env : Env) (db : Db) (userId : Id) (token : Token)
    (now : Instant) : Advances db (saveRefreshToken env db userId token now).1 := by
  by_cases hk : ∃ r ∈ db.refreshTokens, r.token = RefreshToken.hashToken env token
  · rw [saveRefreshToken_stored env db userId token now hk]
    exact advances_refl db
  · have hf : ∀ r ∈ db.refreshTokens, r.token ≠ RefreshToken.hashToken env token :=
      fun r hr hk' => hk ⟨r, hr, hk'⟩
    rw [saveRefreshToken_fresh env db userId token now hf]
    exact advances_of_append db _ _ rfl (Nat.le_refl _) (Nat.lt_succ_self _)

theorem advances_revoke (db : Db) (doc : RefreshToken) :
    Advances db (RefreshToken.revoke db doc) := by
  refine advances_of_map db _ _ rfl (Nat.le_refl _) ?_
  intro r
  split
  · exact keeps_revoke r
  · exact keeps_refl r

theorem advances_register (env : Env) (db : Db) (username email password : String)
    (now : Instant) : Advances db (register env db username email password now).1 := by
  cases hfind : User.findByEmailOrUsername db email username with
  | some existingUser =>
    simp only [register, hfind]
    split <;> exact advances_refl db
  | none =>
    simp only [register, hfind, User.create]
    have h1 : Advances db { db with users := db.users ++ [⟨db.nextId, username, email,
        env.bcrypt password, "user"⟩], nextId := db.nextId + 1 } :=
      advances_of_same db _ rfl (Nat.le_succ _)
    have h2 := advances_saveRefreshToken env
      { db with users := db.users ++ [⟨db.nextId, username, email, env.bcrypt password,
          "user"⟩], nextId := db.nextId + 1 } db.nextId
      (generateTokens env db.nextId now).refreshToken now
    split
    · next db2 e heq => rw [heq] at h2; exact advances_trans h1 h2
    · next db2 u heq => rw [heq] at h2; exact advances_trans h1 h2

theorem advances_login (env : Env) (db : Db) (email password : String) (now : Instant) :
    Advances db (login env db email password now).1 := by
  cases hfind : User.findByEmail db email with
  | none => simp only [login, hfind]; exact advances_refl db
  | some user =>
    cases hpw : User.comparePassword env user password with
    | false =>
      simp only [login, hfind, hpw, Bool.false_eq_true, if_false]
      exact advances_refl db
    | true =>
      simp only [login, hfind, hpw, if_true]
      have h2 := advances_saveRefreshToken env db user._id
        (generateTokens env user._id now).refreshToken now
      split
      · next db2 e heq => rw [heq] at h2; exact h2
      · next db2 u heq => rw [heq] at h2; exact h2

theorem advances_refreshAccessToken (env : Env) (db : Db) (token : Token) (now : Instant) :
    Advances db (refreshAccessToken env db token now).1 := by
  cases hv : verifyRefreshToken env token now with
  | none => simp only [refreshAccessToken, hv]; exact advances_refl db
  | some decoded =>
    cases hf : RefreshToken.findValidToken env db token now with
    | none => simp only [refreshAccessToken, hv, hf]; exact advances_refl db
    | some storedToken =>
      cases hu : User.findById db decoded.userId with
      | none => simp only [refreshAccessToken, hv, hf, hu]; exact advances_refl db
      | some user =>
        simp only [refreshAccessToken, hv, hf, hu]
        have h2 := advances_saveRefreshToken env (RefreshToken.revoke db storedToken) user._id
          (generateTokens env user._id now).refreshToken now
        split
        · next db2 e heq =>
          rw [heq] at h2; exact advances_trans (advances_revoke db storedToken) h2
        · next db2 u heq =>
          rw [heq] at h2; exact advances_trans (advances_revoke db storedToken) h2

theorem advances_logout (env : Env) (db : Db) (token : Option Token) :
    Advances db (logout env db token).1 := by
  cases token with
  | none => exact advances_refl db
  | some t =>
    cases htruthy : t.truthy with
    | false => simp only [logout, htruthy, Bool.false_eq_true, if_false]; exact advances_refl db
    | true =>
      simp only [logout, htruthy, if_true]
      exact advances_of_updateFirst db _ _ _ rfl (Nat.le_refl _) keeps_revoke

theorem advances_logoutAll (db : Db) (userId : Id) : Advances db (logoutAll db userId).1 := by
  refine advances_of_map db _ _ rfl (Nat.le_refl _) ?_
  intro r
  split
  · exact keeps_revoke r
  · exact keeps_refl r

theorem advances_run (env : Env) (db : Db) (now : Instant) (call : AuthCall) :
    Advances db (call.run env db now) := by
  cases call with
  | register username email password => exact advances_register env db username email password now
  | login email password => exact advances_login env db email password now
  | refresh refreshToken => exact advances_refreshAccessToken env db refreshToken now
  | logout refreshToken => exact advances_logout env db refreshToken
  | logoutAll userId => exact advances_logoutAll db userId

theorem advances_runAuth (env : Env) (calls : List (AuthCall × Instant)) :
    ∀ db : Db, Advances db (runAuth env db calls) := by
  induction calls with
  | nil => intro db; exact advances_refl db
  | cons c rest ih =>
    intro db
    obtain ⟨call, now⟩ := c
    exact advances_trans (advances_run env db now call) (ih _)

/-- C13. From a database whose refresh-token `_id`s are fresh (the empty one is),
after any sequence of `register`, `login`, `refreshAccessToken`, `logout` and
`logoutAll` calls the `_id`s are fresh again, every document is still stored, and
every document with the `_id` of an earlier one has its `token`, `user` and
`expiresAt` and is revoked if the earlier one was. Revoking a revoked document
changes nothing: `revoke` on a stored revoked document, `logout` of a token
whose documents are all revoked, and `logoutAll` of a user whose documents are
all revoked leave the database as it is. -/
theorem revoked_is_monotonic (env : Env) (db : Db) (hids : FreshIds db) :
    (∀ calls : List (AuthCall × Instant),
      FreshIds (runAuth env db calls) ∧
      (∀ r ∈ db.refreshTokens, ∃ r' ∈ (runAuth env db calls).refreshTokens, Keeps r r') ∧
      (∀ r ∈ db.refreshTokens, ∀ r' ∈ (runAuth env db calls).refreshTokens,
        r'._id = r._id → Keeps r r')) ∧
    (∀ doc ∈ db.refreshTokens, doc.isRevoked = true → RefreshToken.revoke db doc = db) ∧
    (∀ token : Token,
      (∀ r ∈ db.refreshTokens, r.token = RefreshToken.hashToken env token →
        r.isRevoked = true) →
      (logout env db (some token)).1 = db) ∧
    (∀ userId : Id,
      (∀ r ∈ db.refreshTokens, r.user = userId → r.isRevoked = true) →
      (logoutAll db userId).1 = db) := by
  refine ⟨fun calls => advances_runAuth env calls db hids, ?_, ?_, ?_⟩
  · intro doc hdoc hrev
    unfold RefreshToken.revoke
    have hmap : db.refreshTokens.map (fun r =>
        if r._id == doc._id then { r with isRevoked := true } else r) = db.refreshTokens := by
      conv_rhs => rw [← List.map_id db.refreshTokens]
      apply List.map_congr_left
      intro r hr
      by_cases hid : r._id = doc._id
      · have hr' : r = doc := List.inj_on_of_nodup_map hids.1 hr hdoc hid
        subst hr'
        cases r
        simp only at hrev
        subst hrev
        simp
      · simp [hid]
    rw [hmap]
  · intro token hall
    cases htruthy : token.truthy with
    | false => simp [logout, htruthy]
    | true =>
      simp only [logout, htruthy, if_true]
      rw [updateFirst_eq_self _ _ db.refreshTokens]
      intro x hx hp
      have hk : x.token = RefreshToken.hashToken env token := by simpa using hp
      have hrev := hall x hx hk
      cases x
      simp only at hrev
      subst hrev
      rfl
  · intro userId hall
    unfold logoutAll RefreshToken.revokeAllUserTokens
    have hmap : db.refreshTokens.map (fun r =>
        if r.user == userId && r.isRevoked == false then { r with isRevoked := true } else r)
        = db.refreshTokens := by
      conv_rhs => rw [← List.map_id db.refreshTokens]
      apply List.map_congr_left
      intro r hr
      by_cases hu : r.user = userId
      · have hrev := hall r hr hu
        simp [hrev]
      · simp [hu]
    simp only [hmap]

/-- A worked instance of C13: in the sample database the session is logged out,
then its user logs in again and logs out everywhere; the revoked document of
`_id` 1 is kept to the end. -/
theorem revoked_is_monotonic_witness :
    ∃ r' ∈ (runAuth sampleEnv
        (logout sampleEnv sampleDb (some (generateRefreshToken sampleEnv 0 0))).1
        [(.login "ann@example.com" "Password123", 5000), (.logoutAll 0, 6000)]).refreshTokens,
      Keeps ⟨1, sampleDigest (generateRefreshToken sampleEnv 0 0), 0, sevenDays, true⟩ r' :=
  ((revoked_is_monotonic sampleEnv
    (logout sampleEnv sampleDb (some (generateRefreshToken sampleEnv 0 0))).1
    (by unfold FreshIds; decide)).1
    [(.login "ann@example.com" "Password123", 5000), (.logoutAll 0, 6000)]).2.1
    ⟨1, sampleDigest (generateRefreshToken sampleEnv 0 0), 0, sevenDays, true⟩ (by decide)

/-! ## Who may read, who may write -/

/-- C14. For a task that `findOne({ _id })` returns and a principal `p` (a user
whose document exists), `getTaskById` resolves to the task, populated, if and
only if `p` is the owner or a member of `sharedWith`; otherwise it throws the 403
`'You do not have access to this task'`. For an id that no task has it throws
the 404 `'Task not found'`. It never changes the database. -/
theorem getTaskById_access (db : Db) (task : Task) (p : Id)
    (hstored : Task.findById db task._id = some task)
    (hprincipal : (User.findById db p).isSome = true) :
    (getTaskById db task._id p = (db, .ok (Task.populate db task)) ↔
      (task.user = p ∨ p ∈ task.sharedWith)) ∧
    (¬ (task.user = p ∨ p ∈ task.sharedWith) →
      getTaskById db task._id p =
        (db, .threw (.api (ApiError.forbidden "You do not have access to this task")))) ∧
    (∀ missing : Id, Task.findById db missing = none →
      getTaskById db missing p = (db, .threw (.api (ApiError.notFound "Task not found")))) ∧
    (∀ taskId userId : Id, (getTaskById db taskId userId).1 = db) := by
  have hshared : (task.sharedWith.filter (fun u => (User.findById db u).isSome)).any
      (fun u => u == p) = true ↔ p ∈ task.sharedWith := by
    rw [List.any_eq_true]
    constructor
    · rintro ⟨u, hu, hup⟩
      have : u = p := by simpa using hup
      rw [← this]
      exact (List.mem_filter.1 hu).1
    · intro hp
      exact ⟨p, List.mem_filter.2 ⟨hp, hprincipal⟩, by simp⟩
  have hpu : (Task.populate db task).user = task.user := rfl
  have hps : (Task.populate db task).sharedWith =
      task.sharedWith.filter (fun u => (User.findById db u).isSome) := rfl
  refine ⟨?_, ?_, ?_, ?_⟩
  · by_cases hown : task.user = p
    · simp [getTaskById, hstored, hpu, hps, hown]
    · by_cases hsh : p ∈ task.sharedWith
      · have := hshared.2 hsh
        simp [getTaskById, hstored, hpu, hps, this, hsh]
      · have hany : (task.sharedWith.filter (fun u => (User.findById db u).isSome)).any
            (fun u => u == p) = false := by
          cases h : (task.sharedWith.filter (fun u => (User.findById db u).isSome)).any
              (fun u => u == p) with
          | false => rfl
          | true => exact absurd (hshared.1 h) hsh
        simp [getTaskById, hstored, hpu, hps, hown, hsh, hany]
  · intro hno
    have hown : ¬ task.user = p := fun h => hno (Or.inl h)
    have hsh : ¬ p ∈ task.sharedWith := fun h => hno (Or.inr h)
    have hany : (task.sharedWith.filter (fun u => (User.findById db u).isSome)).any
        (fun u => u == p) = false := by
      cases h : (task.sharedWith.filter (fun u => (User.findById db u).isSome)).any
          (fun u => u == p) with
      | false => rfl
      | true => exact absurd (hshared.1 h) hsh
    simp [getTaskById, hstored, hpu, hps, hown, hany]
  · intro missing hmissing
    simp [getTaskById, hmissing]
  · intro taskId userId
    unfold getTaskById
    split
    · rfl
    · simp only
      split <;> rfl

/-- A worked instance of C14: task 4 of the sample database, shared by its owner
0 with user 2, is returned to user 2. -/
theorem getTaskById_access_witness :
    getTaskById (shareTask sampleTeamDb 4 0 2 6000).1 4 2 =
      ((shareTask sampleTeamDb 4 0 2 6000).1,
        .ok ⟨4, "Write report", none, "todo", "medium", none, none, [], none, none, 0, [2]⟩) :=
  ((getTaskById_access (shareTask sampleTeamDb 4 0 2 6000).1
    ⟨4, "Write report", none, "todo", "medium", none, none, [], none, none, 0, [2]⟩ 2
    (by decide) (by decide)).1).2 (Or.inr (by decide))

/-- No task of the id is owned by the caller. -/
theorem findOwned_none_of_other (db : Db) (task : Task) (p : Id) (hstored : task ∈ db.tasks)
    (hids : UniqueTaskIds db) (hnot : task.user ≠ p) :
    Task.findOwned db task._id p = none := by
  unfold Task.findOwned
  rw [List.find?_eq_none]
  intro t ht hp
  simp only [Bool.and_eq_true, beq_iff_eq] at hp
  have : t = task := List.inj_on_of_nodup_map hids ht hstored hp.1
  rw [this] at hp
  exact hnot hp.2

theorem findOwned_none_of_missing (db : Db) (missing p : Id)
    (hmissing : ∀ t ∈ db.tasks, t._id ≠ missing) : Task.findOwned db missing p = none := by
  unfold Task.findOwned
  rw [List.find?_eq_none]
  intro t ht hp
  simp only [Bool.and_eq_true, beq_iff_eq] at hp
  exact hmissing t ht hp.1

/-- C15. For a stored task (task `_id`s being distinct) and a caller `p` who is
not its owner, whether the task is shared with `p` or not, each of `updateTask`,
`updateTaskStatus`, `updateTaskPriority`, `deleteTask`, `shareTask` and
`unshareTask` throws the 404 `NOT_FOUND` `'Task not found'` and leaves the
database as it is; called with an id that no task has, each returns the very
same result. -/
theorem non_owner_sees_not_found (db : Db) (task : Task) (p : Id) (missing : Id)
    (hstored : task ∈ db.tasks) (hids : UniqueTaskIds db) (hnot : task.user ≠ p)
    (hmissing : ∀ t ∈ db.tasks, t._id ≠ missing) :
    ApiResponse.error (ApiError.notFound "Task not found") =
      ⟨404, false, "NOT_FOUND", "Task not found", []⟩ ∧
    (∀ (updateData : UpdateData) (now : Instant),
      updateTask db task._id p updateData now =
        (db, .threw (.api (ApiError.notFound "Task not found"))) ∧
      updateTask db missing p updateData now = updateTask db task._id p updateData now) ∧
    (∀ (newStatus : String) (now : Instant),
      updateTaskStatus db task._id p newStatus now =
        (db, .threw (.api (ApiError.notFound "Task not found"))) ∧
      updateTaskStatus db missing p newStatus now =
        updateTaskStatus db task._id p newStatus now) ∧
    (∀ (newPriority : String) (now : Instant),
      updateTaskPriority db task._id p newPriority now =
        (db, .threw (.api (ApiError.notFound "Task not found"))) ∧
      updateTaskPriority db missing p newPriority now =
        updateTaskPriority db task._id p newPriority now) ∧
    (deleteTask db task._id p = (db, .threw (.api (ApiError.notFound "Task not found"))) ∧
      deleteTask db missing p = deleteTask db task._id p) ∧
    (∀ (target : Id) (now : Instant),
      shareTask db task._id p target now =
        (db, .threw (.api (ApiError.notFound "Task not found"))) ∧
      shareTask db missing p target now = shareTask db task._id p target now) ∧
    (∀ (target : Id) (now : Instant),
      unshareTask db task._id p target now =
        (db, .threw (.api (ApiError.notFound "Task not found"))) ∧
      unshareTask db missing p target now = unshareTask db task._id p target now) := by
  have h1 := findOwned_none_of_other db task p hstored hids hnot
  have h2 := findOwned_none_of_missing db missing p hmissing
  refine ⟨by decide, ?_, ?_, ?_, ?_, ?_, ?_⟩
  · intro updateData now
    simp [updateTask, h1, h2]
  · intro newStatus now
    simp [updateTaskStatus, h1, h2]
  · intro newPriority now
    simp [updateTaskPriority, h1, h2]
  · simp [deleteTask, h1, h2]
  · intro target now
    simp [shareTask, h1, h2]
  · intro target now
    simp [unshareTask, h1, h2]

/-- A worked instance of C15: user 2, with whom task 4 is shared, asks for its
deletion. -/
theorem non_owner_sees_not_found_witness :
    deleteTask (shareTask sampleTeamDb 4 0 2 6000).1 4 2 =
        ((shareTask sampleTeamDb 4 0 2 6000).1,
          .threw (.api (ApiError.notFound "Task not found"))) ∧
    deleteTask (shareTask sampleTeamDb 4 0 2 6000).1 9 2 =
      deleteTask (shareTask sampleTeamDb 4 0 2 6000).1 4 2 :=
  (non_owner_sees_not_found (shareTask sampleTeamDb 4 0 2 6000).1
    ⟨4, "Write report", none, "todo", "medium", none, none, [], none, none, 0, [2]⟩ 2 9
    (by decide) (by decide) (by decide) (by decide)).2.2.2.2.1

/-! ## Sharing -/

/-- A `save` that leaves `status` alone stores the document as it is. -/
theorem save_same_status (db : Db) (task doc : Task) (now : Instant)
    (hv : Task.validate doc = []) (hs : doc.status = task.status) :
    Task.save db task doc now =
      ({ db with tasks := db.tasks.map (fun t => if t._id == task._id then doc else t) },
        .ok doc) := by
  rw [save_valid db task doc now hv]
  have : decide (doc.status ≠ task.status) = false := by simp [hs]
  rw [this, preSave_unmodified]

theorem validate_sharedWith (task : Task) (members : List Id)
    (hv : Task.validate task = []) :
    Task.validate { task with sharedWith := members } = [] := hv

/-- C16. For a task owned by `owner` that passes the schema validation and a
target whose user document exists, who is not the owner and not yet in
`sharedWith`, `shareTask` succeeds: the stored task is the old one with the
target appended to `sharedWith`, the documents of other `_id`s and the other
collections are as before. A second `shareTask` with the same target throws the
409 `'Task is already shared with this user'` and changes nothing, so the target
occurs exactly once in `sharedWith`. -/
theorem shareTask_once (db : Db) (taskId owner target : Id) (now : Instant) (task : Task)
    (hfind : Task.findOwned db taskId owner = some task)
    (hvalid : Task.validate task = [])
    (htarget : (User.findById db target).isSome = true)
    (hne : owner ≠ target)
    (hnew : target ∉ task.sharedWith) :
    shareTask db taskId owner target now =
      ({ db with tasks := db.tasks.map (fun t =>
          if t._id == task._id then { task with sharedWith := task.sharedWith ++ [target] }
          else t) },
        .ok { task with sharedWith := task.sharedWith ++ [target] }) ∧
    Task.findOwned (shareTask db taskId owner target now).1 taskId owner =
      some { task with sharedWith := task.sharedWith ++ [target] } ∧
    (∀ later : Instant,
      shareTask (shareTask db taskId owner target now).1 taskId owner target later =
        ((shareTask db taskId owner target now).1,
          .threw (.api (ApiError.conflict "Task is already shared with this user" [])))) ∧
    (task.sharedWith ++ [target]).count target = 1 := by
  obtain ⟨u, hu⟩ := Option.isSome_iff_exists.1 htarget
  have hany : task.sharedWith.any (fun u => u == target) = false := by
    rw [List.any_eq_false]
    intro x hx
    have : x ≠ target := fun h => hnew (h ▸ hx)
    simpa using this
  have hres : shareTask db taskId owner target now =
      ({ db with tasks := db.tasks.map (fun t =>
          if t._id == task._id then { task with sharedWith := task.sharedWith ++ [target] }
          else t) },
        .ok { task with sharedWith := task.sharedWith ++ [target] }) := by
    simp only [shareTask, hfind, hu, hne, if_false, hany, Bool.false_eq_true]
    exact save_same_status db task _ now (validate_sharedWith task _ hvalid) rfl
  have htask := List.find?_some hfind
  simp only [Task.findOwned, Bool.and_eq_true, beq_iff_eq] at htask
  have hfind1 : Task.findOwned (shareTask db taskId owner target now).1 taskId owner =
      some { task with sharedWith := task.sharedWith ++ [target] } := by
    rw [hres]
    exact findOwned_after_save db taskId owner task _ hfind rfl htask.2
  refine ⟨hres, hfind1, ?_, ?_⟩
  · intro later
    have hu1 : User.findById (shareTask db taskId owner target now).1 target = some u := by
      rw [hres]; exact hu
    generalize (shareTask db taskId owner target now).1 = db1 at hfind1 hu1
    simp [shareTask, hfind1, hu1, hne]
  · rw [List.count_append, List.count_eq_zero_of_not_mem hnew]
    simp

/-- A worked instance of C16: task 4 of the sample database is shared with
user 2, twice. -/
theorem shareTask_once_witness :
    shareTask (shareTask sampleTeamDb 4 0 2 6000).1 4 0 2 7000 =
      ((shareTask sampleTeamDb 4 0 2 6000).1,
        .threw (.api (ApiError.conflict "Task is already shared with this user" []))) :=
  (shareTask_once sampleTeamDb 4 0 2 6000
    ⟨4, "Write report", none, "todo", "medium", none, none, [], none, none, 0, []⟩
    (by decide) (by decide) (by decide) (by decide) (by decide)).2.2.1 7000

/-- C17 as stated fails: the owner of the task of the sample database, user 7,
has no user document; sharing the task with its owner throws the 404
`'User not found'`, not the 400 of a share with oneself. -/
theorem share_with_self_not_found :
    Task.findOwned sampleTaskDb 0 7 =
      some ⟨0, "Write report", none, "todo", "medium", none, none, [], none, none, 7, []⟩ ∧
    shareTask sampleTaskDb 0 7 7 1000 =
      (sampleTaskDb, .threw (.api (ApiError.notFound "User not found"))) := by
  decide

/-- C17 (amended). The checks of `shareTask` apply in this order: the 404
`'Task not found'` when the owner has no task of the id; otherwise the 404
`'User not found'` when the target has no user document; otherwise the 400
`'Cannot share task with yourself'` when the target is the owner; otherwise the
409 `'Task is already shared with this user'` when the target is in
`sharedWith`. Each failure leaves the database as it is. Sharing a task with its
owner therefore throws the 400 when the owner has a user document and the 404
`'User not found'` when not. -/
theorem shareTask_check_order (db : Db) (taskId ownerId targetId : Id) (now : Instant) :
    (Task.findOwned db taskId ownerId = none →
      shareTask db taskId ownerId targetId now =
        (db, .threw (.api (ApiError.notFound "Task not found")))) ∧
    (∀ task, Task.findOwned db taskId ownerId = some task →
      (User.findById db targetId = none →
        shareTask db taskId ownerId targetId now =
          (db, .threw (.api (ApiError.notFound "User not found")))) ∧
      (∀ user, User.findById db targetId = some user →
        (ownerId = targetId →
          shareTask db taskId ownerId targetId now =
            (db, .threw (.api (ApiError.badRequest "Cannot share task with yourself")))) ∧
        (ownerId ≠ targetId → targetId ∈ task.sharedWith →
          shareTask db taskId ownerId targetId now =
            (db, .threw (.api
              (ApiError.conflict "Task is already shared with this user" [])))))) := by
  refine ⟨fun h => by simp [shareTask, h], ?_⟩
  intro task hfind
  refine ⟨fun hu => by simp [shareTask, hfind, hu], ?_⟩
  intro user hu
  refine ⟨fun heq => by subst heq; simp [shareTask, hfind, hu], ?_⟩
  intro hne hmem
  have hany : task.sharedWith.any (fun u => u == targetId) = true := by
    rw [List.any_eq_true]
    exact ⟨targetId, hmem, by simp⟩
  simp [shareTask, hfind, hu, hne, hany]

/-- A worked instance of C17: in the sample database user 0 has a user document
and shares task 4 with herself. -/
theorem shareTask_check_order_witness :
    shareTask sampleTeamDb 4 0 0 6000 =
      (sampleTeamDb, .threw (.api (ApiError.badRequest "Cannot share task with yourself"))) :=
  (((shareTask_check_order sampleTeamDb 4 0 0 6000).2
    ⟨4, "Write report", none, "todo", "medium", none, none, [], none, none, 0, []⟩
    (by decide)).2 ⟨0, "ann", "ann@example.com", "hashed:Password123", "user"⟩
    (by decide)).1 rfl

/-- C18. For a task owned by `owner` that passes the schema validation and any
target, `unshareTask` succeeds: the stored task is the old one with `sharedWith`
filtered to the members other than the target, so the target is not a member and
the others stay in their order. When the target was not a member the task is
the old one. A second `unshareTask` with the same target resolves to the same
task and leaves the database as the first call left it. -/
theorem unshareTask_idempotent (db : Db) (taskId owner target : Id) (now : Instant)
    (task : Task)
    (hfind : Task.findOwned db taskId owner = some task)
    (hvalid : Task.validate task = []) :
    unshareTask db taskId owner target now =
      ({ db with tasks := db.tasks.map (fun t =>
          if t._id == task._id
          then { task with sharedWith := task.sharedWith.filter (fun u => u != target) }
          else t) },
        .ok { task with sharedWith := task.sharedWith.filter (fun u => u != target) }) ∧
    Task.findOwned (unshareTask db taskId owner target now).1 taskId owner =
      some { task with sharedWith := task.sharedWith.filter (fun u => u != target) } ∧
    target ∉ task.sharedWith.filter (fun u => u != target) ∧
    (∀ u, u ≠ target → (u ∈ task.sharedWith.filter (fun u => u != target) ↔
      u ∈ task.sharedWith)) ∧
    (task.sharedWith.filter (fun u => u != target)).Sublist task.sharedWith ∧
    (target ∉ task.sharedWith →
      { task with sharedWith := task.sharedWith.filter (fun u => u != target) } = task) ∧
    (∀ later : Instant,
      unshareTask (unshareTask db taskId owner target now).1 taskId owner target later =
        unshareTask db taskId owner target now) := by
  have hres : unshareTask db taskId owner target now =
      ({ db with tasks := db.tasks.map (fun t =>
          if t._id == task._id
          then { task with sharedWith := task.sharedWith.filter (fun u => u != target) }
          else t) },
        .ok { task with sharedWith := task.sharedWith.filter (fun u => u != target) }) := by
    simp only [unshareTask, hfind]
    exact save_same_status db task _ now (validate_sharedWith task _ hvalid) rfl
  have htask := List.find?_some hfind
  simp only [Task.findOwned, Bool.and_eq_true, beq_iff_eq] at htask
  have hfind1 : Task.findOwned (unshareTask db taskId owner target now).1 taskId owner =
      some { task with sharedWith := task.sharedWith.filter (fun u => u != target) } := by
    rw [hres]
    exact findOwned_after_save db taskId owner task _ hfind rfl htask.2
  refine ⟨hres, hfind1, ?_, ?_, List.filter_sublist _, ?_, ?_⟩
  · simp [List.mem_filter]
  · intro u hu
    simp [List.mem_filter, hu]
  · intro hnot
    have hfilter : task.sharedWith.filter (fun u => u != target) = task.sharedWith := by
      rw [List.filter_eq_self]
      intro a ha
      have : a ≠ target := fun h => hnot (h ▸ ha)
      simpa using this
    rw [hfilter]
  · intro later
    have hstep : unshareTask (unshareTask db taskId owner target now).1 taskId owner target later
        = Task.save (unshareTask db taskId owner target now).1
            { task with sharedWith := task.sharedWith.filter (fun u => u != target) }
            { task with sharedWith := task.sharedWith.filter (fun u => u != target) } later := by
      generalize (unshareTask db taskId owner target now).1 = db1 at hfind1
      simp only [unshareTask, hfind1, List.filter_filter, Bool.and_self]
    rw [hstep, save_same_status _ _ _ later (validate_sharedWith task _ hvalid) rfl, hres]
    simp only [List.map_map, Prod.mk.injEq, and_true]
    congr 1
    apply List.map_congr_left
    intro t _
    simp only [Function.comp]
    by_cases ht : t._id = task._id
    · simp [ht]
    · simp [ht]

/-- A worked instance of C18: task 4 of the sample database, shared with user 2,
is unshared. -/
theorem unshareTask_idempotent_witness :
    unshareTask (shareTask sampleTeamDb 4 0 2 6000).1 4 0 2 7000 =
      (sampleTeamDb,
        .ok ⟨4, "Write report", none, "todo", "medium", none, none, [], none, none, 0, []⟩) :=
  (unshareTask_idempotent (shareTask sampleTeamDb 4 0 2 6000).1 4 0 2 7000
    ⟨4, "Write report", none, "todo", "medium", none, none, [], none, none, 0, [2]⟩
    (by decide) (by decide)).1.trans (by decide)

/-- C19, at its failing input: in the database reached from the empty one by
`createTask(7, { title })`, the call `updateTask(0, 7, { sharedWith: [7] })`
succeeds and stores the task of user 7 with user 7 in `sharedWith`; `shareTask`
refuses the same target as a share with oneself once user 7 has a user
document. -/
theorem owner_mass_assigned_to_sharedWith :
    updateTask sampleTaskDb 0 7 { sharedWith := some [7] } 1000 =
      ({ sampleTaskDb with tasks :=
          [⟨0, "Write report", none, "todo", "medium", none, none, [], none, none, 7, [7]⟩] },
        .ok ⟨0, "Write report", none, "todo", "medium", none, none, [], none, none, 7, [7]⟩) ∧
    updateTask sampleTeamDb 4 0 { sharedWith := some [0] } 6000 =
      ({ sampleTeamDb with tasks :=
          [⟨4, "Write report", none, "todo", "medium", none, none, [], none, none, 0, [0]⟩] },
        .ok ⟨4, "Write report", none, "todo", "medium", none, none, [], none, none, 0, [0]⟩) ∧
    shareTask sampleTeamDb 4 0 0 6000 =
      (sampleTeamDb, .threw (.api (ApiError.badRequest "Cannot share task with yourself"))) := by
  decide

/-! ## The task count of a category -/

theorem updateFirst_updateFirst {α : Type} (p : α → Bool) (f g : α → α)
    (hp : ∀ x, p x = true → p (g x) = true) :
    ∀ l : List α, updateFirst p f (updateFirst p g l) = updateFirst p (fun x => f (g x)) l := by
  intro l
  induction l with
  | nil => rfl
  | cons a as ih =>
    by_cases hpa : p a = true
    · have h1 : updateFirst p g (a :: as) = g a :: as := by
        rw [updateFirst, if_pos hpa]
      rw [h1, updateFirst, if_pos (hp a hpa), updateFirst, if_pos hpa]
    · have h1 : updateFirst p g (a :: as) = a :: updateFirst p g as := by
        rw [updateFirst, if_neg hpa]
      rw [h1, updateFirst, if_neg hpa, ih, updateFirst, if_neg hpa]

theorem find?_updateFirst_same {α : Type} (p : α → Bool) (g : α → α)
    (hp : ∀ x, p x = true → p (g x) = true) :
    ∀ (l : List α) (a : α), l.find? p = some a → (updateFirst p g l).find? p = some (g a) := by
  intro l
  induction l with
  | nil => intro a h; simp at h
  | cons x xs ih =>
    intro a h
    rw [List.find?_cons] at h
    by_cases hpx : p x = true
    · rw [hpx] at h
      cases h
      rw [updateFirst, if_pos hpx, List.find?_cons, hp x hpx]
    · have hpx' : p x = false := by simpa using hpx
      rw [hpx'] at h
      rw [updateFirst, if_neg hpx, List.find?_cons, hpx']
      exact ih a h

theorem find?_updateFirst_other {α : Type} (p q : α → Bool) (g : α → α)
    (hq : ∀ x, q (g x) = q x) (hpq : ∀ x, p x = true → q x = false) :
    ∀ l : List α, (updateFirst p g l).find? q = l.find? q := by
  intro l
  induction l with
  | nil => rfl
  | cons x xs ih =>
    by_cases hpx : p x = true
    · rw [updateFirst, if_pos hpx, List.find?_cons, List.find?_cons, hq, hpq x hpx]
    · rw [updateFirst, if_neg hpx, List.find?_cons, List.find?_cons, ih]

theorem Task_create_categories (db : Db) (taskData : TaskData) (userId : Id) :
    (Task.create db taskData userId).1.categories = db.categories := by
  unfold Task.create
  simp only
  split <;> rfl

/-- The categories after a `createTask` that succeeds. -/
theorem createTask_categories (db db1 : Db) (userId : Id) (taskData : TaskData) (task : Task)
    (h : createTask db userId taskData = (db1, .ok task)) :
    db1.categories = (incrementTaskCount db taskData.category).categories := by
  unfold createTask at h
  simp only at h
  split at h
  · simp at h
  · have hcat := Task_create_categories db taskData userId
    cases hcreate : Task.create db taskData userId with
    | mk dbT out =>
      rw [hcreate] at h hcat
      cases out with
      | threw e => simp at h
      | ok t =>
        simp only [Prod.mk.injEq, Outcome.ok.injEq] at h
        rw [← h.1]
        simp only at hcat
        cases taskData.category with
        | none => exact hcat
        | some c => simp only [incrementTaskCount, hcat]

/-- The categories after a run of `createTask` calls that all name category `c`. -/
theorem createTasks_categories (userId c : Id) :
    ∀ (taskDatas : List TaskData) (db db1 : Db),
      (∀ d ∈ taskDatas, d.category = some c) → createTasks db userId taskDatas = some db1 →
      db1.categories = updateFirst (fun k => k._id == c)
        (fun k => { k with taskCount := k.taskCount + taskDatas.length }) db.categories := by
  intro taskDatas
  induction taskDatas with
  | nil =>
    intro db db1 _ h
    simp only [createTasks, Option.some.injEq] at h
    rw [← h]
    symm
    apply updateFirst_eq_self
    intro k _ _
    simp
  | cons d rest ih =>
    intro db db1 hall h
    unfold createTasks at h
    cases hc : createTask db userId d with
    | mk dbA out =>
      rw [hc] at h
      cases out with
      | threw e => simp at h
      | ok task =>
        simp only at h
        have hA := createTask_categories db dbA userId d task hc
        rw [hall d (List.mem_cons_self d rest)] at hA
        have hB := ih dbA db1 (fun x hx => hall x (List.mem_cons_of_mem d hx)) h
        rw [hB, hA]
        simp only [incrementTaskCount]
        rw [updateFirst_updateFirst (fun k : Category => k._id == c)
          (fun k => { k with taskCount := k.taskCount + rest.length })
          (fun k => { k with taskCount := k.taskCount + 1 }) (fun x hx => hx)]
        congr 1
        funext k
        simp only [List.length_cons, Nat.cast_add, Nat.cast_one]
        congr 1
        omega

/-- The category of id `c` after its count was adjusted. -/
theorem findById_adjusted (db : Db) (c : Id) (g : Category → Category)
    (hg : ∀ k, (g k)._id = k._id) (categories : List Category)
    (hcat : categories = updateFirst (fun k => k._id == c) g db.categories) :
    (∀ category, Category.findById db c = some category →
      categories.find? (fun k => k._id == c) = some (g category)) ∧
    (∀ other, other ≠ c →
      categories.find? (fun k => k._id == other) = Category.findById db other) := by
  refine ⟨?_, ?_⟩
  · intro category hfind
    rw [hcat]
    exact find?_updateFirst_same _ g (fun x hx => by simpa [hg] using hx) _ _ hfind
  · intro other hne
    rw [hcat]
    unfold Category.findById
    apply find?_updateFirst_other
    · intro x; simp [hg]
    · intro x hx
      have : x._id = c := by simpa using hx
      simp [this, Ne.symm hne]

/-- What `deleteTask` does for the owner of a task. -/
theorem deleteTask_owned (db : Db) (taskId userId : Id) (task : Task)
    (hfind : Task.findOwned db taskId userId = some task) :
    deleteTask db taskId userId =
      ({ decrementTaskCount db task.category with
          tasks := (decrementTaskCount db task.category).tasks.filter
            (fun t => t._id != task._id) }, .ok true) := by
  simp only [deleteTask, hfind]

/-- C20. For a category id `c` and a user: after a run of successful
`createTask` calls of the user that all name `c`, the categories are the old
ones with the count of the category of id `c` raised by the number of calls, so
a count `C` has become `C + N` and the category of any other id is as before. A
`deleteTask` by the owner of a task whose category is `c` succeeds and lowers
that count by one, leaving `C + N - 1` after the `N` calls. A `createTask`
without a category and a `deleteTask` of a task without a category leave the
categories as they are. -/
theorem category_count_tracks_tasks (db : Db) (userId c : Id) :
    (∀ (taskDatas : List TaskData) (db1 : Db),
      (∀ d ∈ taskDatas, d.category = some c) → createTasks db userId taskDatas = some db1 →
      db1.categories = updateFirst (fun k => k._id == c)
        (fun k => { k with taskCount := k.taskCount + taskDatas.length }) db.categories ∧
      (∀ category, Category.findById db c = some category →
        Category.findById db1 c =
          some { category with taskCount := category.taskCount + taskDatas.length }) ∧
      (∀ other, other ≠ c → Category.findById db1 other = Category.findById db other) ∧
      (∀ (taskId : Id) (task : Task) (category : Category),
        Task.findOwned db1 taskId userId = some task → task.category = some c →
        Category.findById db c = some category →
        (deleteTask db1 taskId userId).2 = .ok true ∧
        Category.findById (deleteTask db1 taskId userId).1 c =
          some { category with taskCount := category.taskCount + taskDatas.length - 1 } ∧
        (∀ other, other ≠ c →
          Category.findById (deleteTask db1 taskId userId).1 other
            = Category.findById db other))) ∧
    (∀ (taskData : TaskData) (db1 : Db) (task : Task), taskData.category = none →
      createTask db userId taskData = (db1, .ok task) → db1.categories = db.categories) ∧
    (∀ (taskId : Id) (task : Task), Task.findOwned db taskId userId = some task →
      task.category = none →
      (deleteTask db taskId userId).2 = .ok true ∧
      (deleteTask db taskId userId).1.categories = db.categories) := by
  refine ⟨?_, ?_, ?_⟩
  · intro taskDatas db1 hall hrun
    have hcat := createTasks_categories userId c taskDatas db db1 hall hrun
    have hadj := findById_adjusted db c
      (fun k => { k with taskCount := k.taskCount + taskDatas.length }) (fun _ => rfl)
      db1.categories hcat
    refine ⟨hcat, hadj.1, hadj.2, ?_⟩
    intro taskId task category hfind hc hfound
    have hdel := deleteTask_owned db1 taskId userId task hfind
    rw [hc] at hdel
    have hcat2 : (deleteTask db1 taskId userId).1.categories =
        updateFirst (fun k => k._id == c)
          (fun k => { k with taskCount := k.taskCount - 1 }) db1.categories := by
      rw [hdel]; rfl
    have hadj2 := findById_adjusted db1 c
      (fun k => { k with taskCount := k.taskCount - 1 }) (fun _ => rfl) _ hcat2
    refine ⟨by rw [hdel], ?_, ?_⟩
    · exact hadj2.1 _ (hadj.1 category hfound)
    · intro other hne
      exact (hadj2.2 other hne).trans (hadj.2 other hne)
  · intro taskData db1 task hnone h
    have := createTask_categories db db1 userId taskData task h
    rw [hnone] at this
    exact this
  · intro taskId task hfind hnone
    have hdel := deleteTask_owned db taskId userId task hfind
    rw [hnone] at hdel
    rw [hdel]
    exact ⟨rfl, rfl⟩

/-- A worked instance of C20: two tasks are created in the category `Work` of
the sample database, whose count is 0, and the first of them is deleted. -/
theorem category_count_tracks_tasks_witness :
    Category.findById (deleteTask
        ((createTasks sampleCategoryDb 7
          [{ title := some "A", category := some 0 },
           { title := some "B", category := some 0 }]).getD Db.empty) 1 7).1 0 =
      some ⟨0, "Work", "#3B82F6", 7, 0 + 2 - 1⟩ :=
  (((category_count_tracks_tasks sampleCategoryDb 7 0).1
    [{ title := some "A", category := some 0 }, { title := some "B", category := some 0 }]
    ((createTasks sampleCategoryDb 7
      [{ title := some "A", category := some 0 },
       { title := some "B", category := some 0 }]).getD Db.empty)
    (by decide) (by decide)).2.2.2 1
    ⟨1, "A", none, "todo", "medium", none, some 0, [], none, none, 7, []⟩
    ⟨0, "Work", "#3B82F6", 7, 0⟩ (by decide) (by decide) (by decide)).2.1

/-! ## Rejections of `updateTask` -/

/-- C30. Whenever `updateTask` throws an `ApiError` it is the 404
`'Task not found'`, the `INVALID_STATUS_TRANSITION` for the requested status, or
the 400 `'Invalid category'`, and the database is as before the call: the three
checks come before the count adjustment and the write. -/
theorem updateTask_rejections_atomic (db : Db) (taskId userId : Id)
    (updateData : UpdateData) (now : Instant) :
    (∀ db' e, updateTask db taskId userId updateData now = (db', .threw (.api e)) →
      db' = db ∧
      (e = ApiError.notFound "Task not found" ∨
        (∃ task newStatus, Task.findOwned db taskId userId = some task ∧
          updateData.status = some newStatus ∧
          e = ApiError.invalidStatusTransition (transitionMessage task.status newStatus)) ∨
        e = ApiError.badRequest "Invalid category")) ∧
    (Task.findOwned db taskId userId = none →
      updateTask db taskId userId updateData now =
        (db, .threw (.api (ApiError.notFound "Task not found")))) ∧
    (∀ task newStatus, Task.findOwned db taskId userId = some task →
      updateData.status = some newStatus → newStatus ≠ "" → newStatus ≠ task.status →
      task.canTransitionTo newStatus = false →
      updateTask db taskId userId updateData now =
        (db, .threw (.api (ApiError.invalidStatusTransition
          (transitionMessage task.status newStatus))))) := by
  refine ⟨?_, ?_, ?_⟩
  · intro db' e h
    cases hfind : Task.findOwned db taskId userId with
    | none =>
      simp only [updateTask, hfind, Prod.mk.injEq, Outcome.threw.injEq, Thrown.api.injEq] at h
      exact ⟨h.1.symm, Or.inl h.2.symm⟩
    | some task =>
      simp only [updateTask, hfind] at h
      split at h
      · next newStatus hrej =>
        simp only [Prod.mk.injEq, Outcome.threw.injEq, Thrown.api.injEq] at h
        refine ⟨h.1.symm, Or.inr (Or.inl ⟨task, newStatus, rfl, ?_, h.2.symm⟩)⟩
        cases hs : updateData.status with
        | none => simp [hs] at hrej
        | some s =>
          simp only [hs] at hrej
          split at hrej
          · simp only [Option.some.injEq] at hrej
            rw [hrej]
          · simp at hrej
      · split at h
        · simp only [Prod.mk.injEq, Outcome.threw.injEq, Thrown.api.injEq] at h
          exact ⟨h.1.symm, Or.inr (Or.inr h.2.symm)⟩
        · next counted _ =>
          exact absurd (congrArg Prod.snd h) (save_not_api _ _ _ _ _)
  · intro hfind
    simp [updateTask, hfind]
  · intro task newStatus hfind hs hne hchange hc
    simp [updateTask, hfind, hs, hne, hchange, hc]

/-- A worked instance of C30: the archived task of the sample database is asked
back to `todo` and into a category at once. -/
theorem updateTask_rejections_atomic_witness :
    updateTask (updateTaskStatus sampleTaskDb 0 7 "archived" 1000).1 0 7
        { status := some "todo", category := .value 3 } 2000 =
      ((updateTaskStatus sampleTaskDb 0 7 "archived" 1000).1,
        .threw (.api (ApiError.invalidStatusTransition
          (transitionMessage "archived" "todo")))) :=
  (updateTask_rejections_atomic (updateTaskStatus sampleTaskDb 0 7 "archived" 1000).1 0 7
    { status := some "todo", category := .value 3 } 2000).2.2
    ⟨0, "Write report", none, "archived", "medium", none, none, [], none, none, 7, []⟩ "todo"
    (by decide) rfl (by decide) (by decide) (by decide)

/-! ## Moving a task between categories -/

theorem save_categories (db : Db) (original doc : Task) (now : Instant) :
    (Task.save db original doc now).1.categories = db.categories := by
  unfold Task.save
  simp only
  split <;> rfl

/-- The category of id `k` after the first category of id `c` was changed. -/
theorem find?_updateFirst_id (c k : Id) (g : Category → Category)
    (hg : ∀ x, (g x)._id = x._id) :
    ∀ l : List Category,
      (updateFirst (fun x => x._id == c) g l).find? (fun x => x._id == k) =
        if k = c then (l.find? (fun x => x._id == k)).map g
        else l.find? (fun x => x._id == k) := by
  intro l
  induction l with
  | nil => simp [updateFirst]
  | cons x xs ih =>
    by_cases hxc : x._id = c
    · have hp : (x._id == c) = true := by simpa using hxc
      rw [updateFirst, if_pos hp]
      by_cases hkc : k = c
      · subst hkc
        simp [List.find?_cons, hg, hxc]
      · have hxk : ¬ x._id = k := fun h => hkc (h.symm.trans hxc)
        simp [List.find?_cons, hg, hxk, hkc]
    · have hp : ¬ (x._id == c) = true := by simpa using hxc
      rw [updateFirst, if_neg hp, List.find?_cons, List.find?_cons, ih]
      have hp' : (x._id == c) = false := by simpa using hxc
      by_cases hkc : k = c
      · subst hkc
        simp [hp']
      · simp only [hkc, if_false]

theorem find?_incremented (c k : Id) (l : List Category) :
    (updateFirst (fun x => x._id == c)
        (fun x => { x with taskCount := x.taskCount + 1 }) l).find? (fun x => x._id == k) =
      if k = c then (l.find? (fun x => x._id == k)).map
          (fun x => { x with taskCount := x.taskCount + 1 })
      else l.find? (fun x => x._id == k) :=
  find?_updateFirst_id c k (fun x => { x with taskCount := x.taskCount + 1 }) (fun _ => rfl) l

theorem find?_decremented (c k : Id) (l : List Category) :
    (updateFirst (fun x => x._id == c)
        (fun x => { x with taskCount := x.taskCount - 1 }) l).find? (fun x => x._id == k) =
      if k = c then (l.find? (fun x => x._id == k)).map
          (fun x => { x with taskCount := x.taskCount - 1 })
      else l.find? (fun x => x._id == k) :=
  find?_updateFirst_id c k (fun x => { x with taskCount := x.taskCount - 1 }) (fun _ => rfl) l

/-- The categories after an `updateTask` that succeeds: untouched when the
category stays, adjusted by `updateTaskCounts` when it changes. -/
theorem updateTask_categories (db db1 : Db) (taskId userId : Id) (updateData : UpdateData)
    (now : Instant) (task saved : Task)
    (hfind : Task.findOwned db taskId userId = some task)
    (hok : updateTask db taskId userId updateData now = (db1, .ok saved)) :
    db1.categories =
      if task.category = Field.assign task.category updateData.category then db.categories
      else (updateTaskCounts db task.category
        (Field.assign task.category updateData.category)).categories := by
  simp only [updateTask, hfind] at hok
  split at hok
  · simp at hok
  · split at hok
    · simp at hok
    · next counted hcounted =>
      have hcat := save_categories counted task (Task.assign task updateData) now
      rw [hok] at hcat
      simp only at hcat
      rw [hcat]
      cases hc : updateData.category with
      | absent =>
        simp only [hc, Option.some.injEq] at hcounted
        simp [Field.assign, ← hcounted]
      | null =>
        simp only [hc, Option.some.injEq] at hcounted
        rw [← hcounted]
        cases ht : task.category with
        | none => simp [Field.assign, updateTaskCounts]
        | some old => simp [Field.assign]
      | value c =>
        simp only [hc] at hcounted
        by_cases hsame : task.category = some c
        · simp only [hsame, if_true, Option.some.injEq] at hcounted
          simp [Field.assign, hsame, ← hcounted]
        · simp only [hsame, if_false] at hcounted
          split at hcounted
          · simp at hcounted
          · simp only [Option.some.injEq] at hcounted
            simp [Field.assign, hsame, ← hcounted]

/-- C21. For a successful `updateTask` on an owned task, with `old` the category
of the task before and `new` the category after the assignment (the supplied
one, none for `null`, the old one when no category is supplied): when `old` and
`new` are equal the categories are untouched; otherwise the category of the old
id, if the task had one, has its count lowered by one, the category of the new
id, if there is one, has its count raised by one, and the categories of all
other ids are as before. -/
theorem updateTask_category_counts (db db1 : Db) (taskId userId : Id)
    (updateData : UpdateData) (now : Instant) (task saved : Task)
    (hfind : Task.findOwned db taskId userId = some task)
    (hok : updateTask db taskId userId updateData now = (db1, .ok saved)) :
    saved.category = Field.assign task.category updateData.category ∧
    (task.category = Field.assign task.category updateData.category →
      db1.categories = db.categories) ∧
    (task.category ≠ Field.assign task.category updateData.category →
      (∀ old, task.category = some old →
        Category.findById db1 old = (Category.findById db old).map
          (fun k => { k with taskCount := k.taskCount - 1 })) ∧
      (∀ new, Field.assign task.category updateData.category = some new →
        Category.findById db1 new = (Category.findById db new).map
          (fun k => { k with taskCount := k.taskCount + 1 })) ∧
      (∀ other, task.category ≠ some other →
        Field.assign task.category updateData.category ≠ some other →
        Category.findById db1 other = Category.findById db other)) := by
  have hcat := updateTask_categories db db1 taskId userId updateData now task saved hfind hok
  refine ⟨?_, ?_, ?_⟩
  · obtain ⟨task', counted, hfind', hsave⟩ :=
      updateTask_ok db db1 taskId userId updateData now saved hok
    rw [hfind] at hfind'
    cases hfind'
    obtain ⟨-, hsaved, -⟩ := save_ok counted db1 task _ saved now hsave
    rw [hsaved]
    unfold Task.preSave
    split <;> [(split <;> [rfl; (split <;> rfl)]); rfl]
  · intro hsame
    rw [hcat, if_pos hsame]
  · intro hdiff
    rw [if_neg hdiff] at hcat
    generalize Field.assign task.category updateData.category = new at hcat hdiff
    have hne : ¬ (task.category = none ∧ new = none) := fun h => hdiff (h.1.trans h.2.symm)
    simp only [updateTaskCounts, hne, if_false] at hcat
    unfold Category.findById
    rw [hcat]
    refine ⟨?_, ?_, ?_⟩
    · intro old hold
      rw [hold] at hdiff
      cases new with
      | none =>
        simp only [incrementTaskCount, decrementTaskCount, hold]
        rw [find?_decremented old old, if_pos rfl]
      | some c =>
        have hoc : old ≠ c := fun h => hdiff (by rw [h])
        simp only [incrementTaskCount, decrementTaskCount, hold]
        rw [find?_incremented c old, if_neg hoc, find?_decremented old old, if_pos rfl]
    · intro c hnew
      subst hnew
      cases hold : task.category with
      | none =>
        simp only [incrementTaskCount, decrementTaskCount]
        rw [find?_incremented c c, if_pos rfl]
      | some old =>
        have hoc : c ≠ old := fun h => hdiff (by rw [hold, h])
        simp only [incrementTaskCount, decrementTaskCount]
        rw [find?_incremented c c, if_pos rfl, find?_decremented old c, if_neg hoc]
    · intro other hold hnew
      cases new with
      | none =>
        cases ht : task.category with
        | none => exact absurd ⟨ht, rfl⟩ hne
        | some old =>
          have : other ≠ old := fun h => hold (by rw [ht, h])
          simp only [incrementTaskCount, decrementTaskCount]
          rw [find?_decremented old other, if_neg this]
      | some c =>
        have hc : other ≠ c := fun h => hnew (by rw [h])
        cases ht : task.category with
        | none =>
          simp only [incrementTaskCount, decrementTaskCount]
          rw [find?_incremented c other, if_neg hc]
        | some old =>
          have : other ≠ old := fun h => hold (by rw [ht, h])
          simp only [incrementTaskCount, decrementTaskCount]
          rw [find?_incremented c other, if_neg hc, find?_decremented old other, if_neg this]

/-- A worked instance of C21: a task is created in the category `Work` of the
sample database, whose count goes from 0 to 1, and is then moved out of it. -/
theorem updateTask_category_counts_witness :
    Category.findById
        (createTask sampleCategoryDb 7 { title := some "A", category := some 0 }).1 0 =
      some ⟨0, "Work", "#3B82F6", 7, 1⟩ ∧
    Category.findById
        (updateTask (createTask sampleCategoryDb 7 { title := some "A", category := some 0 }).1
          1 7 { category := .null } 2000).1 0 =
      some ⟨0, "Work", "#3B82F6", 7, 0⟩ :=
  ⟨by decide,
    (((updateTask_category_counts
      (createTask sampleCategoryDb 7 { title := some "A", category := some 0 }).1
      (updateTask (createTask sampleCategoryDb 7 { title := some "A", category := some 0 }).1
        1 7 { category := .null } 2000).1
      1 7 { category := .null } 2000
      ⟨1, "A", none, "todo", "medium", none, some 0, [], none, none, 7, []⟩
      ⟨1, "A", none, "todo", "medium", none, none, [], none, none, 7, []⟩
      (by decide) (by decide)).2.2 (by decide)).1 0 (by decide)).trans (by decide)⟩

/-! ## Deleting a category -/

/-- C24. For a category that the caller owns, whatever its count, `deleteCategory`
succeeds: no category of its id is left, every task that referred to it has no
category and is otherwise as it was, every other task is as it was, the
categories of other ids are kept in their order, and the other collections are
untouched. For an id under which the caller owns no category it throws the 404
`'Category not found'` and changes nothing. -/
theorem deleteCategory_detaches (db : Db) (categoryId userId : Id) :
    (∀ category, Category.findOwned db categoryId userId = some category →
      deleteCategory db categoryId userId =
        ({ db with
            tasks := db.tasks.map (fun t =>
              if t.category = some categoryId then { t with category := none } else t)
            categories := db.categories.filter (fun c => c._id != categoryId) },
          .ok true) ∧
      Category.findById (deleteCategory db categoryId userId).1 categoryId = none ∧
      (∀ t ∈ (deleteCategory db categoryId userId).1.tasks, t.category ≠ some categoryId) ∧
      (∀ t ∈ db.tasks, t.category = some categoryId →
        { t with category := none } ∈ (deleteCategory db categoryId userId).1.tasks) ∧
      (∀ t ∈ db.tasks, t.category ≠ some categoryId →
        t ∈ (deleteCategory db categoryId userId).1.tasks) ∧
      (∀ c, c._id ≠ categoryId →
        (c ∈ (deleteCategory db categoryId userId).1.categories ↔ c ∈ db.categories))) ∧
    (Category.findOwned db categoryId userId = none →
      deleteCategory db categoryId userId =
        (db, .threw (.api (ApiError.notFound "Category not found")))) := by
  refine ⟨?_, fun h => by simp [deleteCategory, h]⟩
  intro category hfind
  have hcat := List.find?_some hfind
  simp only [Bool.and_eq_true, beq_iff_eq] at hcat
  have hres : deleteCategory db categoryId userId =
      ({ db with
          tasks := db.tasks.map (fun t =>
            if t.category = some categoryId then { t with category := none } else t)
          categories := db.categories.filter (fun c => c._id != categoryId) },
        .ok true) := by
    simp only [deleteCategory, hfind, hcat.1]
  rw [hres]
  refine ⟨rfl, ?_, ?_, ?_, ?_, ?_⟩
  · unfold Category.findById
    rw [List.find?_eq_none]
    intro c hc
    have := (List.mem_filter.1 hc).2
    simpa using this
  · intro t ht
    obtain ⟨x, hx, rfl⟩ := List.mem_map.1 ht
    by_cases hxc : x.category = some categoryId
    · simp [hxc]
    · simp [hxc]
  · intro t ht htc
    exact List.mem_map.2 ⟨t, ht, by simp [htc]⟩
  · intro t ht htc
    exact List.mem_map.2 ⟨t, ht, by simp [htc]⟩
  · intro c hc
    simp [List.mem_filter, hc]

/-- A worked instance of C24: the category `Work` of the sample database is
deleted while a task refers to it. -/
theorem deleteCategory_detaches_witness :
    deleteCategory (createTask sampleCategoryDb 7 { title := some "A", category := some 0 }).1
        0 7 =
      ({ (createTask sampleCategoryDb 7 { title := some "A", category := some 0 }).1 with
          tasks := [⟨1, "A", none, "todo", "medium", none, none, [], none, none, 7, []⟩]
          categories := [] }, .ok true) :=
  (((deleteCategory_detaches
    (createTask sampleCategoryDb 7 { title := some "A", category := some 0 }).1 0 7).1
    ⟨0, "Work", "#3B82F6", 7, 1⟩ (by decide)).1).trans (by decide)

/-! ## Category references -/

/-- The `pre('save')` hook leaves the category alone. -/
theorem preSave_category (modified : Bool) (now : Instant) (t : Task) :
    (Task.preSave modified now t).category = t.category := by
  unfold Task.preSave
  split <;> [(split <;> [rfl; (split <;> rfl)]); rfl]

/-- The task that `Task.create` inserts carries the category it was given. -/
theorem Task_create_category (db db1 : Db) (taskData : TaskData) (userId : Id) (task : Task)
    (h : Task.create db taskData userId = (db1, .ok task)) :
    task.category = taskData.category := by
  unfold Task.create at h
  simp only at h
  split at h
  · simp at h
  · simp only [Prod.mk.injEq, Outcome.ok.injEq] at h
    rw [← h.2]

/-- C23, as the code has it not: an `updateTask` whose category resolves to no
category of the caller does not always throw the 400 `'Invalid category'`. On
the archived task of the sample database the request for `todo` is refused
first, with `INVALID_STATUS_TRANSITION`; and for a task the caller does not own
the 404 `'Task not found'` comes first. -/
theorem unresolved_category_other_failures :
    Category.findOwned (updateTaskStatus sampleTaskDb 0 7 "archived" 1000).1 3 7 = none ∧
    updateTask (updateTaskStatus sampleTaskDb 0 7 "archived" 1000).1 0 7
        { status := some "todo", category := .value 3 } 2000 =
      ((updateTaskStatus sampleTaskDb 0 7 "archived" 1000).1,
        .threw (.api (ApiError.invalidStatusTransition "Cannot transition from archived to todo"))) ∧
    Category.findOwned sampleTaskDb 3 8 = none ∧
    updateTask sampleTaskDb 0 8 { category := .value 3 } 2000 =
      (sampleTaskDb, .threw (.api (ApiError.notFound "Task not found"))) := by
  decide

/-- C23, amended. A category reference that resolves to no category of the
caller makes `createTask` throw the 400 `'Invalid category'`; it makes
`updateTask` throw it when the task is found for the caller, the requested
status (if any) is empty, the current one or an allowed transition, and the
reference differs from the category the task has. In both cases the database is
as before. Hence a category that a successful `createTask` stores, and a
category other than the task's own that a successful `updateTask` stores, is
the id of a category whose `user` is the caller. -/
theorem category_reference_checked (db : Db) (userId : Id) :
    (∀ taskData c, taskData.category = some c → Category.findOwned db c userId = none →
      createTask db userId taskData =
        (db, .threw (.api (ApiError.badRequest "Invalid category")))) ∧
    (∀ taskId updateData now task c,
      Task.findOwned db taskId userId = some task →
      (∀ s, updateData.status = some s →
        s = "" ∨ s = task.status ∨ task.canTransitionTo s = true) →
      updateData.category = .value c → task.category ≠ some c →
      Category.findOwned db c userId = none →
      updateTask db taskId userId updateData now =
        (db, .threw (.api (ApiError.badRequest "Invalid category")))) ∧
    (∀ taskData db1 task c, createTask db userId taskData = (db1, .ok task) →
      task.category = some c →
      ∃ k, Category.findOwned db c userId = some k ∧ k._id = c ∧ k.user = userId) ∧
    (∀ taskId updateData now task db1 saved c,
      Task.findOwned db taskId userId = some task →
      updateTask db taskId userId updateData now = (db1, .ok saved) →
      saved.category = some c → task.category ≠ some c →
      ∃ k, Category.findOwned db c userId = some k ∧ k._id = c ∧ k.user = userId) := by
  have hown : ∀ c k, Category.findOwned db c userId = some k → k._id = c ∧ k.user = userId := by
    intro c k hk
    have := List.find?_some hk
    simpa using this
  refine ⟨?_, ?_, ?_, ?_⟩
  · intro taskData c hc hnone
    simp [createTask, hc, hnone]
  · intro taskId updateData now task c hfind hstatus hc hdiff hnone
    have hrej : (match updateData.status with
        | some newStatus =>
          if newStatus ≠ "" ∧ newStatus ≠ task.status ∧ !task.canTransitionTo newStatus
          then some newStatus else none
        | none => none) = none := by
      cases hs : updateData.status with
      | none => rfl
      | some s =>
        rcases hstatus s hs with h | h | h
        · simp [h]
        · simp [h]
        · simp [h]
    simp only [updateTask, hfind, hrej, hc, hdiff, hnone, if_false, Option.isNone_none, if_true]
  · intro taskData db1 task c hok hcat
    unfold createTask at hok
    simp only at hok
    split at hok
    · simp at hok
    · next hmiss =>
      cases hcreate : Task.create db taskData userId with
      | mk dbT out =>
        rw [hcreate] at hok
        cases out with
        | threw e => simp at hok
        | ok t =>
          simp only [Prod.mk.injEq, Outcome.ok.injEq] at hok
          have htc := Task_create_category db dbT taskData userId t hcreate
          rw [hok.2, hcat] at htc
          rw [← htc] at hmiss
          simp only at hmiss
          cases hk : Category.findOwned db c userId with
          | none => simp [hk] at hmiss
          | some k => exact ⟨k, rfl, hown c k hk⟩
  · intro taskId updateData now task db1 saved c hfind hok hcat hdiff
    have hok' := hok
    simp only [updateTask, hfind] at hok
    split at hok
    · simp at hok
    · split at hok
      · simp at hok
      · next counted hcounted =>
        obtain ⟨-, hsaved, -⟩ := save_ok counted db1 task _ saved now hok
        have hsc : saved.category = Field.assign task.category updateData.category := by
          rw [hsaved, preSave_category]
          rfl
        rw [hcat] at hsc
        cases hu : updateData.category with
        | absent =>
          rw [hu] at hsc
          exact absurd hsc.symm hdiff
        | null =>
          rw [hu] at hsc
          simp [Field.assign] at hsc
        | value c' =>
          rw [hu] at hsc
          simp only [Field.assign, Option.some.injEq] at hsc
          subst hsc
          simp only [hu, hdiff, if_false] at hcounted
          cases hk : Category.findOwned db c userId with
          | none => simp [hk] at hcounted
          | some k => exact ⟨k, rfl, hown c k hk⟩

/-- A worked instance of C23: in the sample database, where user 7 owns the
category of id 0 and nothing has the id 3, a task cannot be created in
category 3, and the task created in category 0 cannot be moved to it. -/
theorem category_reference_checked_witness :
    createTask sampleCategoryDb 7 { title := some "A", category := some 3 } =
      (sampleCategoryDb, .threw (.api (ApiError.badRequest "Invalid category"))) ∧
    updateTask (createTask sampleCategoryDb 7 { title := some "A", category := some 0 }).1
        1 7 { status := some "completed", category := .value 3 } 2000 =
      ((createTask sampleCategoryDb 7 { title := some "A", category := some 0 }).1,
        .threw (.api (ApiError.badRequest "Invalid category"))) :=
  ⟨(category_reference_checked sampleCategoryDb 7).1
      { title := some "A", category := some 3 } 3 rfl (by decide),
    (category_reference_checked
      (createTask sampleCategoryDb 7 { title := some "A", category := some 0 }).1 7).2.1
      1 { status := some "completed", category := .value 3 } 2000
      ⟨1, "A", none, "todo", "medium", none, some 0, [], none, none, 7, []⟩ 3
      (by decide) (fun s hs => Or.inr (Or.inr (by cases hs; decide))) rfl (by decide)
      (by decide)⟩

/-! ## The count invariant -/

/-- C22, as the code has it not. The invariant holds in the empty store and
after `createCategory`; then (1) `updateCategory` with a `taskCount` in its
`updateData` stores that count, 5 for a category no task refers to; (2) an
`updateTask` that takes a task out of its category and fails the validation of
`save` has already lowered the count, so the category counts 0 tasks while the
task still refers to it, and the `deleteTask` that follows leaves the count
at -1. -/
theorem taskCount_not_invariant :
    CountsMatch Db.empty ∧ CountsMatch sampleCategoryDb ∧
    updateCategory sampleCategoryDb 0 7 { name := some "Work", taskCount := some 5 } =
      ({ sampleCategoryDb with categories := [⟨0, "Work", "#3B82F6", 7, 5⟩] },
        .ok ⟨0, "Work", "#3B82F6", 7, 5⟩) ∧
    ¬ CountsMatch
      (updateCategory sampleCategoryDb 0 7 { name := some "Work", taskCount := some 5 }).1 ∧
    CountsMatch (createTask sampleCategoryDb 7 { title := some "A", category := some 0 }).1 ∧
    updateTask (createTask sampleCategoryDb 7 { title := some "A", category := some 0 }).1
        1 7 { category := .null, priority := some "urgent" } 2000 =
      ({ sampleCategoryDb with
          tasks := [⟨1, "A", none, "todo", "medium", none, some 0, [], none, none, 7, []⟩]
          nextId := 2 },
        .threw (.validation ["priority"])) ∧
    ¬ CountsMatch
      (updateTask (createTask sampleCategoryDb 7 { title := some "A", category := some 0 }).1
        1 7 { category := .null, priority := some "urgent" } 2000).1 ∧
    (deleteTask
      (updateTask (createTask sampleCategoryDb 7 { title := some "A", category := some 0 }).1
        1 7 { category := .null, priority := some "urgent" } 2000).1 1 7).1.categories =
      [⟨0, "Work", "#3B82F6", 7, -1⟩] := by
  decide

/-! ## The `authenticate` middleware -/

/-- A token verifies under the access secret exactly when it is a JSON Web Token
signed with that secret whose `exp` is still ahead of the clock. -/
theorem verifyAccessToken_iff (env : Env) (token : Token) (now : Instant) (decoded : Payload) :
    verifyAccessToken env token now = some decoded ↔
      token = .jwt env.JWT_ACCESS_SECRET decoded ∧ now / 1000 < decoded.exp := by
  unfold verifyAccessToken jwtVerify
  cases token with
  | text raw => simp
  | jwt secret payload =>
    simp only
    constructor
    · intro h
      split at h
      · next hc =>
        simp only [Option.some.injEq] at h
        subst h
        exact ⟨by rw [hc.1], hc.2⟩
      · simp at h
    · rintro ⟨h1, h2⟩
      simp only [Token.jwt.injEq] at h1
      obtain ⟨rfl, rfl⟩ := h1
      simp [h2]

/-- The user that `User.findById` finds has the id asked for. -/
theorem User_findById_id (db : Db) (id : Id) (user : User)
    (h : User.findById db id = some user) : user._id = id := by
  have := List.find?_some h
  simpa using this

/-- C25. `authenticate` lets a request through, with `req.user` the user found
and `req.userId` the `userId` of the token, if and only if the `Authorization`
header is present, is `Bearer` followed by a space and a token, the token is a
JSON Web Token signed with the access secret and not expired, and a user of its
`userId` exists. In every other case it hands on `ApiError.unauthorized`
(401, `UNAUTHORIZED`), with one of three messages, and attaches nothing. -/
theorem authenticate_iff (env : Env) (db : Db) (authorization : Option (List Token))
    (now : Instant) :
    (∀ request, authenticate env db authorization now = .ok request ↔
      ∃ token rest decoded, authorization = some (.text "Bearer" :: token :: rest) ∧
        token = .jwt env.JWT_ACCESS_SECRET decoded ∧ now / 1000 < decoded.exp ∧
        User.findById db decoded.userId = some request.user ∧
        request.userId = decoded.userId) ∧
    ((¬ ∃ token rest decoded user,
        authorization = some (.text "Bearer" :: token :: rest) ∧
        verifyAccessToken env token now = some decoded ∧
        User.findById db decoded.userId = some user) →
      ∃ message, message ∈ ["Access token is required", "Invalid or expired access token",
          "User not found"] ∧
        authenticate env db authorization now =
          .threw (.api ⟨401, message, "UNAUTHORIZED", []⟩)) := by
  constructor
  · intro request
    constructor
    · intro h
      unfold authenticate at h
      split at h
      · next scheme token rest =>
        split at h
        · next hs =>
          subst hs
          cases hv : verifyAccessToken env token now with
          | none => simp [hv] at h
          | some decoded =>
            cases hu : User.findById db decoded.userId with
            | none => simp [hv, hu] at h
            | some user =>
              simp only [hv, hu, Outcome.ok.injEq] at h
              obtain ⟨htok, hexp⟩ := (verifyAccessToken_iff env token now decoded).1 hv
              refine ⟨token, rest, decoded, rfl, htok, hexp, ?_, ?_⟩
              · rw [← h]
                exact hu
              · rw [← h]
                exact User_findById_id db decoded.userId user hu
        · simp at h
      · simp at h
    · rintro ⟨token, rest, decoded, hauth, htok, hexp, hu, hid⟩
      have hv := (verifyAccessToken_iff env token now decoded).2 ⟨htok, hexp⟩
      have huid := User_findById_id db decoded.userId request.user hu
      subst hauth
      simp only [authenticate, if_true, hv, hu]
      cases request with
      | mk user userId =>
        simp only at hid huid
        rw [hid, huid]
  · intro hno
    unfold authenticate
    split
    · next scheme token rest =>
      split
      · next hs =>
        subst hs
        cases hv : verifyAccessToken env token now with
        | none => exact ⟨_, by simp, rfl⟩
        | some decoded =>
          cases hu : User.findById db decoded.userId with
          | none =>
            refine ⟨"User not found", by simp, ?_⟩
            simp only [hu]
            rfl
          | some user => exact absurd ⟨token, rest, decoded, user, rfl, hv, hu⟩ hno
      · exact ⟨_, by simp, rfl⟩
    · exact ⟨_, by simp, rfl⟩

/-- A worked instance of C25: the access token signed for the user of the sample
database at instant 0 is presented one second later. -/
theorem authenticate_iff_witness :
    authenticate sampleEnv sampleDb
        (some [.text "Bearer", generateAccessToken sampleEnv 0 0]) 1000 =
      .ok ⟨⟨0, "ann", "ann@example.com", "hashed:Password123", "user"⟩, 0⟩ ∧
    authenticate sampleEnv sampleDb (some [.text "Basic", .text "YW5uOnB3"]) 1000 =
      .threw (.api ⟨401, "Access token is required", "UNAUTHORIZED", []⟩) :=
  ⟨((authenticate_iff sampleEnv sampleDb
      (some [.text "Bearer", generateAccessToken sampleEnv 0 0]) 1000).1
      ⟨⟨0, "ann", "ann@example.com", "hashed:Password123", "user"⟩, 0⟩).2
      ⟨generateAccessToken sampleEnv 0 0, [], ⟨0, 0, 3600⟩, rfl, rfl, by decide, by decide, rfl⟩,
    by decide⟩

/-! ## What the error handler sends -/

theorem typed_of_threw {α : Type} {db db' : Db} {x e : ApiError}
    (h : ((db, Outcome.threw (Thrown.api x)) : Db × Outcome α) = (db', .threw (.api e)))
    (hx : Typed x) : Typed e := by
  simp only [Prod.mk.injEq, Outcome.threw.injEq, Thrown.api.injEq] at h
  exact h.2 ▸ hx

theorem transitionMessage_ne_empty (a b : String) : transitionMessage a b ≠ "" := by
  intro h
  have := congrArg String.length h
  simp only [transitionMessage, String.length_append] at this
  have hlen : "Cannot transition from ".length = 23 := by decide
  have hzero : "".length = 0 := by decide
  omega

theorem typed_transition (a b : String) :
    Typed (ApiError.invalidStatusTransition (transitionMessage a b)) :=
  ⟨by simp [ApiError.invalidStatusTransition, typedKinds], transitionMessage_ne_empty a b⟩

theorem saveRefreshToken_not_api (env : Env) (db : Db) (userId : Id) (token : Token)
    (now : Instant) (e : ApiError) :
    (saveRefreshToken env db userId token now).2 ≠ .threw (.api e) := by
  by_cases hs : ∃ r ∈ db.refreshTokens, r.token = RefreshToken.hashToken env token
  · rw [saveRefreshToken_stored env db userId token now hs]
    simp
  · have hf : ∀ r ∈ db.refreshTokens, r.token ≠ RefreshToken.hashToken env token :=
      fun r hr hk => hs ⟨r, hr, hk⟩
    rw [saveRefreshToken_fresh env db userId token now hf]
    simp

theorem Task_create_not_api (db : Db) (taskData : TaskData) (userId : Id) (e : ApiError) :
    (Task.create db taskData userId).2 ≠ .threw (.api e) := by
  unfold Task.create
  simp only
  split <;> simp

theorem Category_create_not_api (db : Db) (data : CategoryData) (userId : Id) (e : ApiError) :
    (Category.create db data userId).2 ≠ .threw (.api e) := by
  unfold Category.create
  simp only
  split <;> [simp; (split <;> simp)]

theorem Category_save_not_api (db : Db) (original doc : Category) (e : ApiError) :
    (Category.save db original doc).2 ≠ .threw (.api e) := by
  unfold Category.save
  simp only
  split <;> [simp; (split <;> simp)]

theorem register_typed (env : Env) (db db' : Db) (username email password : String)
    (now : Instant) (e : ApiError)
    (h : register env db username email password now = (db', .threw (.api e))) : Typed e := by
  unfold register at h
  split at h
  · split at h
    · exact typed_of_threw h (by decide)
    · exact typed_of_threw h (by decide)
  · simp only at h
    split at h
    · next db2 e2 hs =>
      simp only [Prod.mk.injEq, Outcome.threw.injEq] at h
      rw [h.2] at hs
      exact absurd (congrArg Prod.snd hs) (saveRefreshToken_not_api _ _ _ _ _ _)
    · simp at h

theorem login_typed (env : Env) (db db' : Db) (email password : String) (now : Instant)
    (e : ApiError) (h : login env db email password now = (db', .threw (.api e))) :
    Typed e := by
  unfold login at h
  split at h
  · exact typed_of_threw h (by decide)
  · split at h
    · simp only at h
      split at h
      · next db2 e2 hs =>
        simp only [Prod.mk.injEq, Outcome.threw.injEq] at h
        rw [h.2] at hs
        exact absurd (congrArg Prod.snd hs) (saveRefreshToken_not_api _ _ _ _ _ _)
      · simp at h
    · exact typed_of_threw h (by decide)

theorem refreshAccessToken_typed (env : Env) (db db' : Db) (refreshToken : Token)
    (now : Instant) (e : ApiError)
    (h : refreshAccessToken env db refreshToken now = (db', .threw (.api e))) : Typed e := by
  unfold refreshAccessToken at h
  split at h
  · exact typed_of_threw h (by decide)
  · split at h
    · exact typed_of_threw h (by decide)
    · split at h
      · exact typed_of_threw h (by decide)
      · simp only at h
        split at h
        · next db2 e2 hs =>
          simp only [Prod.mk.injEq, Outcome.threw.injEq] at h
          rw [h.2] at hs
          exact absurd (congrArg Prod.snd hs) (saveRefreshToken_not_api _ _ _ _ _ _)
        · simp at h

theorem authenticate_typed (env : Env) (db : Db) (authorization : Option (List Token))
    (now : Instant) (e : ApiError)
    (h : authenticate env db authorization now = .threw (.api e)) : Typed e := by
  have key : ∀ x : ApiError, Typed x →
      (Outcome.threw (.api x) : Outcome Authenticated) = .threw (.api e) → Typed e := by
    intro x hx hxe
    simp only [Outcome.threw.injEq, Thrown.api.injEq] at hxe
    exact hxe ▸ hx
  unfold authenticate at h
  split at h
  · split at h
    · split at h
      · exact key _ (by decide) h
      · split at h
        · exact key _ (by decide) h
        · simp at h
    · exact key _ (by decide) h
  · exact key _ (by decide) h

theorem createCategory_typed (db db' : Db) (userId : Id) (categoryData : CategoryData)
    (e : ApiError) (h : createCategory db userId categoryData = (db', .threw (.api e))) :
    Typed e := by
  unfold createCategory at h
  simp only at h
  split at h
  · exact typed_of_threw h (by decide)
  · exact absurd (congrArg Prod.snd h) (Category_create_not_api _ _ _ _)

theorem updateCategory_typed (db db' : Db) (categoryId userId : Id)
    (updateData : CategoryUpdate) (e : ApiError)
    (h : updateCategory db categoryId userId updateData = (db', .threw (.api e))) :
    Typed e := by
  unfold updateCategory at h
  split at h
  · exact typed_of_threw h (by decide)
  · simp only at h
    split at h
    · exact typed_of_threw h (by decide)
    · exact absurd (congrArg Prod.snd h) (Category_save_not_api _ _ _ _)

theorem deleteCategory_typed (db db' : Db) (categoryId userId : Id) (e : ApiError)
    (h : deleteCategory db categoryId userId = (db', .threw (.api e))) : Typed e := by
  unfold deleteCategory at h
  split at h
  · exact typed_of_threw h (by decide)
  · simp at h

theorem getTaskById_typed (db db' : Db) (taskId userId : Id) (e : ApiError)
    (h : getTaskById db taskId userId = (db', .threw (.api e))) : Typed e := by
  unfold getTaskById at h
  split at h
  · exact typed_of_threw h (by decide)
  · simp only at h
    split at h
    · exact typed_of_threw h (by decide)
    · simp at h

theorem createTask_typed (db db' : Db) (userId : Id) (taskData : TaskData) (e : ApiError)
    (h : createTask db userId taskData = (db', .threw (.api e))) : Typed e := by
  unfold createTask at h
  simp only at h
  split at h
  · exact typed_of_threw h (by decide)
  · split at h
    · next db1 e1 hs =>
      simp only [Prod.mk.injEq, Outcome.threw.injEq] at h
      rw [h.2] at hs
      exact absurd (congrArg Prod.snd hs) (Task_create_not_api _ _ _ _)
    · simp at h

theorem updateTask_typed (db db' : Db) (taskId userId : Id) (updateData : UpdateData)
    (now : Instant) (e : ApiError)
    (h : updateTask db taskId userId updateData now = (db', .threw (.api e))) : Typed e := by
  unfold updateTask at h
  split at h
  · exact typed_of_threw h (by decide)
  · simp only at h
    split at h
    · exact typed_of_threw h (typed_transition _ _)
    · split at h
      · exact typed_of_threw h (by decide)
      · exact absurd (congrArg Prod.snd h) (save_not_api _ _ _ _ _)

theorem deleteTask_typed (db db' : Db) (taskId userId : Id) (e : ApiError)
    (h : deleteTask db taskId userId = (db', .threw (.api e))) : Typed e := by
  unfold deleteTask at h
  split at h
  · exact typed_of_threw h (by decide)
  · simp at h

theorem updateTaskStatus_typed (db db' : Db) (taskId userId : Id) (newStatus : String)
    (now : Instant) (e : ApiError)
    (h : updateTaskStatus db taskId userId newStatus now = (db', .threw (.api e))) :
    Typed e := by
  unfold updateTaskStatus at h
  split at h
  · exact typed_of_threw h (by decide)
  · split at h
    · exact absurd (congrArg Prod.snd h) (save_not_api _ _ _ _ _)
    · exact typed_of_threw h (typed_transition _ _)

theorem updateTaskPriority_typed (db db' : Db) (taskId userId : Id) (newPriority : String)
    (now : Instant) (e : ApiError)
    (h : updateTaskPriority db taskId userId newPriority now = (db', .threw (.api e))) :
    Typed e := by
  unfold updateTaskPriority at h
  split at h
  · exact typed_of_threw h (by decide)
  · exact absurd (congrArg Prod.snd h) (save_not_api _ _ _ _ _)

theorem shareTask_typed (db db' : Db) (taskId ownerId targetUserId : Id) (now : Instant)
    (e : ApiError)
    (h : shareTask db taskId ownerId targetUserId now = (db', .threw (.api e))) :
    Typed e := by
  unfold shareTask at h
  split at h
  · exact typed_of_threw h (by decide)
  · split at h
    · exact typed_of_threw h (by decide)
    · split at h
      · exact typed_of_threw h (by decide)
      · split at h
        · exact typed_of_threw h (by decide)
        · exact absurd (congrArg Prod.snd h) (save_not_api _ _ _ _ _)

theorem unshareTask_typed (db db' : Db) (taskId ownerId targetUserId : Id) (now : Instant)
    (e : ApiError)
    (h : unshareTask db taskId ownerId targetUserId now = (db', .threw (.api e))) :
    Typed e := by
  unfold unshareTask at h
  split at h
  · exact typed_of_threw h (by decide)
  · exact absurd (congrArg Prod.snd h) (save_not_api _ _ _ _ _)

/-- Every `ApiError` that an operation raises is of one of the eight kinds and
has a message. -/
theorem raised_typed (e : ApiError) (h : Raised e) : Typed e := by
  cases h with
  | byRegister env db db' username email password now _ h =>
    exact register_typed env db db' username email password now e h
  | byLogin env db db' email password now _ h => exact login_typed env db db' email password now e h
  | byRefresh env db db' t now _ h => exact refreshAccessToken_typed env db db' t now e h
  | byLogout env db db' t _ h =>
    unfold logout at h
    split at h
    · simp at h
    · split at h <;> simp at h
  | byLogoutAll db db' userId _ h => simp [logoutAll] at h
  | byGetCurrentUser db db' userId _ h =>
    unfold getCurrentUser at h
    split at h
    · exact typed_of_threw h (by decide)
    · simp at h
  | byGetCategoryById db db' c userId _ h =>
    unfold getCategoryById at h
    split at h
    · exact typed_of_threw h (by decide)
    · simp at h
  | byAuthenticate env db a now _ h => exact authenticate_typed env db a now e h
  | byCreateCategory db db' userId d _ h => exact createCategory_typed db db' userId d e h
  | byUpdateCategory db db' c userId d _ h => exact updateCategory_typed db db' c userId d e h
  | byDeleteCategory db db' c userId _ h => exact deleteCategory_typed db db' c userId e h
  | byGetTaskById db db' t userId _ h => exact getTaskById_typed db db' t userId e h
  | byCreateTask db db' userId d _ h => exact createTask_typed db db' userId d e h
  | byUpdateTask db db' t userId d now _ h => exact updateTask_typed db db' t userId d now e h
  | byDeleteTask db db' t userId _ h => exact deleteTask_typed db db' t userId e h
  | byUpdateTaskStatus db db' t userId s now _ h =>
    exact updateTaskStatus_typed db db' t userId s now e h
  | byUpdateTaskPriority db db' t userId p now _ h =>
    exact updateTaskPriority_typed db db' t userId p now e h
  | byShareTask db db' t o u now _ h => exact shareTask_typed db db' t o u now e h
  | byUnshareTask db db' t o u now _ h => exact unshareTask_typed db db' t o u now e h

/-- C26. An `ApiError` of one of the eight kinds (400 `BAD_REQUEST`,
400 `VALIDATION_ERROR`, 400 `INVALID_STATUS_TRANSITION`, 401 `UNAUTHORIZED`,
401 `INVALID_CREDENTIALS`, 403 `FORBIDDEN`, 404 `NOT_FOUND`, 409 `CONFLICT`) with a
message is answered by `errorHandler` with its own status, code, message and
details and `success: false`; every `ApiError` that a service operation or
`authenticate` raises is such an error. An error that is not an `ApiError`, and
is none of the library errors the handler translates, is wrapped: its own
status, code and message when it has them, and 500, `INTERNAL_ERROR` and
`'Internal Server Error'` where it has none. -/
theorem errorHandler_keeps_kind :
    (∀ e, Typed e →
      errorHandler (.apiError e) = ⟨e.statusCode, false, e.code, e.message, e.details⟩) ∧
    (∀ e, Raised e →
      (e.statusCode, e.code) ∈ typedKinds ∧
      errorHandler (.apiError e) = ⟨e.statusCode, false, e.code, e.message, e.details⟩) ∧
    (∀ message details, message ≠ "" →
      errorHandler (.apiError (ApiError.badRequest message)) =
        ⟨400, false, "BAD_REQUEST", message, []⟩ ∧
      errorHandler (.apiError (ApiError.validationError message details)) =
        ⟨400, false, "VALIDATION_ERROR", message, details⟩ ∧
      errorHandler (.apiError (ApiError.invalidStatusTransition message)) =
        ⟨400, false, "INVALID_STATUS_TRANSITION", message, []⟩ ∧
      errorHandler (.apiError (ApiError.unauthorized message)) =
        ⟨401, false, "UNAUTHORIZED", message, []⟩ ∧
      errorHandler (.apiError (ApiError.invalidCredentials message)) =
        ⟨401, false, "INVALID_CREDENTIALS", message, []⟩ ∧
      errorHandler (.apiError (ApiError.forbidden message)) =
        ⟨403, false, "FORBIDDEN", message, []⟩ ∧
      errorHandler (.apiError (ApiError.notFound message)) =
        ⟨404, false, "NOT_FOUND", message, []⟩ ∧
      errorHandler (.apiError (ApiError.conflict message details)) =
        ⟨409, false, "CONFLICT", message, details⟩) ∧
    (∀ o : ErrorObject,
      o.name ∉ ["CastError", "ValidationError", "JsonWebTokenError", "TokenExpiredError"] →
      o.code ≠ .number 11000 →
      errorHandler (.other o) = ApiResponse.error (wrap o) ∧
      (errorHandler (.other o)).success = false ∧
      (errorHandler (.other o)).message =
        (if o.message = "" then "Internal Server Error" else o.message) ∧
      (o.statusCode = none → (errorHandler (.other o)).status = 500) ∧
      (o.code = .absent → (errorHandler (.other o)).code = "INTERNAL_ERROR") ∧
      (∀ n, o.statusCode = some n → n ≠ 0 → (errorHandler (.other o)).status = n) ∧
      (∀ c, o.code = .text c → c ≠ "" → (errorHandler (.other o)).code = c)) := by
  have hapi : ∀ e, Typed e →
      errorHandler (.apiError e) = ⟨e.statusCode, false, e.code, e.message, e.details⟩ := by
    intro e he
    obtain ⟨hkind, hmsg⟩ := he
    have hstatus : e.statusCode ≠ 0 ∧ e.code ≠ "" := by
      simp only [typedKinds, List.mem_cons, Prod.mk.injEq, List.mem_singleton,
        List.not_mem_nil, or_false] at hkind
      rcases hkind with h | h | h | h | h | h | h | h <;>
        exact ⟨by rw [h.1]; decide, by rw [h.2]; decide⟩
    have hname : ¬ ("Error" = "CastError") := by decide
    have hname2 : ¬ ("Error" = "ValidationError") := by decide
    have hname3 : ¬ ("Error" = "JsonWebTokenError") := by decide
    have hname4 : ¬ ("Error" = "TokenExpiredError") := by decide
    simp only [errorHandler, Failure.object, hname, hname2, hname3, hname4, if_false,
      ApiResponse.error, hstatus.1, hstatus.2, hmsg, reduceCtorEq]
  refine ⟨hapi, ?_, ?_, ?_⟩
  · intro e he
    have ht := raised_typed e he
    exact ⟨ht.1, hapi e ht⟩
  · intro message details hm
    exact ⟨hapi _ ⟨by simp [ApiError.badRequest, typedKinds], hm⟩,
      hapi _ ⟨by simp [ApiError.validationError, typedKinds], hm⟩,
      hapi _ ⟨by simp [ApiError.invalidStatusTransition, typedKinds], hm⟩,
      hapi _ ⟨by simp [ApiError.unauthorized, typedKinds], hm⟩,
      hapi _ ⟨by simp [ApiError.invalidCredentials, typedKinds], hm⟩,
      hapi _ ⟨by simp [ApiError.forbidden, typedKinds], hm⟩,
      hapi _ ⟨by simp [ApiError.notFound, typedKinds], hm⟩,
      hapi _ ⟨by simp [ApiError.conflict, typedKinds], hm⟩⟩
  · intro o hname hcode
    simp only [List.mem_cons, List.mem_singleton, List.not_mem_nil, or_false, not_or] at hname
    obtain ⟨h1, h2, h3, h4⟩ := hname
    have hres : errorHandler (.other o) = ApiResponse.error (wrap o) := by
      simp only [errorHandler, Failure.object, h1, h2, h3, h4, hcode, if_false]
    rw [hres]
    refine ⟨rfl, rfl, ?_, ?_, ?_, ?_, ?_⟩
    · by_cases hm : o.message = ""
      · simp [ApiResponse.error, wrap, hm]
      · simp [ApiResponse.error, wrap, hm]
    · intro hs
      simp [ApiResponse.error, wrap, hs]
    · intro hc
      simp [ApiResponse.error, wrap, hc]
    · intro n hs hn
      simp [ApiResponse.error, wrap, hs, hn]
    · intro c hc hne
      simp [ApiResponse.error, wrap, hc, hne]

/-- A worked instance of C26: the 404 that `getTaskById` raises for an unknown
id, and a plain `Error` with a message and nothing else. -/
theorem errorHandler_keeps_kind_witness :
    errorHandler (.apiError (ApiError.notFound "Task not found")) =
      ⟨404, false, "NOT_FOUND", "Task not found", []⟩ ∧
    (errorHandler (.other { message := "boom" })).status = 500 :=
  ⟨errorHandler_keeps_kind.1 (ApiError.notFound "Task not found") (by decide),
    (errorHandler_keeps_kind.2.2.2 { message := "boom" } (by decide) (by decide)).2.2.2.1 rfl⟩

/-! ## The advertised lifetime -/

/-- `parseDigits` reads a string of digits as the decimal number it writes. -/
theorem parseDigits_eq_ofDigits (digits : List Char) :
    parseDigits digits = Nat.ofDigits 10 (digits.reverse.map (fun c => c.toNat - 48)) := by
  unfold parseDigits
  induction digits using List.reverseRecOn with
  | nil => simp
  | append_singleton l c ih =>
    rw [List.foldl_append, List.foldl_cons, List.foldl_nil, ih, List.reverse_append,
      List.reverse_singleton, List.singleton_append, List.map_cons, Nat.ofDigits_cons]
    have : '0'.toNat = 48 := by decide
    rw [this]
    omega

/-- Below `2 ^ 53` a natural number is its own Number value. -/
theorem toNumber_of_lt (n : Nat) (h : n < 2 ^ 53) : toNumber n = .finite n := by
  unfold toNumber
  rw [if_pos h]

/-- With the setting unset or empty the advertised lifetime is one hour. -/
theorem getAccessTokenExpiresIn_default (env : Env)
    (h : env.JWT_ACCESS_EXPIRES_IN = none ∨ env.JWT_ACCESS_EXPIRES_IN = some "") :
    getAccessTokenExpiresIn env = .finite 3600 := by
  rcases h with h | h <;>
  · unfold getAccessTokenExpiresIn
    rw [h]
    decide

/-- What `getAccessTokenExpiresIn` computes for a setting that its pattern
matches. -/
theorem getAccessTokenExpiresIn_matched (env : Env) (digits : List Char) (unit : Char)
    (hne : digits ≠ []) (hall : ∀ c ∈ digits, c.isDigit = true)
    (hset : env.JWT_ACCESS_EXPIRES_IN = some (String.mk (digits ++ [unit]))) :
    getAccessTokenExpiresIn env =
      if unit = 's' then parseInt digits
      else if unit = 'm' then (parseInt digits).mul 60
      else if unit = 'h' then (parseInt digits).mul 3600
      else if unit = 'd' then (parseInt digits).mul 86400
      else .finite 3600 := by
  have hnonempty : ¬ (String.mk (digits ++ [unit]) = "") := by
    intro h
    have := congrArg String.data h
    simp at this
  have hcond : digits ≠ [] ∧ digits.all Char.isDigit = true :=
    ⟨hne, List.all_eq_true.2 hall⟩
  unfold getAccessTokenExpiresIn
  simp only [hset, hnonempty, if_false, List.reverse_append, List.reverse_singleton,
    List.singleton_append, List.reverse_reverse]
  rw [if_pos hcond]
  rfl

/-- C29, as the code has it not. The setting `'9007199254740993s'` is sixteen
digits and `s`, and the digits write 9007199254740993; `parseInt` gives the
nearest double, 9007199254740992. For four hundred digits `9` and `s` the value
is `Infinity`, which is no integer. -/
theorem getAccessTokenExpiresIn_rounds :
    Nat.ofDigits 10 ("9007199254740993".data.reverse.map (fun c => c.toNat - 48)) =
      9007199254740993 ∧
    getAccessTokenExpiresIn { sampleEnv with JWT_ACCESS_EXPIRES_IN := some "9007199254740993s" } =
      .finite 9007199254740992 ∧
    getAccessTokenExpiresIn
        { sampleEnv with
          JWT_ACCESS_EXPIRES_IN := some (String.mk (List.replicate 400 '9' ++ ['s'])) } =
      .infinity := by
  decide!

/-- C29, amended. `getAccessTokenExpiresIn` is a total function. For a setting
that is one or more decimal digits, writing the number `n`, followed by `s`,
`m`, `h` or `d`, it is `n`, `60 n`, `3600 n` or `86400 n` whenever that product
is below `2 ^ 53`; in general it is the Number value of `n`, multiplied as a
Number by 60, 3600 or 86400. For every other setting, the empty string
included, it is 3600; and when the setting is unset it is 3600. -/
theorem getAccessTokenExpiresIn_table (env : Env) :
    (∀ (digits : List Char) (unit : Char), digits ≠ [] → (∀ c ∈ digits, c.isDigit = true) →
      env.JWT_ACCESS_EXPIRES_IN = some (String.mk (digits ++ [unit])) →
      (unit = 's' →
        Nat.ofDigits 10 (digits.reverse.map (fun c => c.toNat - 48)) < 2 ^ 53 →
        getAccessTokenExpiresIn env =
          .finite (Nat.ofDigits 10 (digits.reverse.map (fun c => c.toNat - 48)))) ∧
      (unit = 'm' →
        60 * Nat.ofDigits 10 (digits.reverse.map (fun c => c.toNat - 48)) < 2 ^ 53 →
        getAccessTokenExpiresIn env =
          .finite (60 * Nat.ofDigits 10 (digits.reverse.map (fun c => c.toNat - 48)))) ∧
      (unit = 'h' →
        3600 * Nat.ofDigits 10 (digits.reverse.map (fun c => c.toNat - 48)) < 2 ^ 53 →
        getAccessTokenExpiresIn env =
          .finite (3600 * Nat.ofDigits 10 (digits.reverse.map (fun c => c.toNat - 48)))) ∧
      (unit = 'd' →
        86400 * Nat.ofDigits 10 (digits.reverse.map (fun c => c.toNat - 48)) < 2 ^ 53 →
        getAccessTokenExpiresIn env =
          .finite (86400 * Nat.ofDigits 10 (digits.reverse.map (fun c => c.toNat - 48)))) ∧
      (unit = 's' → getAccessTokenExpiresIn env =
        toNumber (Nat.ofDigits 10 (digits.reverse.map (fun c => c.toNat - 48)))) ∧
      (unit = 'm' → getAccessTokenExpiresIn env =
        (toNumber (Nat.ofDigits 10 (digits.reverse.map (fun c => c.toNat - 48)))).mul 60) ∧
      (unit = 'h' → getAccessTokenExpiresIn env =
        (toNumber (Nat.ofDigits 10 (digits.reverse.map (fun c => c.toNat - 48)))).mul 3600) ∧
      (unit = 'd' → getAccessTokenExpiresIn env =
        (toNumber (Nat.ofDigits 10 (digits.reverse.map (fun c => c.toNat - 48)))).mul
          86400)) ∧
    (∀ s, env.JWT_ACCESS_EXPIRES_IN = some s →
      (¬ ∃ (digits : List Char) (unit : Char), s = String.mk (digits ++ [unit]) ∧ digits ≠ [] ∧
        (∀ c ∈ digits, c.isDigit = true) ∧ unit ∈ ['s', 'm', 'h', 'd']) →
      getAccessTokenExpiresIn env = .finite 3600) ∧
    (env.JWT_ACCESS_EXPIRES_IN = none → getAccessTokenExpiresIn env = .finite 3600) := by
  refine ⟨?_, ?_, fun h => getAccessTokenExpiresIn_default env (Or.inl h)⟩
  · intro digits unit hne hall hset
    have hval := getAccessTokenExpiresIn_matched env digits unit hne hall hset
    rw [hval]
    unfold parseInt
    rw [parseDigits_eq_ofDigits]
    generalize Nat.ofDigits 10 (digits.reverse.map (fun c => c.toNat - 48)) = n
    have hmul : ∀ k : Nat, 0 < k → k * n < 2 ^ 53 → (toNumber n).mul k = .finite (k * n) := by
      intro k hk hlt
      have hn : n < 2 ^ 53 := lt_of_le_of_lt (Nat.le_mul_of_pos_left n hk) hlt
      rw [toNumber_of_lt n hn]
      show toNumber (n * k) = .finite (k * n)
      rw [Nat.mul_comm n k]
      exact toNumber_of_lt _ hlt
    refine ⟨?_, ?_, ?_, ?_, ?_, ?_, ?_, ?_⟩
    · intro hu hlt
      subst hu
      simp only [if_true]
      exact toNumber_of_lt n hlt
    · intro hu hlt
      subst hu
      simp only [show ¬ ('m' = 's') by decide, if_false, if_true]
      exact hmul 60 (by decide) hlt
    · intro hu hlt
      subst hu
      simp only [show ¬ ('h' = 's') by decide, show ¬ ('h' = 'm') by decide, if_false,
        if_true]
      exact hmul 3600 (by decide) hlt
    · intro hu hlt
      subst hu
      simp only [show ¬ ('d' = 's') by decide, show ¬ ('d' = 'm') by decide,
        show ¬ ('d' = 'h') by decide, if_false, if_true]
      exact hmul 86400 (by decide) hlt
    · intro hu
      subst hu
      simp only [if_true]
    · intro hu
      subst hu
      simp only [show ¬ ('m' = 's') by decide, if_false, if_true]
    · intro hu
      subst hu
      simp only [show ¬ ('h' = 's') by decide, show ¬ ('h' = 'm') by decide, if_false,
        if_true]
    · intro hu
      subst hu
      simp only [show ¬ ('d' = 's') by decide, show ¬ ('d' = 'm') by decide,
        show ¬ ('d' = 'h') by decide, if_false, if_true]
  · intro s hset hform
    by_cases hs : s = ""
    · subst hs
      exact getAccessTokenExpiresIn_default env (Or.inr hset)
    · unfold getAccessTokenExpiresIn
      simp only [hset, hs, if_false]
      cases hrev : s.data.reverse with
      | nil => rfl
      | cons unit rest =>
        simp only
        have hdata : s.data = rest.reverse ++ [unit] := by
          have := congrArg List.reverse hrev
          simpa using this
        split
        · next hcond =>
          have hunit : unit ∉ ['s', 'm', 'h', 'd'] := by
            intro hu
            refine hform ⟨rest.reverse, unit, ?_, hcond.1, List.all_eq_true.1 hcond.2, hu⟩
            rw [← hdata]
          simp only [List.mem_cons, List.mem_singleton, List.not_mem_nil, or_false,
            not_or] at hunit
          simp only [hunit.1, hunit.2.1, hunit.2.2.1, hunit.2.2.2, if_false]
          rfl
        · rfl

/-- A worked instance of C29: the setting `'15m'`. -/
theorem getAccessTokenExpiresIn_table_witness :
    getAccessTokenExpiresIn { sampleEnv with JWT_ACCESS_EXPIRES_IN := some "15m" } =
      .finite 900 :=
  (((getAccessTokenExpiresIn_table { sampleEnv with JWT_ACCESS_EXPIRES_IN := some "15m" }).1
    ['1', '5'] 'm' (by decide) (by decide) rfl).2.1 rfl (by decide)).trans (by decide)

/-- C27, as the code has it not. With `JWT_ACCESS_EXPIRES_IN` set to `'2 days'`
the access token is signed for 172800 seconds, and `generateTokens` says
`expiresIn: 3600`: `getAccessTokenExpiresIn` reads the setting with its own
pattern, which `'2 days'` does not match, and falls back to one hour. With the
setting unset both are 3600. -/
theorem expiresIn_not_signed_lifetime :
    SignsAsConfigured
      { sampleEnv with JWT_ACCESS_EXPIRES_IN := some "2 days", accessLifetime := 172800 } ∧
    (generateTokens
      { sampleEnv with JWT_ACCESS_EXPIRES_IN := some "2 days", accessLifetime := 172800 }
      0 0).accessToken = .jwt "access-secret" ⟨0, 0, 172800⟩ ∧
    (generateTokens
      { sampleEnv with JWT_ACCESS_EXPIRES_IN := some "2 days", accessLifetime := 172800 }
      0 0).expiresIn = 3600 ∧
    SignsAsConfigured sampleEnv ∧
    (generateTokens sampleEnv 0 0).accessToken = .jwt "access-secret" ⟨0, 0, 3600⟩ ∧
    (generateTokens sampleEnv 0 0).expiresIn = 3600 := by
  decide

/-- Where the two readings of the setting agree: on the settings that the
pattern of `getAccessTokenExpiresIn` matches (at most 100 characters long, and
small enough for the milliseconds to be below `2 ^ 53`), the advertised
lifetime is the signed one. -/
theorem expiresIn_agrees_on_pattern (env : Env) (digits : List Char) (unit : Char)
    (hsigned : SignsAsConfigured env) (hne : digits ≠ [])
    (hall : ∀ c ∈ digits, c.isDigit = true) (hunit : unit ∈ ['s', 'm', 'h', 'd'])
    (hlen : digits.length < 100) (hbound : parseDigits digits * 86400000 < 2 ^ 53)
    (hset : env.JWT_ACCESS_EXPIRES_IN = some (String.mk (digits ++ [unit]))) :
    getAccessTokenExpiresIn env = .finite env.accessLifetime := by
  have hnonempty : ¬ (String.mk (digits ++ [unit]) = "") := by
    intro h
    have := congrArg String.data h
    simp at this
  have hval := getAccessTokenExpiresIn_matched env digits unit hne hall hset
  have hparse : parseInt digits = .finite (parseDigits digits) :=
    toNumber_of_lt _ (by omega)
  have hmul : ∀ k : Nat, k ≤ 86400 →
      (parseInt digits).mul k = .finite (parseDigits digits * k) := by
    intro k hk
    rw [hparse]
    have hle : parseDigits digits * k ≤ parseDigits digits * 86400 :=
      Nat.mul_le_mul_left _ hk
    exact toNumber_of_lt _ (by omega)
  have hnd : unit.isDigit = false := by
    simp only [List.mem_cons, List.mem_singleton, List.not_mem_nil, or_false] at hunit
    rcases hunit with h | h | h | h <;> subst h <;> decide
  have htake : (digits ++ [unit]).takeWhile Char.isDigit = digits := by
    rw [List.takeWhile_append_of_pos hall]
    simp [List.takeWhile, hnd]
  have hdrop : (digits ++ [unit]).dropWhile Char.isDigit = [unit] := by
    rw [List.dropWhile_append_of_pos hall]
    simp [List.dropWhile, hnd]
  have hlength : ¬ (100 < (String.mk (digits ++ [unit])).length) := by
    simp only [String.length, List.length_append, List.length_singleton]
    omega
  have hms : ms (String.mk (digits ++ [unit])) =
      (msUnit (String.mk (([unit].dropWhile (fun c => c == ' ')).map Char.toLower))).map
        (fun k => parseDigits digits * k) := by
    unfold ms
    simp only [htake, hdrop]
    rw [if_neg]
    rintro (h | h)
    · exact hne h
    · exact hlength h
  unfold SignsAsConfigured signedAccessLifetime at hsigned
  simp only [hset, hnonempty, if_false, hms] at hsigned
  rw [hval]
  simp only [List.mem_cons, List.mem_singleton, List.not_mem_nil, or_false] at hunit
  rcases hunit with h | h | h | h <;> subst h
  · have hu : msUnit (String.mk ((['s'].dropWhile (fun c => c == ' ')).map Char.toLower)) =
        some 1000 := by decide
    rw [hu] at hsigned
    simp only [Option.map_some', Option.some.injEq] at hsigned
    rw [← hsigned]
    simp only [if_true, hparse]
    congr 1
    omega
  · have hu : msUnit (String.mk ((['m'].dropWhile (fun c => c == ' ')).map Char.toLower)) =
        some 60000 := by decide
    rw [hu] at hsigned
    simp only [Option.map_some', Option.some.injEq] at hsigned
    rw [← hsigned]
    simp only [show ¬ ('m' = 's') by decide, if_false, if_true, hmul 60 (by decide)]
    congr 1
    omega
  · have hu : msUnit (String.mk ((['h'].dropWhile (fun c => c == ' ')).map Char.toLower)) =
        some 3600000 := by decide
    rw [hu] at hsigned
    simp only [Option.map_some', Option.some.injEq] at hsigned
    rw [← hsigned]
    simp only [show ¬ ('h' = 's') by decide, show ¬ ('h' = 'm') by decide, if_false, if_true,
      hmul 3600 (by decide)]
    congr 1
    omega
  · have hu : msUnit (String.mk ((['d'].dropWhile (fun c => c == ' ')).map Char.toLower)) =
        some 86400000 := by decide
    rw [hu] at hsigned
    simp only [Option.map_some', Option.some.injEq] at hsigned
    rw [← hsigned]
    simp only [show ¬ ('d' = 's') by decide, show ¬ ('d' = 'm') by decide,
      show ¬ ('d' = 'h') by decide, if_false, if_true, hmul 86400 (by decide)]
    congr 1
    omega

/-! ## Two refreshes in flight -/

/-- The steps of one call, taken one after the other at one instant, are
`refreshAccessToken`. -/
theorem refreshStep_four (env : Env) (db : Db) (refreshToken : Token) (now : Instant) :
    Race.run env refreshToken ⟨db, .started, .started⟩
        [(true, now), (true, now), (true, now), (true, now)] =
      ⟨(refreshAccessToken env db refreshToken now).1,
        .returned (refreshAccessToken env db refreshToken now).2, .started⟩ := by
  unfold refreshAccessToken
  cases hv : verifyRefreshToken env refreshToken now with
  | none => simp [Race.run, refreshStep, hv]
  | some decoded =>
    cases hf : RefreshToken.findValidToken env db refreshToken now with
    | none => simp [Race.run, refreshStep, hv, hf]
    | some storedToken =>
      cases hu : User.findById db decoded.userId with
      | none => simp [Race.run, refreshStep, hv, hf, hu]
      | some user =>
        simp only [Race.run, refreshStep, hv, hf, hu]
        cases hs : saveRefreshToken env (RefreshToken.revoke db storedToken) user._id
            (generateTokens env user._id now).refreshToken now with
        | mk db2 out =>
          cases out with
          | ok u => rfl
          | threw e => rfl

/-- C28, as the code has it not. Two calls present the refresh token of the
sample session. When the second call starts after the first has returned, the
first returns a new pair and the second throws `'Refresh token is invalid or
expired'`. When both have read the stored token before either revokes it, and
the second signs its tokens a second later than the first, both return a new
pair; when it signs them in the same second, it throws the duplicate-key error
of the unique index, which is not `InvalidToken` either. -/
theorem two_refreshes_both_succeed :
    Race.run sampleEnv (generateRefreshToken sampleEnv 0 0) ⟨sampleDb, .started, .started⟩
        [(true, 1000), (true, 1000), (true, 1000), (true, 1000),
         (false, 2000), (false, 2000), (false, 2000), (false, 2000)] =
      ⟨{ sampleDb with
          refreshTokens :=
            [⟨1, sampleDigest (generateRefreshToken sampleEnv 0 0), 0, sevenDays, true⟩,
             ⟨2, sampleDigest (generateRefreshToken sampleEnv 0 1000), 0, 1000 + sevenDays,
               false⟩]
          nextId := 3 },
        .returned (.ok (generateTokens sampleEnv 0 1000)),
        .returned (.threw (.api (ApiError.unauthorized "Refresh token is invalid or expired")))⟩ ∧
    Race.run sampleEnv (generateRefreshToken sampleEnv 0 0) ⟨sampleDb, .started, .started⟩
        [(true, 1000), (false, 1000), (true, 1000), (true, 1000), (true, 1000),
         (false, 2000), (false, 2000), (false, 2000)] =
      ⟨{ sampleDb with
          refreshTokens :=
            [⟨1, sampleDigest (generateRefreshToken sampleEnv 0 0), 0, sevenDays, true⟩,
             ⟨2, sampleDigest (generateRefreshToken sampleEnv 0 1000), 0, 1000 + sevenDays,
               false⟩,
             ⟨3, sampleDigest (generateRefreshToken sampleEnv 0 2000), 0, 2000 + sevenDays,
               false⟩]
          nextId := 4 },
        .returned (.ok (generateTokens sampleEnv 0 1000)),
        .returned (.ok (generateTokens sampleEnv 0 2000))⟩ ∧
    (Race.run sampleEnv (generateRefreshToken sampleEnv 0 0) ⟨sampleDb, .started, .started⟩
        [(true, 1000), (false, 1000), (true, 1000), (true, 1000), (true, 1000),
         (false, 1500), (false, 1500), (false, 1500)]).second =
      .returned (.threw (.duplicateKey "token")) := by
  decide

end TaskApi
